import Mathlib

/-!
# Publishing catalog front-end (`static/script.js`): a shallow embedding

The script is a browser front-end over a REST API. This development embeds the
parts of it that carry logic: the formatting helpers, the author summary of the
titles list, the royalty average of the report, and the form handlers, as pure
functions over an explicit page state and an explicit event log.

Conventions of the embedding.

* A JavaScript string is a `List Char` (`JSString`). No function of the script
  inspects code units above the basic plane, so the difference between UTF-16
  units and code points does not show.
* A JavaScript number is an IEEE-754 binary64 value, kept exactly as a sign, an
  integer significand and a binary exponent (`JSNumber`). Arithmetic rounds to
  nearest, ties to even, as the language requires.
* Built-ins of the language (`Number`, `parseInt`, `parseFloat`, `toFixed`,
  `trim`, `split`, string conversion, `JSON.stringify`, the members that an
  object literal inherits) are embedded from ECMA-262.
* A value is a primitive or an object; an object (an array or a plain object of
  a JSON payload, a built-in function) is kept by its string conversion, which
  is all the script asks of it (`JSValue`).
* The body of a request is the JSON text written by `JSON.stringify`, kept by
  its members; a number that is not finite is written as `null`.
* The royalty inputs that the script creates are number inputs: their value is
  what the value sanitisation of the HTML standard leaves, as browsers apply it.
* A thrown exception is the `error` side of `Except`.
-/

namespace CatalogUI

/-! ## Strings -/

/-- A JavaScript string, as its sequence of characters. -/
abbrev JSString := List Char

/-- The regular-expression class `\d` (without the unicode-sets flag): `0`..`9`. -/
def isDigit (c : Char) : Bool := decide ('0'.toNat ≤ c.toNat) && decide (c.toNat ≤ '9'.toNat)

/-- ECMA-262 `WhiteSpace` and `LineTerminator` code points: what `trim` strips and what
the numeric parsers skip. -/
def isWhiteSpace (c : Char) : Bool :=
  let n := c.toNat
  n = 0x09 || n = 0x0A || n = 0x0B || n = 0x0C || n = 0x0D || n = 0x20 || n = 0xA0 ||
  n = 0x1680 || (decide (0x2000 ≤ n) && decide (n ≤ 0x200A)) || n = 0x2028 || n = 0x2029 ||
  n = 0x202F || n = 0x205F || n = 0x3000 || n = 0xFEFF

/-- Method `String.prototype.trimStart`. -/
def trimStart (s : JSString) : JSString := s.dropWhile isWhiteSpace

/-- Method `String.prototype.trimEnd`. -/
def trimEnd (s : JSString) : JSString := (s.reverse.dropWhile isWhiteSpace).reverse

/-- Method `String.prototype.trim`. -/
def trim (s : JSString) : JSString := trimEnd (trimStart s)

/-- Worker of `split`: `cur` is the segment being read, reversed. -/
def splitAux (sep : Char) : JSString → JSString → List JSString
  | [], cur => [cur.reverse]
  | c :: cs, cur =>
    if c = sep then cur.reverse :: splitAux sep cs [] else splitAux sep cs (c :: cur)

/-- Method `String.prototype.split` with a one-character separator and no limit: the
segments between the occurrences of the separator (never an empty array). -/
def split (s : JSString) (sep : Char) : List JSString := splitAux sep s []

/-- Method `Array.prototype.join` on an array of strings. -/
def join (sep : JSString) : List JSString → JSString
  | [] => []
  | [x] => x
  | x :: y :: rest => x ++ sep ++ join sep (y :: rest)

/-- Decimal digits of a natural number, most significant first; `fuel` bounds the length. -/
def digitsAux : Nat → Nat → List Char → List Char
  | 0, _, acc => acc
  | fuel + 1, n, acc =>
    let acc := Char.ofNat ('0'.toNat + n % 10) :: acc
    if n / 10 = 0 then acc else digitsAux fuel (n / 10) acc

/-- The decimal representation of a natural number (`"0"` for zero). -/
def natToString (n : Nat) : JSString := digitsAux (n + 1) n []

/-! ## Numbers -/

/-- An IEEE-754 binary64 value: not-a-number, an infinity, or the finite value
`(-1)^neg * m * 2^e`. Results of the operations below are canonical: a normal number has
`2^52 ≤ m < 2^53`, a subnormal has `e = -1074`, a zero is `fin neg 0 (-1074)`. -/
inductive JSNumber
  | nan
  | inf (neg : Bool)
  | fin (neg : Bool) (m : Nat) (e : Int)
deriving DecidableEq, Repr

namespace JSNumber

/-- The power `2^k` for `k ≥ 0`, and `1` for negative `k`. -/
def pow2 (k : Int) : Nat := 1 <<< k.toNat

/-- Nearest integer to `n / d`, ties to even. -/
def divRoundEven (n d : Nat) : Nat :=
  let k := n / d
  let r := n % d
  if 2 * r > d ∨ (2 * r = d ∧ k % 2 = 1) then k + 1 else k

/-- Number of binary digits of `n`; `fuel` bounds the count. -/
def bitLen : Nat → Nat → Nat
  | 0, _ => 0
  | fuel + 1, n => if n = 0 then 0 else bitLen fuel (n / 2) + 1

/-- Floor of the binary logarithm of `n / d`, for positive `n` and `d`. -/
def floorLog2 (n d : Nat) : Int :=
  let e0 : Int := (bitLen n n : Int) - (bitLen d d : Int)
  if n * pow2 (-e0) < d * pow2 e0 then e0 - 1 else e0

/-- The binary64 value nearest to `(-1)^neg * n / d`, ties to even, overflowing to an
infinity and underflowing through the subnormals to a signed zero. -/
def roundRat (neg : Bool) (n d : Nat) : JSNumber :=
  if n = 0 ∨ d = 0 then fin neg 0 (-1074)
  else
    let q : Int := max (floorLog2 n d) (-1022) - 52
    let m := divRoundEven (n * pow2 (-q)) (d * pow2 q)
    let q := if m = pow2 53 then q + 1 else q
    let m := if m = pow2 53 then pow2 52 else m
    if q > 971 then inf neg else fin neg m q

/-- The number value of a natural number. -/
def ofNat (n : Nat) : JSNumber := roundRat false n 1

/-- The number value of an integer. -/
def ofInt (i : Int) : JSNumber := roundRat (decide (i < 0)) i.natAbs 1

/-- Global function `isNaN` on a number. -/
def isNaN : JSNumber → Bool
  | nan => true
  | _ => false

/-- Whether a number is one of the two zeros. -/
def isZero : JSNumber → Bool
  | fin _ m _ => decide (m = 0)
  | _ => false

/-- Whether a number is finite. -/
def isFinite : JSNumber → Bool
  | fin _ _ _ => true
  | _ => false

/-- Whether a number is an integer: a finite value `m * 2^e` with `e ≥ 0`, or with `2^(-e)`
dividing `m`. -/
def isInteger : JSNumber → Bool
  | fin _ m e => if e ≥ 0 then true else m % pow2 (-e) == 0
  | _ => false

/-- Abstract operation `ToBoolean` on a number: zeros and not-a-number are falsy. -/
def truthy : JSNumber → Bool
  | nan => false
  | inf _ => true
  | fin _ m _ => decide (m ≠ 0)

/-- The integer `(-1)^s * m * 2^k`. -/
def signedShift (s : Bool) (m : Nat) (k : Int) : Int :=
  let v : Int := (m * pow2 k : Nat)
  if s then -v else v

/-- Operator `+` on numbers. -/
def add : JSNumber → JSNumber → JSNumber
  | nan, _ => nan
  | _, nan => nan
  | inf a, inf b => if a = b then inf a else nan
  | inf a, fin _ _ _ => inf a
  | fin _ _ _, inf b => inf b
  | fin s1 m1 e1, fin s2 m2 e2 =>
    if m1 = 0 ∧ m2 = 0 then fin (s1 && s2) 0 (-1074)
    else if m1 = 0 then fin s2 m2 e2
    else if m2 = 0 then fin s1 m1 e1
    else
      let e := min e1 e2
      let t := signedShift s1 m1 (e1 - e) + signedShift s2 m2 (e2 - e)
      if t = 0 then fin false 0 (-1074)
      else roundRat (decide (t < 0)) (t.natAbs * pow2 e) (pow2 (-e))

/-- Operator `/` on numbers. -/
def div : JSNumber → JSNumber → JSNumber
  | nan, _ => nan
  | _, nan => nan
  | inf _, inf _ => nan
  | inf a, fin b _ _ => inf (xor a b)
  | fin a _ _, inf b => fin (xor a b) 0 (-1074)
  | fin s1 m1 e1, fin s2 m2 e2 =>
    if m2 = 0 then (if m1 = 0 then nan else inf (xor s1 s2))
    else if m1 = 0 then fin (xor s1 s2) 0 (-1074)
    else roundRat (xor s1 s2) (m1 * pow2 (e1 - e2)) (m2 * pow2 (e2 - e1))

/-- The power `10^k` for `k ≥ 0`, and `1` for negative `k`. -/
def pow10 (k : Int) : Nat := 10 ^ k.toNat

/-- Floor of the decimal logarithm of `n / d`, for positive `n` and `d`. -/
def floorLog10 (n d : Nat) : Int :=
  let k0 : Int := ((natToString n).length : Int) - ((natToString d).length : Int)
  if n * pow10 (-k0) < d * pow10 k0 then k0 - 1 else k0

/-- One step of the digit search of `Number::toString`: the `k`-digit significand `s` and the
decimal point position `n` such that `s * 10^(n-k)` rounds to the value `num / den` (of
significand `m` and exponent `e`) and is nearest to it, if there is one. `n10` is the point
position of the value itself. -/
def shortestAt (m : Nat) (e : Int) (num den : Nat) (n10 : Int) (k : Nat) : Option (Nat × Int) :=
  let a := num * pow10 ((k : Int) - n10)
  let b := den * pow10 (n10 - (k : Int))
  let lo := a / b
  let r := a % b
  let back (s : Nat) : Bool :=
    decide (roundRat false (s * pow10 (n10 - (k : Int))) (pow10 ((k : Int) - n10)) = fin false m e)
  let up : Nat × Int := if lo + 1 = 10 ^ k then (10 ^ (k - 1), n10 + 1) else (lo + 1, n10)
  match back lo, back (lo + 1) with
  | true, true => if 2 * r < b ∨ (2 * r = b ∧ lo % 2 = 0) then some (lo, n10) else some up
  | true, false => some (lo, n10)
  | false, true => some up
  | false, false => none

/-- The shortest significand that reads back as the value: tries `k`, `k + 1`, ... digits,
`fuel` times; seventeen digits always suffice, so the first clause is never reached from
`posToString`. -/
def shortest (m : Nat) (e : Int) (num den : Nat) (n10 : Int) : Nat → Nat → Nat × Int
  | 0, k => ((num * pow10 ((k : Int) - n10)) / (den * pow10 (n10 - (k : Int))), n10)
  | fuel + 1, k =>
    match shortestAt m e num den n10 k with
    | some r => r
    | none => shortest m e num den n10 fuel (k + 1)

/-- Operation `Number::toString` (radix 10) on a positive finite value `m * 2^e`. -/
def posToString (m : Nat) (e : Int) : JSString :=
  let num := m * pow2 e
  let den := pow2 (-e)
  let (s, n) := shortest m e num den (floorLog10 num den + 1) 17 1
  let ds := natToString s
  let k : Int := ds.length
  if k ≤ n ∧ n ≤ 21 then ds ++ List.replicate (n - k).toNat '0'
  else if 0 < n ∧ n ≤ 21 then ds.take n.toNat ++ '.' :: ds.drop n.toNat
  else if -6 < n ∧ n ≤ 0 then '0' :: '.' :: (List.replicate (-n).toNat '0' ++ ds)
  else
    let ex := (if n - 1 < 0 then '-' else '+') :: natToString (n - 1).natAbs
    match ds with
    | [] => []
    | [c] => c :: 'e' :: ex
    | c :: cs => c :: '.' :: (cs ++ 'e' :: ex)

/-- Operation `Number::toString` with radix 10: the string conversion of a number. -/
def toStr : JSNumber → JSString
  | nan => "NaN".toList
  | inf false => "Infinity".toList
  | inf true => "-Infinity".toList
  | fin s m e =>
    if m = 0 then "0".toList
    else if s then '-' :: posToString m e else posToString m e

/-- Method `Number.prototype.toFixed` with `f` fraction digits (`f ≤ 100`). -/
def toFixed (f : Nat) : JSNumber → JSString
  | nan => toStr nan
  | inf s => toStr (inf s)
  | fin s m e =>
    let num := m * pow2 e
    let den := pow2 (-e)
    let sign : JSString := if s ∧ m ≠ 0 then ['-'] else []
    if num ≥ 10 ^ 21 * den then sign ++ toStr (fin false m e)
    else
      let n := (2 * num * 10 ^ f + den) / (2 * den)
      let ds := natToString n
      let ds := List.replicate (f + 1 - ds.length) '0' ++ ds
      if f = 0 then sign ++ ds
      else sign ++ ds.take (ds.length - f) ++ '.' :: ds.drop (ds.length - f)

/-! ### Reading numbers from strings -/

/-- The value of a digit character in a radix up to 16, if it is one. -/
def digitValue (radix : Nat) (c : Char) : Option Nat :=
  let n := c.toNat
  let v : Option Nat :=
    if '0'.toNat ≤ n ∧ n ≤ '9'.toNat then some (n - '0'.toNat)
    else if 'a'.toNat ≤ n ∧ n ≤ 'f'.toNat then some (n - 'a'.toNat + 10)
    else if 'A'.toNat ≤ n ∧ n ≤ 'F'.toNat then some (n - 'A'.toNat + 10)
    else none
  v.filter (fun d => decide (d < radix))

/-- Reads the longest run of radix digits at the head of a string: the value read so far,
the number of digits read, and the rest. -/
def readDigits (radix : Nat) : JSString → Nat → Nat → Nat × Nat × JSString
  | [], acc, cnt => (acc, cnt, [])
  | c :: cs, acc, cnt =>
    match digitValue radix c with
    | some d => readDigits radix cs (acc * radix + d) (cnt + 1)
    | none => (acc, cnt, c :: cs)

/-- The value of an unsigned decimal literal: `Infinity`, or `digits * 10^exp10`. -/
inductive DecLit
  | infinity
  | dec (digits : Nat) (exp10 : Int)
deriving DecidableEq, Repr

/-- The optional `ExponentPart` at the head of a string: the exponent and the rest; a lone
`e` or an `e` with a sign and no digit is not an exponent part. -/
def scanExponent (s : JSString) : Int × JSString :=
  match s with
  | c :: r =>
    if c = 'e' ∨ c = 'E' then
      let (sg, r1) : Bool × JSString :=
        match r with
        | '-' :: t => (true, t)
        | '+' :: t => (false, t)
        | _ => (false, r)
      let (v, cnt, rest) := readDigits 10 r1 0 0
      if cnt = 0 then (0, s) else (if sg then -(v : Int) else (v : Int), rest)
    else (0, s)
  | [] => (0, s)

/-- The longest prefix of a string that is a `StrUnsignedDecimalLiteral` of ECMA-262, with
its value and the rest of the string; `none` when no prefix is one. -/
def scanDecimal (s : JSString) : Option (DecLit × JSString) :=
  if "Infinity".toList.isPrefixOf s then some (DecLit.infinity, s.drop 8)
  else
    let (iv, ic, r1) := readDigits 10 s 0 0
    match r1 with
    | '.' :: r2 =>
      let (fv, fc, r3) := readDigits 10 r2 0 0
      if ic = 0 ∧ fc = 0 then none
      else
        let (ex, r4) := scanExponent r3
        some (DecLit.dec (iv * 10 ^ fc + fv) (ex - fc), r4)
    | _ =>
      if ic = 0 then none
      else
        let (ex, r4) := scanExponent r1
        some (DecLit.dec iv ex, r4)

/-- The number value of a signed decimal literal. -/
def ofDecLit (neg : Bool) : DecLit → JSNumber
  | DecLit.infinity => inf neg
  | DecLit.dec d x => roundRat neg (d * pow10 x) (pow10 (-x))

/-- Splits an optional leading sign off a string. -/
def scanSign : JSString → Bool × JSString
  | '-' :: r => (true, r)
  | '+' :: r => (false, r)
  | s => (false, s)

/-- Global function `parseFloat` on a string: the number of the longest prefix, after leading
white space, that is a decimal literal; not-a-number when there is none. -/
def parseFloatStr (s : JSString) : JSNumber :=
  let (neg, u) := scanSign (trimStart s)
  match scanDecimal u with
  | none => nan
  | some (lit, _) => ofDecLit neg lit

/-- Global function `parseInt` on a string, radix argument absent: sign, optional `0x`
prefix, then the longest run of digits; not-a-number when the run is empty. -/
def parseIntStr (s : JSString) : JSNumber :=
  let (neg, u) := scanSign (trimStart s)
  let (radix, z) : Nat × JSString :=
    match u with
    | '0' :: 'x' :: r => (16, r)
    | '0' :: 'X' :: r => (16, r)
    | _ => (10, u)
  let (v, cnt, _) := readDigits radix z 0 0
  if cnt = 0 then nan else roundRat neg v 1

/-- A string made of one or more digits of the radix and nothing else: its value. -/
def wholeDigits (radix : Nat) (s : JSString) : Option Nat :=
  match readDigits radix s 0 0 with
  | (v, cnt, []) => if cnt = 0 then none else some v
  | _ => none

/-- Abstract operation `StringToNumber`: the whole string, white space trimmed, must be empty
(zero), a signed decimal literal, or an unsigned binary, octal or hexadecimal literal. -/
def ofString (s : JSString) : JSNumber :=
  let t := trim s
  let nonDec (radix : Nat) (r : JSString) : JSNumber :=
    match wholeDigits radix r with
    | some v => roundRat false v 1
    | none => nan
  match t with
  | [] => fin false 0 (-1074)
  | '0' :: 'x' :: r => nonDec 16 r
  | '0' :: 'X' :: r => nonDec 16 r
  | '0' :: 'o' :: r => nonDec 8 r
  | '0' :: 'O' :: r => nonDec 8 r
  | '0' :: 'b' :: r => nonDec 2 r
  | '0' :: 'B' :: r => nonDec 2 r
  | _ =>
    let (neg, u) := scanSign t
    match scanDecimal u with
    | some (lit, []) => ofDecLit neg lit
    | _ => nan

end JSNumber

/-! ## Values -/

/-- A JavaScript value as the script meets it: a primitive, or an object. The values come
from JSON payloads and from the page, so an object is an array or a plain object. Where the
script uses a field as a record or as an array of records it is embedded as a Lean structure
or list; on every other value it never looks inside an object: it tests its truth, converts
it to a string or to a number, compares it with a string, or calls a string method on it. An
object is therefore kept by `text`, the string that `ToString` gives for it: the elements
joined by commas for an array (the array `["2024-01-31"]` is `object` of `2024-01-31`), and
`[object Object]` for a plain object. An object whose own member `toString` hides the
inherited one has no string conversion and is no value of this type. -/
inductive JSValue
  | undefined
  | null
  | bool (b : Bool)
  | num (x : JSNumber)
  | str (s : JSString)
  | object (text : JSString)
deriving DecidableEq, Repr

namespace JSValue

/-- Abstract operation `ToBoolean`: what `!v`, `v || w` and `v ? a : b` test. -/
def truthy : JSValue → Bool
  | undefined => false
  | null => false
  | bool b => b
  | num x => x.truthy
  | str s => !s.isEmpty
  | object _ => true

/-- Abstract operation `ToString`: what a template literal, a regular expression and a
property access apply to their operand. -/
def toStr : JSValue → JSString
  | undefined => "undefined".toList
  | null => "null".toList
  | bool true => "true".toList
  | bool false => "false".toList
  | num x => x.toStr
  | str s => s
  | object text => text

/-- Function call `Number(v)`. An object is converted to a primitive first: `valueOf` gives
the object back, so its string is taken. -/
def toNumber : JSValue → JSNumber
  | undefined => JSNumber.nan
  | null => JSNumber.fin false 0 (-1074)
  | bool true => JSNumber.ofNat 1
  | bool false => JSNumber.fin false 0 (-1074)
  | num x => x
  | str s => JSNumber.ofString s
  | object text => JSNumber.ofString text

/-- Operator `a || b`. -/
def orElse (a b : JSValue) : JSValue := if a.truthy then a else b

end JSValue

/-- A thrown value: an `Error` object with its `message`. -/
structure JSError where
  message : JSValue
deriving DecidableEq, Repr

/-- Equality of results is decidable when equality of errors and of values is. -/
instance instDecidableEqExcept {ε α : Type} [DecidableEq ε] [DecidableEq α] :
    DecidableEq (Except ε α)
  | .ok a, .ok b =>
    if h : a = b then isTrue (by rw [h]) else isFalse (by intro k; cases k; exact h rfl)
  | .error a, .error b =>
    if h : a = b then isTrue (by rw [h]) else isFalse (by intro k; cases k; exact h rfl)
  | .ok _, .error _ => isFalse (by intro k; cases k)
  | .error _, .ok _ => isFalse (by intro k; cases k)

/-- The `TypeError` raised when a method is called on a value that lacks it. -/
def notAFunction (what : String) : JSError := ⟨JSValue.str (what ++ " is not a function").toList⟩

/-- Element `i` of an array of strings, as array destructuring reads it: `undefined` past
the end. -/
def elemAt (parts : List JSString) (i : Nat) : JSValue :=
  match parts.get? i with
  | some s => JSValue.str s
  | none => JSValue.undefined

/-! ## Locale helpers (`script.js` lines 40-68) -/

/-- The test `/^\d{4}-\d{2}-\d{2}$/.test(s)` on a string. -/
def isoPattern (s : JSString) : Bool :=
  match s with
  | [a, b, c, d, h1, e, f, h2, g, h] =>
    isDigit a && isDigit b && isDigit c && isDigit d && h1 == '-' &&
    isDigit e && isDigit f && h2 == '-' && isDigit g && isDigit h
  | _ => false

/-- The test `/^\d{2}-\d{2}-\d{4}$/.test(s)` on a string. -/
def dmyPattern (s : JSString) : Bool :=
  match s with
  | [a, b, h1, c, d, h2, e, f, g, h] =>
    isDigit a && isDigit b && h1 == '-' && isDigit c && isDigit d && h2 == '-' &&
    isDigit e && isDigit f && isDigit g && isDigit h
  | _ => false

/-- The template literal with three substitutions separated by hyphens. -/
def hyphenate (a b c : JSValue) : JSString := a.toStr ++ '-' :: (b.toStr ++ '-' :: c.toStr)

/-- Function `formatDateDisplay(dateStr)`. The regular expressions test the string
conversion of the argument; `split` exists on strings only, so an object whose string
conversion passes the first test raises a `TypeError` at line 52. -/
def formatDateDisplay (dateStr : JSValue) : Except JSError JSValue :=
  if !dateStr.truthy then .ok (.str [])
  else if isoPattern dateStr.toStr then
    match dateStr with
    | .str s =>
      let parts := split s '-'
      let y := elemAt parts 0
      let m := elemAt parts 1
      let d := elemAt parts 2
      .ok (.str (hyphenate d m y))
    | _ => .error (notAFunction "dateStr.split")
  else if dmyPattern dateStr.toStr then .ok dateStr
  else .ok dateStr

/-- Function `dateForInput(value)`. The regular expressions test the string conversion of
the argument; an object whose string conversion passes the second test raises a `TypeError`
at line 64, where `split` is called on it. -/
def dateForInput (value : JSValue) : Except JSError JSValue :=
  if !value.truthy then .ok (.str [])
  else if isoPattern value.toStr then .ok value
  else if dmyPattern value.toStr then
    match value with
    | .str s =>
      let parts := split s '-'
      let d := elemAt parts 0
      let m := elemAt parts 1
      let y := elemAt parts 2
      .ok (.str (hyphenate y m d))
    | _ => .error (notAFunction "value.split")
  else .ok (.str [])

/-- Function `formatCurrencyINR(value)`. The locale formatter
`Intl.NumberFormat('en-IN', {style: 'currency', currency: 'INR'}).format` is supplied by the
host and is the parameter `fmt`. -/
def formatCurrencyINR (fmt : JSNumber → JSString) (value : JSValue) : JSValue :=
  if value = .null ∨ value = .undefined ∨ value = .str [] then .str []
  else
    let num := value.toNumber
    if num.isNaN then value
    else .str (fmt num)

/-! ## Records exchanged with the server -/

/-- Operator `a === b`: same type and same value, where not-a-number differs from itself and
the two zeros are equal. An object is identical to itself only; every comparison of the script
has a string of the page or a literal on one side (lines 42, 147, 170, 435), so an object never
meets itself and the comparison with an object is false. -/
def strictEq : JSValue → JSValue → Bool
  | .undefined, .undefined => true
  | .null, .null => true
  | .bool a, .bool b => a == b
  | .str a, .str b => a == b
  | .num (.fin _ 0 _), .num (.fin _ 0 _) => true
  | .num a, .num b => !a.isNaN && a == b
  | _, _ => false

/-- An author object of the API. A field missing from the payload is `undefined`. -/
structure Author where
  au_id : JSValue
  au_name : JSValue
  au_fname : JSValue
  phone : JSValue
  address : JSValue
  city : JSValue
  state : JSValue
  zip : JSValue
  contract : JSValue
deriving DecidableEq, Repr

/-- An element of the `authors` array of a title: an author object in the list payload, an
author link `{au_id, royaltyper}` in the detail payload. -/
structure TitleAuthor where
  au_id : JSValue
  au_name : JSValue
  au_fname : JSValue
  royaltyper : JSValue
deriving DecidableEq, Repr

/-- The `authors` field of a title: an array of objects, or another value (a pre-joined
string, an absent field, an object that is no array). -/
inductive AuthorsField
  | array (items : List TitleAuthor)
  | scalar (v : JSValue)
deriving DecidableEq, Repr

/-- A title object of the API. -/
structure Title where
  title_id : JSValue
  title : JSValue
  type : JSValue
  pub_id : JSValue
  price : JSValue
  advance : JSValue
  royalty : JSValue
  ytd_sales : JSValue
  pubdate : JSValue
  notes : JSValue
  royaltyper : JSValue
  authors : AuthorsField
deriving DecidableEq, Repr

/-- The display name of lines 121, 331, 400, 455 and 632:
`${author.au_fname || ''} ${author.au_name}`.trim(). -/
def displayName (au_fname au_name : JSValue) : JSString :=
  trim ((au_fname.orElse (.str [])).toStr ++ ' ' :: au_name.toStr)

/-- The summary of the authors of a title in the titles list (lines 325-342). The length of
the array and the count `length - 2` are integers below `2^32`, on which number arithmetic
and string conversion are exact; they are kept as natural numbers. -/
def authorsText (title : Title) : JSString :=
  match title.authors with
  | .array items =>
    let authorNames := items.map (fun author => displayName author.au_fname author.au_name)
    if authorNames.length > 2 then
      join ", ".toList (authorNames.take 2) ++ " +".toList ++
        natToString (authorNames.length - 2) ++ " more".toList
    else join ", ".toList authorNames
  | .scalar v =>
    if v.truthy then
      match v with
      | .str s => s
      | _ => []
    else []

/-- One item of the titles list, by the parts the template of lines 344-355 interpolates:
an optional part is absent when its condition is falsy. -/
structure TitleRow where
  dataId : JSString
  title : JSString
  type : Option JSString
  price : Option JSString
  authors : Option JSString
  badge : JSString
  active : Bool
deriving DecidableEq, Repr

/-- The item of one title (the body of the `map` of line 324). -/
def titleRow (fmt : JSNumber → JSString) (title : Title) : TitleRow :=
  let text := authorsText title
  { dataId := title.title_id.toStr
    title := title.title.toStr
    type := if title.type.truthy then some title.type.toStr else none
    price := if title.price.truthy then some (formatCurrencyINR fmt title.price).toStr else none
    authors := if !text.isEmpty then some text else none
    badge := title.title_id.toStr
    active := false }

/-- The content of a list container: the placeholder of an empty collection, or one item
per record. -/
inductive ListView (ρ : Type)
  | emptyState
  | rows (items : List ρ)
deriving DecidableEq, Repr

/-- Function `renderTitlesList()`: the new content of the titles container. -/
def renderTitlesList (fmt : JSNumber → JSString) (titles : List Title) : ListView TitleRow :=
  if titles.length = 0 then .emptyState
  else .rows (titles.map (titleRow fmt))

/-! ## Royalty average of the author report (lines 651-663) -/

/-- Global function `parseFloat(v)`: the argument is converted to a string first. -/
def parseFloat (v : JSValue) : JSNumber := JSNumber.parseFloatStr v.toStr

/-- Global function `parseInt(v)`: the argument is converted to a string first. -/
def parseInt (v : JSValue) : JSNumber := JSNumber.parseIntStr v.toStr

/-- Operator `x || d` on a number `x` with a numeric default `d`. -/
def numOr (x d : JSNumber) : JSNumber := if x.truthy then x else d

/-- The number `0`. -/
def zero : JSNumber := JSNumber.fin false 0 (-1074)

/-- The text written into `authorRoyalty` for the titles of the report payload: `reduce` adds
`parseFloat(title.royaltyper) || 0` from left to right, starting at zero; the total is divided
by the length and printed by `toFixed(1)`; the literal `0` for an empty array. -/
def averageRoyaltyText (data : List Title) : JSString :=
  if data.length > 0 then
    let totalRoyalty :=
      data.foldl (fun sum title => sum.add (numOr (parseFloat title.royaltyper) zero)) zero
    (totalRoyalty.div (JSNumber.ofNat data.length)).toFixed 1
  else "0".toList

/-- What the report specification says a royalty percentage counts for: zero when it is
missing or not numeric (its numeric conversion `Number(p)` is not-a-number), its numeric
value otherwise. -/
def claimedRoyaltyValue (p : JSValue) : JSNumber :=
  if p = .undefined ∨ p = .null ∨ p.toNumber.isNaN then zero else p.toNumber

/-- The sum of a list of numbers, taken from left to right starting at zero. -/
def sumLeft (xs : List JSNumber) : JSNumber := xs.foldl JSNumber.add zero

/-- The average text as the report specification words it: the literal `0` for no title,
else the sum of the claimed values divided by the count, with one decimal place. -/
def claimedAverageText (data : List Title) : JSString :=
  if data = [] then "0".toList
  else ((sumLeft (data.map (fun t => claimedRoyaltyValue t.royaltyper))).div
    (JSNumber.ofNat data.length)).toFixed 1

/-- What a royalty percentage counts for in the code: the number that `parseFloat` reads at
the head of its text, zero when it reads none or reads a zero. -/
def royaltyValue (p : JSValue) : JSNumber := numOr (parseFloat p) zero

/-- Whether an unsigned text is one or more digits, a point and one digit. -/
def unsignedOneDecimal (s : JSString) : Bool :=
  match s.reverse with
  | d :: p :: ip => isDigit d && p == '.' && !ip.isEmpty && ip.all isDigit
  | _ => false

/-- Whether a text is a decimal numeral with exactly one decimal place: an optional minus
sign, one or more digits, a point and one digit. -/
def oneDecimalPlace (s : JSString) : Bool :=
  match s with
  | '-' :: r => unsignedOneDecimal r
  | _ => unsignedOneDecimal s

/-- A title of the report payload with the given royalty percentage and no other field. -/
def titleWithRoyalty (p : JSValue) : Title :=
  { title_id := .undefined, title := .undefined, type := .undefined, pub_id := .undefined,
    price := .undefined, advance := .undefined, royalty := .undefined, ytd_sales := .undefined,
    pubdate := .undefined, notes := .undefined, royaltyper := p, authors := .scalar .undefined }

/-! ## Page state and events

The page is the four globals of the script and the controls it reads and writes. A control
of the static markup is kept by its current `value` (or `checked`, or inline `style.display`);
the static markup is not part of the script, so the value of such a control is any string.
The royalty inputs of the author matrix are created by the script as number inputs (line
407): their value is what the value sanitisation of such an input leaves.
What a handler does to the outside (a notification, a console line, a request) is appended to
the event log. A handler is run to completion on the outcomes of its awaited requests, which
are its arguments. -/

/-- A link of a title to an author, as the title forms build it (lines 492-496 and
531-534): an object `{au_id, royaltyper}`, with `au_ord` in the add form. -/
structure AuthorLink where
  au_id : JSString
  royaltyper : JSNumber
  au_ord : Option Nat
deriving DecidableEq, Repr

/-- The object `titleData` that the title forms build and hand to `JSON.stringify`. -/
structure TitleData where
  title : JSString
  type : JSString
  pub_id : JSString
  price : JSString
  advance : JSString
  royalty : JSString
  ytd_sales : JSString
  notes : JSString
  pubdate : JSString
  authors : List AuthorLink
deriving DecidableEq, Repr

/-- The object `authorData` that the author form builds and hands to `JSON.stringify`: its
members are strings and a boolean, which the JSON text carries as they are. -/
structure AuthorData where
  au_name : JSString
  au_fname : JSString
  phone : JSString
  address : JSString
  city : JSString
  state : JSString
  zip : JSString
  contract : Bool
deriving DecidableEq, Repr

/-- A link as the JSON text of a request body carries it: the identifier as it is, the
percentage as a number or as `null`. -/
structure AuthorLinkJSON where
  au_id : JSString
  royaltyper : JSValue
  au_ord : Option Nat
deriving DecidableEq, Repr

/-- The JSON text that `JSON.stringify(titleData)` writes (lines 502 and 565), by its
members in the order of the object. -/
structure TitleJSON where
  title : JSString
  type : JSString
  pub_id : JSString
  price : JSString
  advance : JSString
  royalty : JSString
  ytd_sales : JSString
  notes : JSString
  pubdate : JSString
  authors : List AuthorLinkJSON
deriving DecidableEq, Repr

/-- Function `JSON.stringify` on a number (`SerializeJSONProperty`): a finite number is
written by its string, which reads back as the same number (a zero as `0`); an infinity and
not-a-number are written as `null`. -/
def stringifyNumber (x : JSNumber) : JSValue :=
  if x.isFinite then (if x.isZero then .num zero else .num x) else .null

/-- Function `JSON.stringify` on an author link. -/
def stringifyLink (link : AuthorLink) : AuthorLinkJSON :=
  { au_id := link.au_id, royaltyper := stringifyNumber link.royaltyper, au_ord := link.au_ord }

/-- Function `JSON.stringify` on the object `titleData`: strings are written as they are,
the links one by one. -/
def stringifyTitle (d : TitleData) : TitleJSON :=
  { title := d.title, type := d.type, pub_id := d.pub_id, price := d.price,
    advance := d.advance, royalty := d.royalty, ytd_sales := d.ytd_sales, notes := d.notes,
    pubdate := d.pubdate, authors := d.authors.map stringifyLink }

/-- The body of a request: none, or the JSON text that `JSON.stringify` writes for the
object of the form. -/
inductive RequestBody
  | none
  | author (d : AuthorData)
  | title (d : TitleJSON)
deriving DecidableEq, Repr

/-- An effect of a handler on the outside of the page state. -/
inductive Event
  | toast (message : JSValue) (kind : JSString)
  | consoleError (e : JSError)
  | request (method : JSString) (url : JSString) (body : RequestBody)
deriving DecidableEq, Repr

/-- The parsed body of a response: `{success, data, error, message}`. -/
structure ApiResponse (α : Type) where
  success : JSValue
  data : α
  error : JSValue
  message : JSValue

/-- The outcome of `await fetch(...)` followed by `await response.json()`: either promise
rejects with an error, or the body parses to a response object. -/
inductive FetchResult (α : Type)
  | failed (e : JSError)
  | json (r : ApiResponse α)

/-- The free-text genre input next to a genre dropdown. -/
structure OtherInput where
  display : JSString
  value : JSString
deriving DecidableEq, Repr

/-- The controls of the author form. -/
structure AuthorForm where
  authorId : JSString
  authorName : JSString
  authorFname : JSString
  authorPhone : JSString
  authorAddress : JSString
  authorCity : JSString
  authorState : JSString
  authorZip : JSString
  authorContract : Bool
deriving DecidableEq, Repr

/-- The inline `style.display` of the four buttons of the author form. -/
structure AuthorButtons where
  addAuthorBtn : JSString
  updateAuthorBtn : JSString
  deleteAuthorBtn : JSString
  cancelAuthorBtn : JSString
deriving DecidableEq, Repr

/-- One item of the authors list, by the parts the template of lines 124-136 interpolates. -/
structure AuthorRow where
  dataId : JSString
  fullName : JSString
  phone : Option JSString
  location : Option JSString
  contract : Bool
  badge : JSString
  active : Bool
deriving DecidableEq, Repr

/-- The controls of the add-title form. `titleGenreOther` is `none` when the page has no
such element. -/
structure AddTitleForm where
  titleName : JSString
  titleType : JSString
  titleGenreOther : Option OtherInput
  titlePubId : JSString
  titlePrice : JSString
  titleAdvance : JSString
  titleRoyalty : JSString
  titleYtdSales : JSString
  titleNotes : JSString
  titlePubDate : JSString
  titleAuthor : JSString
  titleRoyaltyPer : JSString
deriving DecidableEq, Repr

/-- One row of the author matrix of the edit form (lines 402-418): a checkbox whose value
is the author identifier, a label, and a royalty input with its current value. -/
structure RoyaltyRow where
  author : JSString
  checked : Bool
  label : JSString
  royalty : JSString
  disabled : Bool
deriving DecidableEq, Repr

/-- The controls of the edit-title form, with the rows of its author matrix. -/
structure EditTitleForm where
  editTitleId : JSString
  editTitleName : JSString
  editTitleType : JSString
  editTitleGenreOther : Option OtherInput
  editTitlePubId : JSString
  editTitlePrice : JSString
  editTitleAdvance : JSString
  editTitleRoyalty : JSString
  editTitleYtdSales : JSString
  editTitlePubDate : JSString
  editTitleNotes : JSString
  editTitleAuthors : List RoyaltyRow
deriving DecidableEq, Repr

/-- The state of the page. `authorFormDefault` and `addTitleFormDefault` are the values the
static markup gives the controls, to which `reset()` returns them; `authorOptions` is the
option list (value and text) that the script writes into the two author selectors, of which
`addTitleForm.titleAuthor` and `viewAuthorSelect` are the current values. -/
structure Page where
  authors : List Author
  titles : List Title
  currentAuthorId : JSValue
  currentTitleId : JSValue
  authorForm : AuthorForm
  authorFormDefault : AuthorForm
  authorButtons : AuthorButtons
  authorsList : ListView AuthorRow
  titlesList : ListView TitleRow
  authorOptions : List (JSString × JSString)
  viewAuthorSelect : JSString
  addTitleForm : AddTitleForm
  addTitleFormDefault : AddTitleForm
  editTitleSectionDisplay : JSString
  editTitleFormDisplay : JSString
  editTitleForm : EditTitleForm
  log : List Event
deriving DecidableEq, Repr

/-- API base path `API_BASE`. -/
def API_BASE : JSString := "/api".toList

/-- Appends an event to the log. -/
def Page.emit (pg : Page) (ev : Event) : Page := { pg with log := pg.log ++ [ev] }

/-- Function `showToast(message, type)`: the notification shown. Its removal after three
seconds is a timer and leaves no trace in the state. -/
def showToast (pg : Page) (message : JSValue) (type : JSString) : Page :=
  pg.emit (.toast message type)

/-- The default `type` of `showToast`. -/
def successKind : JSString := "success".toList

/-- Function `showError(error)`. -/
def showError (pg : Page) (error : JSError) : Page :=
  showToast (pg.emit (.consoleError error))
    (error.message.orElse (.str "An error occurred".toList)) "error".toList

/-- Expression `new Error(v)`: the message is the string of `v`, or empty when `v` is
`undefined`. -/
def newError (v : JSValue) : JSError :=
  match v with
  | .undefined => ⟨.str []⟩
  | v => ⟨.str v.toStr⟩

/-- Assignment `input.value = v` on an input or a text area: `null` gives the empty
string, every other value its string. -/
def inputValue (v : JSValue) : JSString :=
  match v with
  | .null => []
  | v => v.toStr

/-- The notifications of an event log, in order, each with its kind. -/
def notifications : List Event → List (JSValue × JSString)
  | [] => []
  | .toast m k :: rest => (m, k) :: notifications rest
  | _ :: rest => notifications rest

/-- The author links of the title bodies sent by the requests of an event log, in order, as
the JSON texts carry them. -/
def linksSent : List Event → List (List AuthorLinkJSON)
  | [] => []
  | .request _ _ (.title d) :: rest => d.authors :: linksSent rest
  | _ :: rest => linksSent rest

/-- The requests of an event log, in order. -/
def requests : List Event → List (JSString × JSString × RequestBody)
  | [] => []
  | .request m u b :: rest => (m, u, b) :: requests rest
  | _ :: rest => requests rest

/-! ## Authors (lines 107-186) -/

/-- The item of one author (the body of the `map` of line 120). The location joins the
truthy ones of city and state. -/
def authorRow (author : Author) : AuthorRow :=
  let location := join ", ".toList
    (([author.city, author.state].filter JSValue.truthy).map JSValue.toStr)
  { dataId := author.au_id.toStr
    fullName := displayName author.au_fname author.au_name
    phone := if author.phone.truthy then some author.phone.toStr else none
    location := if !location.isEmpty then some location else none
    contract := author.contract.truthy
    badge := author.au_id.toStr
    active := false }

/-- Function `renderAuthorsList()`: the new content of the authors container. -/
def renderAuthorsList (authors : List Author) : ListView AuthorRow :=
  if authors.length = 0 then .emptyState
  else .rows (authors.map authorRow)

/-- The loop `item.classList.toggle('active', item.dataset.id === id)` over the items of an
authors list. -/
def highlightAuthors (view : ListView AuthorRow) (id : JSValue) : ListView AuthorRow :=
  match view with
  | .emptyState => .emptyState
  | .rows items =>
    .rows (items.map (fun item => { item with active := strictEq (.str item.dataId) id }))

/-- The same loop over the items of a titles list. -/
def highlightTitles (view : ListView TitleRow) (id : JSValue) : ListView TitleRow :=
  match view with
  | .emptyState => .emptyState
  | .rows items =>
    .rows (items.map (fun item => { item with active := strictEq (.str item.dataId) id }))

/-- Function `selectAuthor(authorId)`. -/
def selectAuthor (pg : Page) (authorId : JSValue) : Page :=
  let pg := { pg with currentAuthorId := authorId }
  match pg.authors.find? (fun a => strictEq a.au_id authorId) with
  | none => pg
  | some author =>
    { pg with
      authorForm :=
        { authorId := inputValue author.au_id
          authorName := inputValue author.au_name
          authorFname := inputValue (author.au_fname.orElse (.str []))
          authorPhone := inputValue (author.phone.orElse (.str []))
          authorAddress := inputValue (author.address.orElse (.str []))
          authorCity := inputValue (author.city.orElse (.str []))
          authorState := inputValue (author.state.orElse (.str []))
          authorZip := inputValue (author.zip.orElse (.str []))
          authorContract := (author.contract.orElse (.bool false)).truthy }
      authorButtons :=
        { addAuthorBtn := "none".toList
          updateAuthorBtn := "inline-flex".toList
          deleteAuthorBtn := "inline-flex".toList
          cancelAuthorBtn := "inline-flex".toList }
      authorsList := highlightAuthors pg.authorsList authorId }

/-! ## Titles (lines 295-580) -/

/-- Function `loadTitles()`, run on the outcome of its request. -/
def loadTitles (fmt : JSNumber → JSString) (pg : Page) (res : FetchResult (List Title)) : Page :=
  let pg := pg.emit (.request "GET".toList (API_BASE ++ "/titles".toList) .none)
  match res with
  | .failed error => showError pg error
  | .json data =>
    if data.success.truthy then
      { pg with titles := data.data, titlesList := renderTitlesList fmt data.data }
    else showError pg (newError data.error)

/-- The names of the members that an object literal inherits from `Object.prototype`. -/
def objectPrototypeNames : List JSString :=
  ["constructor".toList, "__defineGetter__".toList, "__defineSetter__".toList,
    "hasOwnProperty".toList, "__lookupGetter__".toList, "__lookupSetter__".toList,
    "isPrototypeOf".toList, "propertyIsEnumerable".toList, "toString".toList,
    "valueOf".toList, "__proto__".toList, "toLocaleString".toList]

/-- The member that an object literal inherits under a name: the prototype itself under
`__proto__`, a built-in function under the other names of `Object.prototype` (the function
`Object` under `constructor`), nothing under any other name. A function is an object whose
string is its source text, which the engines print as below. -/
def inheritedMember (key : JSString) : JSValue :=
  if key = "__proto__".toList then .object "[object Object]".toList
  else if key = "constructor".toList then
    .object "function Object() \x7b [native code] \x7d".toList
  else if key ∈ objectPrototypeNames then
    .object ("function ".toList ++ key ++ "() \x7b [native code] \x7d".toList)
  else .undefined

/-- Assignment `linkedAuthors[key] = v` on the object `linkedAuthors` of `selectTitle`, kept
as the list of its own members: property names are strings; a later assignment to a name
replaces the earlier one. The name `__proto__` is no own member: the assignment runs the
inherited setter, which ignores a primitive. (An object assigned there becomes the prototype;
what is inherited then depends on the members of that object, which `JSValue` does not hold.
The theorems on the matrix leave the names of `Object.prototype` out.) -/
def setLinked (linked : List (JSString × JSValue)) (key : JSString) (v : JSValue) :
    List (JSString × JSValue) :=
  if key = "__proto__".toList then linked
  else if linked.any (fun kv => kv.1 == key) then
    linked.map (fun kv => if kv.1 == key then (key, v) else kv)
  else linked ++ [(key, v)]

/-- The loop of lines 393-395 over the author links of the title. -/
def linkedAuthorsOf (items : List TitleAuthor) : List (JSString × JSValue) :=
  items.foldl
    (fun linked a =>
      setLinked linked a.au_id.toStr (a.royaltyper.orElse (.num (JSNumber.ofNat 100))))
    []

/-- Property read `linkedAuthors[key]`: the own member of that name, or else the member
inherited from `Object.prototype`. -/
def getLinked (linked : List (JSString × JSValue)) (key : JSString) : JSValue :=
  match linked.find? (fun kv => kv.1 == key) with
  | some kv => kv.2
  | none => inheritedMember key

/-- Method call `linkedAuthors.hasOwnProperty(key)` (line 398). The method is looked up on
the object first: an own member of that name (written by a link whose identifier is
`hasOwnProperty`) hides the inherited function and cannot be called. -/
def hasOwnLinked (linked : List (JSString × JSValue)) (key : JSString) : Except JSError Bool :=
  if linked.any (fun kv => kv.1 == "hasOwnProperty".toList) then
    .error (notAFunction "linkedAuthors.hasOwnProperty")
  else .ok (linked.any (fun kv => kv.1 == key))

/-- Whether a text is a valid floating-point number of the HTML standard: an optional minus
sign; then digits, or digits (or none) followed by a point and digits; then optionally `e` or
`E`, an optional sign and digits. -/
def validFloat (s : JSString) : Bool :=
  let s := match s with
    | '-' :: r => r
    | _ => s
  let whole := s.takeWhile isDigit
  let r := s.dropWhile isDigit
  let (mantissa, r) : Bool × JSString :=
    match r with
    | '.' :: f => (!(f.takeWhile isDigit).isEmpty, f.dropWhile isDigit)
    | _ => (!whole.isEmpty, r)
  mantissa &&
    (match r with
      | [] => true
      | c :: e =>
        (c == 'e' || c == 'E') &&
          (let digits := match e with
            | '+' :: t => t
            | '-' :: t => t
            | _ => e
          !digits.isEmpty && digits.all isDigit))

/-- The value sanitisation of `<input type="number">`, which the page applies to the `value`
attribute of a royalty input and to a value assigned to it: a text that is no valid
floating-point number is replaced by the empty string. Chromium and jsdom drop as well a
valid text that denotes no finite number (`1e999`); the embedding follows them. -/
def sanitizeNumber (s : JSString) : JSString :=
  if validFloat s ∧ (JSNumber.ofString s).isFinite = true then s else []

/-- Whether a text stands for itself when a template interpolates it into the markup or into
a quoted attribute selector: it holds no quotation mark, ampersand, angle bracket, backslash
or control character. -/
def plainText (s : JSString) : Bool :=
  s.all (fun c => !(c.toNat = 34 || c.toNat = 38 || c.toNat = 60 || c.toNat = 62 ||
    c.toNat = 92 || decide (c.toNat < 32)))

/-- The row of the author matrix for one author (the body of the `map` of line 397). The
text of `royaltyPer` is interpolated into the `value` attribute of a number input, which
keeps what the value sanitisation leaves of it. The texts interpolated are taken to stand
for themselves in the markup (`plainText`). -/
def royaltyRow (linked : List (JSString × JSValue)) (author : Author) :
    Except JSError RoyaltyRow :=
  match hasOwnLinked linked author.au_id.toStr with
  | .error e => .error e
  | .ok isLinked =>
    let royaltyPer := (getLinked linked author.au_id.toStr).orElse (.num (JSNumber.ofNat 100))
    .ok { author := author.au_id.toStr
          checked := isLinked
          label := displayName author.au_fname author.au_name
          royalty := sanitizeNumber royaltyPer.toStr
          disabled := !isLinked }

/-- Function `selectTitle(titleId)`, run on the outcome of its request. The fields are
written in source order, so an exception on the way (a date that cannot be converted, an
`authors` field that is no array, a method of `linkedAuthors` that cannot be called) leaves
the earlier writes in place and is reported; the matrix is written only when every row is
built. -/
def selectTitle (pg : Page) (titleId : JSValue) (res : FetchResult Title) : Page :=
  let pg := { pg with currentTitleId := titleId }
  let pg := pg.emit (.request "GET".toList (API_BASE ++ "/titles/".toList ++ titleId.toStr) .none)
  match res with
  | .failed error => showError pg error
  | .json data =>
    if data.success.truthy then
      let title := data.data
      let pg := { pg with
        editTitleSectionDisplay := "none".toList
        editTitleFormDisplay := "block".toList }
      let form := { pg.editTitleForm with
        editTitleId := inputValue title.title_id
        editTitleName := inputValue title.title
        editTitleType := (title.type.orElse (.str [])).toStr
        editTitlePubId := inputValue (title.pub_id.orElse (.str []))
        editTitlePrice := inputValue (title.price.orElse (.str []))
        editTitleAdvance := inputValue (title.advance.orElse (.str []))
        editTitleRoyalty := inputValue (title.royalty.orElse (.str []))
        editTitleYtdSales := inputValue (title.ytd_sales.orElse (.str [])) }
      match dateForInput title.pubdate with
      | .error error => showError { pg with editTitleForm := form } error
      | .ok date =>
        let form := { form with
          editTitlePubDate := inputValue (date.orElse (.str []))
          editTitleNotes := inputValue (title.notes.orElse (.str [])) }
        match title.authors with
        | .scalar _ =>
          showError { pg with editTitleForm := form } (notAFunction "title.authors.forEach")
        | .array items =>
          let linkedAuthors := linkedAuthorsOf items
          match pg.authors.mapM (royaltyRow linkedAuthors) with
          | .error error => showError { pg with editTitleForm := form } error
          | .ok rows =>
            { pg with
              editTitleForm := { form with editTitleAuthors := rows }
              titlesList := highlightTitles pg.titlesList titleId }
    else showError pg (newError data.error)

/-- The effective genre of a title form (lines 469 and 546): the trimmed text of the
free-text input when the element exists, its inline display is not `none` and the trimmed
text is not empty; the trimmed value of the dropdown otherwise. -/
def selectedGenre (otherGenre : Option OtherInput) (genreSelect : JSString) : JSString :=
  match otherGenre with
  | some other =>
    if other.display ≠ "none".toList ∧ (trim other.value).isEmpty = false then trim other.value
    else trim genreSelect
  | none => trim genreSelect

/-- Expression `parseInt(input.value) || 100` of lines 473 and 534. -/
def royaltyOf (text : JSString) : JSNumber := numOr (parseInt (.str text)) (JSNumber.ofNat 100)

/-- Method `form.reset()` on the add-title form: every control returns to its default
value; the inline display of the free-text genre input is no value and stays. -/
def resetAddTitleForm (pg : Page) : AddTitleForm :=
  { pg.addTitleFormDefault with
    titleGenreOther :=
      match pg.addTitleForm.titleGenreOther, pg.addTitleFormDefault.titleGenreOther with
      | some cur, some dflt => some { cur with value := dflt.value }
      | cur, _ => cur }

/-- The object `titleData` of the add-title form (lines 481-496): the trimmed controls and a
single link to the selected author with authoring order 1. -/
def addTitleData (form : AddTitleForm) : TitleData :=
  { title := trim form.titleName
    type := selectedGenre form.titleGenreOther form.titleType
    pub_id := trim form.titlePubId
    price := trim form.titlePrice
    advance := trim form.titleAdvance
    royalty := trim form.titleRoyalty
    ytd_sales := trim form.titleYtdSales
    notes := trim form.titleNotes
    pubdate := trim form.titlePubDate
    authors :=
      [{ au_id := trim form.titleAuthor
         royaltyper := royaltyOf form.titleRoyaltyPer
         au_ord := some 1 }] }

/-- The submit handler of the add-title form (lines 463-517), run on the outcomes of the
creation request and of the reload that follows a success. -/
def submitAddTitle (fmt : JSNumber → JSString) (pg : Page) (post : FetchResult Unit)
    (reload : FetchResult (List Title)) : Page :=
  let authorId := trim pg.addTitleForm.titleAuthor
  if authorId.isEmpty then
    showToast pg (.str "Please select an author".toList) "error".toList
  else
    let titleData := addTitleData pg.addTitleForm
    let pg := pg.emit (.request "POST".toList (API_BASE ++ "/titles".toList)
      (.title (stringifyTitle titleData)))
    match post with
    | .failed error => showError pg error
    | .json data =>
      if data.success.truthy then
        let pg := showToast pg (.str "Title added successfully!".toList) successKind
        let pg := { pg with addTitleForm := resetAddTitleForm pg }
        loadTitles fmt pg reload
      else showError pg (newError data.error)

/-- The loop of lines 529-536: one link per checked checkbox, in document order; the
royalty is read from the first input whose `data-author` is the value of the checkbox.
Identifiers are taken free of characters that an attribute selector would need escaped
(`plainText`). -/
def collectSelected (rows : List RoyaltyRow) : Except JSError (List AuthorLink) :=
  (rows.filter (fun cb => cb.checked)).mapM (fun cb =>
    match rows.find? (fun input => input.author == cb.author) with
    | some royaltyInput =>
      .ok { au_id := cb.author, royaltyper := royaltyOf royaltyInput.royalty, au_ord := none }
    | none => .error ⟨.str "Cannot read properties of null (reading 'value')".toList⟩)

/-- The object `titleData` of the edit-title form (lines 548-559). -/
def editTitleData (form : EditTitleForm) (selectedAuthors : List AuthorLink) : TitleData :=
  { title := trim form.editTitleName
    type := selectedGenre form.editTitleGenreOther form.editTitleType
    pub_id := trim form.editTitlePubId
    price := trim form.editTitlePrice
    advance := trim form.editTitleAdvance
    royalty := trim form.editTitleRoyalty
    ytd_sales := trim form.editTitleYtdSales
    notes := trim form.editTitleNotes
    pubdate := trim form.editTitlePubDate
    authors := selectedAuthors }

/-- The submit handler of the edit-title form (lines 520-580), run on the outcomes of the
update request, of the reload and of the detail request that follow a success. An exception
outside the `try` block rejects the handler: the `error` side. -/
def submitEditTitle (fmt : JSNumber → JSString) (pg : Page) (put : FetchResult Unit)
    (reload : FetchResult (List Title)) (detail : FetchResult Title) : Except JSError Page :=
  if !pg.currentTitleId.truthy then .ok pg
  else
    match collectSelected pg.editTitleForm.editTitleAuthors with
    | .error e => .error e
    | .ok selectedAuthors =>
      if selectedAuthors.length = 0 then
        .ok (showToast pg (.str "Please select at least one author".toList) "error".toList)
      else
        let titleData := editTitleData pg.editTitleForm selectedAuthors
        let pg := pg.emit (.request "PUT".toList
          (API_BASE ++ "/titles/".toList ++ pg.currentTitleId.toStr)
          (.title (stringifyTitle titleData)))
        match put with
        | .failed error => .ok (showError pg error)
        | .json data =>
          if data.success.truthy then
            let pg := showToast pg (.str "Title updated successfully!".toList) successKind
            let pg := loadTitles fmt pg reload
            .ok (selectTitle pg pg.currentTitleId detail)
          else .ok (showError pg (newError data.error))

/-! ## Author form and reloads (lines 90-105, 174-291, 445-460) -/

/-- The loop `item.classList.remove('active')` over the items of an authors list. -/
def clearActive (view : ListView AuthorRow) : ListView AuthorRow :=
  match view with
  | .emptyState => .emptyState
  | .rows items => .rows (items.map (fun item => { item with active := false }))

/-- Function `resetAuthorForm()`: the selection is cleared, the form returns to its
defaults and its identifier field is emptied, the buttons return to create mode and no item
stays highlighted. -/
def resetAuthorForm (pg : Page) : Page :=
  { pg with
    currentAuthorId := .null
    authorForm := { pg.authorFormDefault with authorId := [] }
    authorButtons :=
      { addAuthorBtn := "inline-flex".toList
        updateAuthorBtn := "none".toList
        deleteAuthorBtn := "none".toList
        cancelAuthorBtn := "none".toList }
    authorsList := clearActive pg.authorsList }

/-- The options written into an author selector (lines 453-457): the fixed first option and
one option per author. -/
def authorOptionsOf (authors : List Author) : List (JSString × JSString) :=
  ([], "Select an author".toList) ::
    authors.map (fun author =>
      (author.au_id.toStr,
        displayName author.au_fname author.au_name ++ " (".toList ++ author.au_id.toStr ++
          ")".toList))

/-- The value of a selector after its options were replaced and its former value assigned
back (line 458): the former value when an option carries it, the empty value of the first
option otherwise. -/
def reselect (options : List (JSString × JSString)) (currentValue : JSString) : JSString :=
  if options.any (fun o => o.1 == currentValue) then currentValue else []

/-- Function `populateAuthorSelects()`. -/
def populateAuthorSelects (pg : Page) : Page :=
  let options := authorOptionsOf pg.authors
  { pg with
    authorOptions := options
    addTitleForm := { pg.addTitleForm with
      titleAuthor := reselect options pg.addTitleForm.titleAuthor }
    viewAuthorSelect := reselect options pg.viewAuthorSelect }

/-- Function `loadAuthors()`, run on the outcome of its request. -/
def loadAuthors (pg : Page) (res : FetchResult (List Author)) : Page :=
  let pg := pg.emit (.request "GET".toList (API_BASE ++ "/authors".toList) .none)
  match res with
  | .failed error => showError pg error
  | .json data =>
    if data.success.truthy then
      let pg := { pg with authors := data.data }
      let pg := { pg with authorsList := renderAuthorsList pg.authors }
      populateAuthorSelects pg
    else showError pg (newError data.error)

/-- The object `authorData` of the author form (lines 192-201 and 229-238). -/
def authorDataOf (form : AuthorForm) : AuthorData :=
  { au_name := trim form.authorName
    au_fname := trim form.authorFname
    phone := trim form.authorPhone
    address := trim form.authorAddress
    city := trim form.authorCity
    state := trim form.authorState
    zip := trim form.authorZip
    contract := form.authorContract }

/-- What the three author handlers do after a response with a truthy `success` (lines
213-216, 250-253, 278-281): notify, reset the form, reload the authors, reload the titles. -/
def afterAuthorSuccess (fmt : JSNumber → JSString) (pg : Page) (message : JSValue)
    (authorsRes : FetchResult (List Author)) (titlesRes : FetchResult (List Title)) : Page :=
  let pg := showToast pg message successKind
  let pg := resetAuthorForm pg
  let pg := loadAuthors pg authorsRes
  loadTitles fmt pg titlesRes

/-- The submit handler of the author form (lines 189-223), run on the outcomes of the
creation request and of the two reloads that follow a success. -/
def submitAuthorForm (fmt : JSNumber → JSString) (pg : Page) (post : FetchResult Unit)
    (authorsRes : FetchResult (List Author)) (titlesRes : FetchResult (List Title)) : Page :=
  let authorData := authorDataOf pg.authorForm
  let pg := pg.emit (.request "POST".toList (API_BASE ++ "/authors".toList) (.author authorData))
  match post with
  | .failed error => showError pg error
  | .json data =>
    if data.success.truthy then
      afterAuthorSuccess fmt pg (.str "Author added successfully!".toList) authorsRes titlesRes
    else showError pg (newError data.error)

/-- The click handler of the update button (lines 226-260). -/
def clickUpdateAuthor (fmt : JSNumber → JSString) (pg : Page) (put : FetchResult Unit)
    (authorsRes : FetchResult (List Author)) (titlesRes : FetchResult (List Title)) : Page :=
  if !pg.currentAuthorId.truthy then pg
  else
    let authorData := authorDataOf pg.authorForm
    let pg := pg.emit (.request "PUT".toList
      (API_BASE ++ "/authors/".toList ++ pg.currentAuthorId.toStr) (.author authorData))
    match put with
    | .failed error => showError pg error
    | .json data =>
      if data.success.truthy then
        afterAuthorSuccess fmt pg (.str "Author updated successfully!".toList) authorsRes
          titlesRes
      else showError pg (newError data.error)

/-- The click handler of the delete button of the author form (lines 263-288); `confirmed`
is the answer of the user to the confirmation dialog. -/
def clickDeleteAuthor (fmt : JSNumber → JSString) (pg : Page) (confirmed : Bool)
    (del : FetchResult Unit) (authorsRes : FetchResult (List Author))
    (titlesRes : FetchResult (List Title)) : Page :=
  if !pg.currentAuthorId.truthy then pg
  else if !confirmed then pg
  else
    let pg := pg.emit (.request "DELETE".toList
      (API_BASE ++ "/authors/".toList ++ pg.currentAuthorId.toStr) .none)
    match del with
    | .failed error => showError pg error
    | .json data =>
      if data.success.truthy then afterAuthorSuccess fmt pg data.message authorsRes titlesRes
      else showError pg (newError data.error)

/-- The click handler of the delete button of the edit-title form (lines 583-609). -/
def clickDeleteTitle (fmt : JSNumber → JSString) (pg : Page) (confirmed : Bool)
    (del : FetchResult Unit) (titlesRes : FetchResult (List Title)) : Page :=
  if !pg.currentTitleId.truthy then pg
  else if !confirmed then pg
  else
    let pg := pg.emit (.request "DELETE".toList
      (API_BASE ++ "/titles/".toList ++ pg.currentTitleId.toStr) .none)
    match del with
    | .failed error => showError pg error
    | .json data =>
      if data.success.truthy then
        let pg := showToast pg (.str "Title deleted successfully!".toList) successKind
        let pg := { pg with
          currentTitleId := .null
          editTitleSectionDisplay := "block".toList
          editTitleFormDisplay := "none".toList }
        loadTitles fmt pg titlesRes
      else showError pg (newError data.error)

/-- Function `init()` (lines 704-712): neither load lets an exception out, so the final
notification is always shown. -/
def init (fmt : JSNumber → JSString) (pg : Page) (authorsRes : FetchResult (List Author))
    (titlesRes : FetchResult (List Title)) : Page :=
  let pg := loadAuthors pg authorsRes
  let pg := loadTitles fmt pg titlesRes
  showToast pg (.str "Application loaded successfully!".toList) successKind

/-! ## Genre toggles and checkbox wiring (lines 421-431, 717-736) -/

/-- The listener of `setupGenreToggles` on a genre dropdown: the free-text input is shown
exactly when the dropdown holds the value `other`. -/
def toggleOther (genreSelect : JSString) (otherInput : Option OtherInput) : Option OtherInput :=
  otherInput.map (fun o =>
    { o with display := if genreSelect = "other".toList then "block".toList else "none".toList })

/-- The user picks a value in the genre dropdown of the add-title form: the `change`
listener runs. -/
def changeTitleType (pg : Page) (value : JSString) : Page :=
  { pg with addTitleForm := { pg.addTitleForm with
      titleType := value
      titleGenreOther := toggleOther value pg.addTitleForm.titleGenreOther } }

/-- The user picks a value in the genre dropdown of the edit-title form: the `change`
listener runs. -/
def changeEditTitleType (pg : Page) (value : JSString) : Page :=
  { pg with editTitleForm := { pg.editTitleForm with
      editTitleType := value
      editTitleGenreOther := toggleOther value pg.editTitleForm.editTitleGenreOther } }

/-- Applies `f` to the first element of a list that satisfies `p`. -/
def modifyFirst {α : Type} (p : α → Bool) (f : α → α) : List α → List α
  | [] => []
  | x :: xs => if p x then f x :: xs else x :: modifyFirst p f xs

/-- The user sets the checkbox of row `i` of the author matrix: the `change` listener of
lines 423-430 enables or disables the first royalty input of that author and seeds an empty
one with 100 (which the sanitisation keeps) when the box is checked. -/
def changeAuthorCheckbox (rows : List RoyaltyRow) (i : Nat) (checked : Bool) : List RoyaltyRow :=
  match rows.get? i with
  | none => rows
  | some cb =>
    let rows := rows.set i { cb with checked := checked }
    modifyFirst (fun input => input.author == cb.author)
      (fun royaltyInput =>
        { royaltyInput with
          disabled := !checked
          royalty :=
            if checked ∧ royaltyInput.royalty.isEmpty then "100".toList
            else royaltyInput.royalty })
      rows

/-! ## Sample states -/

/-- A page with empty collections, no selection, empty controls and an empty log. -/
def blankPage : Page :=
  { authors := []
    titles := []
    currentAuthorId := .null
    currentTitleId := .null
    authorForm := ⟨[], [], [], [], [], [], [], [], false⟩
    authorFormDefault := ⟨[], [], [], [], [], [], [], [], false⟩
    authorButtons := ⟨"inline-flex".toList, "none".toList, "none".toList, "none".toList⟩
    authorsList := .emptyState
    titlesList := .emptyState
    authorOptions := [([], "Select an author".toList)]
    viewAuthorSelect := []
    addTitleForm := ⟨[], [], some ⟨"none".toList, []⟩, [], [], [], [], [], [], [], [], []⟩
    addTitleFormDefault := ⟨[], [], some ⟨"none".toList, []⟩, [], [], [], [], [], [], [], [], []⟩
    editTitleSectionDisplay := "block".toList
    editTitleFormDisplay := "none".toList
    editTitleForm := ⟨[], [], [], some ⟨"none".toList, []⟩, [], [], [], [], [], [], [], []⟩
    log := [] }

/-- An author with the given identifier and names and no other field. -/
def sampleAuthor (id fname name : String) : Author :=
  { au_id := .str id.toList, au_name := .str name.toList, au_fname := .str fname.toList,
    phone := .undefined, address := .undefined, city := .undefined, state := .undefined,
    zip := .undefined, contract := .undefined }

/-- An element of an `authors` array with the given names. -/
def sampleTitleAuthor (fname name : String) : TitleAuthor :=
  { au_id := .undefined, au_name := .str name.toList, au_fname := .str fname.toList,
    royaltyper := .undefined }

/-- A page in edit mode: one loaded author `A1`, rendered and selected. -/
def editingPage : Page :=
  selectAuthor
    { blankPage with
      authors := [sampleAuthor "A1" "Bob" "Ray"]
      authorsList := renderAuthorsList [sampleAuthor "A1" "Bob" "Ray"] }
    (.str "A1".toList)

/-- A page whose one loaded author carries the number 7 as identifier, rendered: the item of
the list carries the string `7` in its `data-id`. -/
def numericIdPage : Page :=
  { blankPage with
    authors := [{ sampleAuthor "" "Bob" "Ray" with au_id := .num (JSNumber.ofNat 7) }]
    authorsList :=
      renderAuthorsList [{ sampleAuthor "" "Bob" "Ray" with au_id := .num (JSNumber.ofNat 7) }] }

/-- A page with the title `T1` selected and an author matrix of two rows, neither checked. -/
def uncheckedEditPage : Page :=
  { blankPage with
    currentTitleId := .str "T1".toList
    editTitleForm := { blankPage.editTitleForm with
      editTitleAuthors :=
        [⟨"A1".toList, false, "Bob Ray".toList, "100".toList, true⟩,
         ⟨"A2".toList, false, "Ann Lee".toList, "100".toList, true⟩] } }

/-- The in-memory state of the script: its four globals. -/
def inMemory (pg : Page) : List Author × List Title × JSValue × JSValue :=
  (pg.authors, pg.titles, pg.currentAuthorId, pg.currentTitleId)

/-- A title of the detail payload with the given identifier, name and author links. -/
def sampleTitle (id name : String) (links : List TitleAuthor) : Title :=
  { titleWithRoyalty .undefined with
    title_id := .str id.toList
    title := .str name.toList
    authors := .array links }

/-- An author link `{au_id, royaltyper}` of the detail payload. -/
def sampleLink (id : String) (royaltyper : JSValue) : TitleAuthor :=
  { au_id := .str id.toList, au_name := .undefined, au_fname := .undefined,
    royaltyper := royaltyper }

/-- A response body with `success: true` and the given data. -/
def okResponse {α : Type} (data : α) : ApiResponse α :=
  { success := .bool true, data := data, error := .undefined, message := .undefined }

/-- A page that shows the title `T1` in the edit form: two authors loaded, the title
selected with success, its one link to `A1` at 50 percent. -/
def shownTitlePage : Page :=
  selectTitle
    { blankPage with authors := [sampleAuthor "A1" "Bob" "Ray", sampleAuthor "A2" "Ann" "Lee"] }
    (.str "T1".toList)
    (.json (okResponse (sampleTitle "T1" "First" [sampleLink "A1" (.num (JSNumber.ofNat 50))])))

/-- What the error handling design promises of an operation whose network call rejects with
`e`, between the page `pg` before and the page `r` after: the four globals are the same, and
exactly one notification was added, of the kind `error`. -/
def RejectionHandled (pg r : Page) (e : JSError) : Prop :=
  inMemory r = inMemory pg ∧
  notifications r.log
    = notifications pg.log ++
        [(e.message.orElse (.str "An error occurred".toList), "error".toList)]

/-- The link that a list of author links carries for an author: the last one whose
identifier has the same string form as the author's, if any. -/
def lastLink (links : List TitleAuthor) (key : JSString) : Option TitleAuthor :=
  (links.filter (fun a => a.au_id.toStr == key)).getLast?

/-- The row of the author matrix as the selection of a title builds it, in the words of the
specification: checked, enabled and pre-filled with the percentage of its link, or 100 when
that percentage is falsy (absent, null, zero, empty), as a number input holds that text, for
a linked author; unchecked, disabled and showing 100 for every other author. -/
def matrixRowSpec (links : List TitleAuthor) (author : Author) : RoyaltyRow :=
  match lastLink links author.au_id.toStr with
  | some link =>
    { author := author.au_id.toStr
      checked := true
      label := displayName author.au_fname author.au_name
      royalty := sanitizeNumber (link.royaltyper.orElse (.num (JSNumber.ofNat 100))).toStr
      disabled := false }
  | none =>
    { author := author.au_id.toStr
      checked := false
      label := displayName author.au_fname author.au_name
      royalty := "100".toList
      disabled := true }

/-- The royalty text of a linked row as the claim words it: the percentage that the link
carries, 100 only if the link carries none. -/
def claimedRoyaltyText (link : TitleAuthor) : JSString :=
  if link.royaltyper = .undefined ∨ link.royaltyper = .null then "100".toList
  else link.royaltyper.toStr

/-- The payloads on which the rows of the matrix are as the specification words them: no
identifier of a loaded author or of a link is the name of a member of `Object.prototype`, and
the texts that the template interpolates (identifier and display name of an author, the
percentage of a link or its default) stand for themselves in the markup. -/
def MatrixInputs (authors : List Author) (links : List TitleAuthor) : Prop :=
  (∀ author ∈ authors,
    author.au_id.toStr ∉ objectPrototypeNames ∧
    plainText author.au_id.toStr = true ∧
    plainText (displayName author.au_fname author.au_name) = true) ∧
  (∀ link ∈ links,
    link.au_id.toStr ∉ objectPrototypeNames ∧
    plainText (link.royaltyper.orElse (.num (JSNumber.ofNat 100))).toStr = true)

/-- The request `GET /api/authors` of `loadAuthors`. -/
def getAuthors : JSString × JSString × RequestBody :=
  ("GET".toList, "/api/authors".toList, .none)

/-- The request `GET /api/titles` of `loadTitles`. -/
def getTitles : JSString × JSString × RequestBody :=
  ("GET".toList, "/api/titles".toList, .none)

/-- What is observed, between the page `pg` before and the page `r` after, of an author
mutation `req` answered with success: the requests issued are the mutation, then the fetch of
the authors, then the fetch of the titles; the selection is cleared, the form is back at its
defaults with an empty identifier and the buttons are in create mode. -/
def ReloadedAfter (pg r : Page) (req : JSString × JSString × RequestBody) : Prop :=
  requests r.log = requests pg.log ++ [req, getAuthors, getTitles] ∧
  r.currentAuthorId = .null ∧
  r.authorForm = { pg.authorFormDefault with authorId := [] } ∧
  r.authorButtons = ⟨"inline-flex".toList, "none".toList, "none".toList, "none".toList⟩

/-- What is observed of an author mutation `req` answered with an application-level failure
carrying the message `error`: no request follows the mutation, the form, the selection and
the buttons are untouched, and the failure is notified once. -/
def KeptAfterFailure (pg r : Page) (req : JSString × JSString × RequestBody) (error : JSValue) :
    Prop :=
  requests r.log = requests pg.log ++ [req] ∧
  r.currentAuthorId = pg.currentAuthorId ∧
  r.authorForm = pg.authorForm ∧
  r.authorButtons = pg.authorButtons ∧
  notifications r.log
    = notifications pg.log ++
        [((newError error).message.orElse (.str "An error occurred".toList), "error".toList)]

/-- A page whose author form holds the names `Bob` and `Ray`. -/
def filledAuthorPage : Page :=
  { blankPage with
    authorForm := { blankPage.authorForm with
      authorName := "Ray".toList, authorFname := " Bob".toList } }

/-- Whether the free-text genre input is visible to the script: the element exists and its
inline display is not `none`. -/
def otherVisible (otherGenre : Option OtherInput) : Bool :=
  match otherGenre with
  | some other => other.display != "none".toList
  | none => false

/-- The trimmed text of the free-text genre input (empty when the element is absent). -/
def otherText (otherGenre : Option OtherInput) : JSString :=
  match otherGenre with
  | some other => trim other.value
  | none => []

/-- A royalty text that a number input holds and of which `parseInt` reads more digits than
a number has room for: a one followed by 309 zeros and the exponent `e-5`. As a decimal
literal it denotes `1e304`; `parseInt` stops at the letter and reads the 310 digits. -/
def longRoyaltyText : JSString := '1' :: (List.replicate 309 '0' ++ "e-5".toList)

/-- A page with the title `T1` selected, whose add-title form selects the author `A1` and
holds the long royalty text, and whose author matrix has one checked row for `A1` with the
same text. -/
def hugeRoyaltyPage : Page :=
  { blankPage with
    currentTitleId := .str "T1".toList
    addTitleForm := { blankPage.addTitleForm with
      titleAuthor := "A1".toList
      titleRoyaltyPer := longRoyaltyText }
    editTitleForm := { blankPage.editTitleForm with
      editTitleAuthors := [⟨"A1".toList, true, "Bob Ray".toList, longRoyaltyText, false⟩] } }

/-- A page whose add-title form selects the author `A1`, holds `other` in the genre dropdown
and ` Poetry ` in the visible free-text input; its edit form shows the title `T1` with one
checked author row, the dropdown at `business` and the free-text input hidden. -/
def customGenrePage : Page :=
  { blankPage with
    currentTitleId := .str "T1".toList
    addTitleForm := { blankPage.addTitleForm with
      titleAuthor := "A1".toList
      titleType := "other".toList
      titleGenreOther := some ⟨"block".toList, " Poetry ".toList⟩ }
    editTitleForm := { blankPage.editTitleForm with
      editTitleType := "business ".toList
      editTitleGenreOther := some ⟨"none".toList, "Poetry".toList⟩
      editTitleAuthors := [⟨"A1".toList, true, "Bob Ray".toList, "40".toList, false⟩] } }

/-- What holds of every royalty percentage that a title submission places in an author link:
it is not not-a-number, it is not zero, and it is an integer whenever it is finite. -/
def RoyaltySent (x : JSNumber) : Prop :=
  x.isNaN = false ∧ x.isZero = false ∧ (x.isFinite = true → x.isInteger = true)

/-- What holds of the percentage of every link that a request body carries: it is `null`, or
a number that is a non-zero integer. -/
def RoyaltyWritten (v : JSValue) : Prop :=
  v = .null ∨ ∃ x : JSNumber, v = .num x ∧ x.isZero = false ∧ x.isInteger = true

/-- A response body with a falsy `success` and the given error message. -/
def failedResponse (error : String) : ApiResponse Unit :=
  { success := .bool false, data := (), error := .str error.toList, message := .undefined }

/-! # Theorems -/

theorem isDigit_ne_hyphen {c : Char} (h : isDigit c = true) : c ≠ '-' := by
  intro hc
  subst hc
  revert h
  decide

theorem isoPattern_shape {s : JSString} (h : isoPattern s = true) :
    ∃ a b c d e f g k, s = [a, b, c, d, '-', e, f, '-', g, k] ∧
      isDigit a = true ∧ isDigit b = true ∧ isDigit c = true ∧ isDigit d = true ∧
      isDigit e = true ∧ isDigit f = true ∧ isDigit g = true ∧ isDigit k = true := by
  unfold isoPattern at h
  split at h
  · rename_i a b c d h1 e f h2 g k
    simp only [Bool.and_eq_true, beq_iff_eq] at h
    obtain ⟨⟨⟨⟨⟨⟨⟨⟨⟨ha, hb⟩, hc⟩, hd⟩, hh1⟩, he⟩, hf⟩, hh2⟩, hg⟩, hk⟩ := h
    subst hh1 hh2
    exact ⟨a, b, c, d, e, f, g, k, rfl, ha, hb, hc, hd, he, hf, hg, hk⟩
  · exact absurd h (by simp)

theorem split_three {a b c d e f g k : Char} (ha : a ≠ '-') (hb : b ≠ '-') (hc : c ≠ '-')
    (hd : d ≠ '-') (he : e ≠ '-') (hf : f ≠ '-') (hg : g ≠ '-') (hk : k ≠ '-') :
    split [a, b, c, d, '-', e, f, '-', g, k] '-' = [[a, b, c, d], [e, f], [g, k]] := by
  simp [split, splitAux, ha, hb, hc, hd, he, hf, hg, hk]

theorem dmyPattern_shape {s : JSString} (h : dmyPattern s = true) :
    ∃ a b c d e f g k, s = [a, b, '-', c, d, '-', e, f, g, k] ∧
      isDigit a = true ∧ isDigit b = true ∧ isDigit c = true ∧ isDigit d = true ∧
      isDigit e = true ∧ isDigit f = true ∧ isDigit g = true ∧ isDigit k = true := by
  unfold dmyPattern at h
  split at h
  · rename_i a b h1 c d h2 e f g k
    simp only [Bool.and_eq_true, beq_iff_eq] at h
    obtain ⟨⟨⟨⟨⟨⟨⟨⟨⟨ha, hb⟩, hh1⟩, hc⟩, hd⟩, hh2⟩, he⟩, hf⟩, hg⟩, hk⟩ := h
    subst hh1 hh2
    exact ⟨a, b, c, d, e, f, g, k, rfl, ha, hb, hc, hd, he, hf, hg, hk⟩
  · exact absurd h (by simp)

theorem split_dmy {a b c d e f g k : Char} (ha : a ≠ '-') (hb : b ≠ '-') (hc : c ≠ '-')
    (hd : d ≠ '-') (he : e ≠ '-') (hf : f ≠ '-') (hg : g ≠ '-') (hk : k ≠ '-') :
    split [a, b, '-', c, d, '-', e, f, g, k] '-' = [[a, b], [c, d], [e, f, g, k]] := by
  simp [split, splitAux, ha, hb, hc, hd, he, hf, hg, hk]

/-- An ISO date is not in day-first form: its third character is a digit. -/
theorem isoPattern_not_dmy {s : JSString} (h : isoPattern s = true) : dmyPattern s = false := by
  obtain ⟨a, b, c, d, e, f, g, k, rfl, ha, hb, hc, hd, he, hf, hg, hk⟩ := isoPattern_shape h
  have := isDigit_ne_hyphen hc
  simp [dmyPattern, this]

theorem dmyPattern_not_iso {s : JSString} (h : dmyPattern s = true) : isoPattern s = false := by
  obtain ⟨a, b, c, d, e, f, g, k, rfl, ha, hb, hc, hd, he, hf, hg, hk⟩ := dmyPattern_shape h
  have := isDigit_ne_hyphen hd
  simp [isoPattern, this]

theorem formatDateDisplay_iso {a b c d e f g k : Char}
    (hs : isoPattern [a, b, c, d, '-', e, f, '-', g, k] = true) :
    formatDateDisplay (.str [a, b, c, d, '-', e, f, '-', g, k]) =
      .ok (.str [g, k, '-', e, f, '-', a, b, c, d]) := by
  obtain ⟨a', b', c', d', e', f', g', k', heq, ha, hb, hc, hd, he, hf, hg, hk⟩ := isoPattern_shape hs
  simp only [List.cons.injEq, and_true, true_and] at heq
  obtain ⟨rfl, rfl, rfl, rfl, rfl, rfl, rfl, rfl⟩ := heq
  simp only [formatDateDisplay, JSValue.truthy, JSValue.toStr, hs]
  rw [split_three (isDigit_ne_hyphen ha) (isDigit_ne_hyphen hb) (isDigit_ne_hyphen hc)
    (isDigit_ne_hyphen hd) (isDigit_ne_hyphen he) (isDigit_ne_hyphen hf) (isDigit_ne_hyphen hg)
    (isDigit_ne_hyphen hk)]
  simp [elemAt, hyphenate, JSValue.toStr]

theorem dateForInput_dmy {a b c d e f g k : Char}
    (hs : dmyPattern [a, b, '-', c, d, '-', e, f, g, k] = true) :
    dateForInput (.str [a, b, '-', c, d, '-', e, f, g, k]) =
      .ok (.str [e, f, g, k, '-', c, d, '-', a, b]) := by
  obtain ⟨a', b', c', d', e', f', g', k', heq, ha, hb, hc, hd, he, hf, hg, hk⟩ := dmyPattern_shape hs
  simp only [List.cons.injEq, and_true, true_and] at heq
  obtain ⟨rfl, rfl, rfl, rfl, rfl, rfl, rfl, rfl⟩ := heq
  simp only [dateForInput, JSValue.truthy, JSValue.toStr, hs, dmyPattern_not_iso hs]
  rw [split_dmy (isDigit_ne_hyphen ha) (isDigit_ne_hyphen hb) (isDigit_ne_hyphen hc)
    (isDigit_ne_hyphen hd) (isDigit_ne_hyphen he) (isDigit_ne_hyphen hf) (isDigit_ne_hyphen hg)
    (isDigit_ne_hyphen hk)]
  simp [elemAt, hyphenate, JSValue.toStr]

theorem dateForInput_iso {s : JSString} (hs : isoPattern s = true) :
    dateForInput (.str s) = .ok (.str s) := by
  obtain ⟨a, b, c, d, e, f, g, k, rfl, -⟩ := isoPattern_shape hs
  simp [dateForInput, JSValue.truthy, JSValue.toStr, hs]

theorem formatDateDisplay_dmy {s : JSString} (hs : dmyPattern s = true) :
    formatDateDisplay (.str s) = .ok (.str s) := by
  obtain ⟨a, b, c, d, e, f, g, k, rfl, -⟩ := dmyPattern_shape hs
  simp [formatDateDisplay, JSValue.truthy, JSValue.toStr, hs, dmyPattern_not_iso hs]

theorem isDigit_digitChar (n : Nat) : isDigit (Char.ofNat ('0'.toNat + n % 10)) = true := by
  have h : n % 10 < 10 := Nat.mod_lt _ (by decide)
  generalize n % 10 = k at h
  interval_cases k <;> decide

theorem digitsAux_digits (fuel : Nat) : ∀ (n : Nat) (acc : List Char),
    (∀ c ∈ acc, isDigit c = true) → ∀ c ∈ digitsAux fuel n acc, isDigit c = true := by
  induction fuel with
  | zero => intro n acc h; simpa [digitsAux] using h
  | succ fuel ih =>
    intro n acc h
    have h' : ∀ c ∈ Char.ofNat ('0'.toNat + n % 10) :: acc, isDigit c = true := by
      intro c hc
      rcases List.mem_cons.mp hc with rfl | hc
      · exact isDigit_digitChar n
      · exact h c hc
    unfold digitsAux
    by_cases hz : n / 10 = 0
    · simpa [hz] using h'
    · simp only [hz, if_false]
      exact ih _ _ h'

theorem natToString_digits (n : Nat) : ∀ c ∈ natToString n, isDigit c = true :=
  digitsAux_digits _ _ _ (by simp)

/-- Either date pattern needs two leading digits and a hyphen. -/
theorem pattern_needs {s : JSString} (h : isoPattern s = true ∨ dmyPattern s = true) :
    ∃ a b r, s = a :: b :: r ∧ isDigit a = true ∧ isDigit b = true ∧ '-' ∈ s := by
  rcases h with h | h
  · obtain ⟨a, b, c, d, e, f, g, k, rfl, ha, hb, -⟩ := isoPattern_shape h
    exact ⟨a, b, _, rfl, ha, hb, by simp⟩
  · obtain ⟨a, b, c, d, e, f, g, k, rfl, ha, hb, -⟩ := dmyPattern_shape h
    exact ⟨a, b, _, rfl, ha, hb, by simp⟩

theorem posToString_no_date (m : Nat) (e : Int) {a b : Char} {r : JSString}
    (hs : JSNumber.posToString m e = a :: b :: r) (hb : isDigit b = true) :
    '-' ∉ JSNumber.posToString m e := by
  intro hmem
  unfold JSNumber.posToString at hs hmem
  simp only at hs hmem
  generalize JSNumber.shortest m e _ _ _ 17 1 = sn at hs hmem
  obtain ⟨s, n⟩ := sn
  simp only at hs hmem
  have hd := natToString_digits s
  have hnd : ∀ l : List Char, (∀ c ∈ l, isDigit c = true) → '-' ∉ l := by
    intro l hl hm
    exact isDigit_ne_hyphen (hl _ hm) rfl
  split_ifs at hs hmem with h1 h2 h3
  · refine hnd _ ?_ hmem
    intro c hc
    rcases List.mem_append.mp hc with hc | hc
    · exact hd c hc
    · rw [List.eq_of_mem_replicate hc]; decide
  · rcases List.mem_append.mp hmem with hc | hc
    · exact hnd _ (fun c hc => hd c (List.mem_of_mem_take hc)) hc
    · rcases List.mem_cons.mp hc with hc | hc
      · exact absurd hc (by decide)
      · exact hnd _ (fun c hc => hd c (List.mem_of_mem_drop hc)) hc
  · simp only [List.cons.injEq] at hs
    obtain ⟨-, rfl, -⟩ := hs
    exact absurd hb (by decide)
  all_goals
    split at hs
    · exact absurd hs (by simp)
    · simp only [List.cons.injEq] at hs
      obtain ⟨-, rfl, -⟩ := hs
      exact absurd hb (by decide)
    · simp only [List.cons.injEq] at hs
      obtain ⟨-, rfl, -⟩ := hs
      exact absurd hb (by decide)

theorem number_toStr_no_date (x : JSNumber) :
    isoPattern x.toStr = false ∧ dmyPattern x.toStr = false := by
  have key : ¬ (isoPattern x.toStr = true ∨ dmyPattern x.toStr = true) := by
    intro h
    obtain ⟨a, b, r, hs, ha, hb, hm⟩ := pattern_needs h
    cases x with
    | nan => simp [JSNumber.toStr] at hs; obtain ⟨rfl, -⟩ := hs; exact absurd ha (by decide)
    | inf s =>
      cases s <;> simp [JSNumber.toStr] at hs <;> obtain ⟨rfl, -⟩ := hs <;>
        exact absurd ha (by decide)
    | fin s m e =>
      simp only [JSNumber.toStr] at hs hm
      split_ifs at hs hm with h0 h1
      · simp at hs
      · simp only [List.cons.injEq] at hs
        obtain ⟨rfl, -⟩ := hs
        exact absurd ha (by decide)
      · exact posToString_no_date m e hs hb hm
  constructor
  · cases h : isoPattern x.toStr
    · rfl
    · exact absurd (Or.inl h) key
  · cases h : dmyPattern x.toStr
    · rfl
    · exact absurd (Or.inr h) key

/-- C1. The two date conversions are inverse to each other on their formats: converting an
ISO date `YYYY-MM-DD` for display and back gives the same string, and converting a day-first
date `DD-MM-YYYY` to input form and back gives the same string. -/
theorem date_conversions_round_trip :
    (∀ d : JSString, isoPattern d = true →
      (formatDateDisplay (.str d) >>= dateForInput) = .ok (.str d)) ∧
    (∀ d : JSString, dmyPattern d = true →
      (dateForInput (.str d) >>= formatDateDisplay) = .ok (.str d)) := by
  constructor
  · intro s hs
    obtain ⟨a, b, c, d, e, f, g, k, rfl, ha, hb, hc, hd, he, hf, hg, hk⟩ := isoPattern_shape hs
    rw [formatDateDisplay_iso hs]
    have hd' : dmyPattern [g, k, '-', e, f, '-', a, b, c, d] = true := by
      simp [dmyPattern, ha, hb, hc, hd, he, hf, hg, hk]
    show dateForInput (.str [g, k, '-', e, f, '-', a, b, c, d]) = _
    rw [dateForInput_dmy hd']
  · intro s hs
    obtain ⟨a, b, c, d, e, f, g, k, rfl, ha, hb, hc, hd, he, hf, hg, hk⟩ := dmyPattern_shape hs
    rw [dateForInput_dmy hs]
    have hd' : isoPattern [e, f, g, k, '-', c, d, '-', a, b] = true := by
      simp [isoPattern, ha, hb, hc, hd, he, hf, hg, hk]
    show formatDateDisplay (.str [e, f, g, k, '-', c, d, '-', a, b]) = _
    rw [formatDateDisplay_iso hd']

/-- The round trip at the dates `2024-01-31` and `31-01-2024`. -/
theorem date_conversions_round_trip_witness :
    (formatDateDisplay (.str "2024-01-31".toList) >>= dateForInput)
        = .ok (.str "2024-01-31".toList) ∧
    (dateForInput (.str "31-01-2024".toList) >>= formatDateDisplay)
        = .ok (.str "31-01-2024".toList) :=
  ⟨date_conversions_round_trip.1 "2024-01-31".toList (by decide),
   date_conversions_round_trip.2 "31-01-2024".toList (by decide)⟩

/-- C2, as stated, fails at `null`: the value is neither date shape, yet the result is the
empty string and not the value itself. It fails as well at the array `["2024-01-31"]`, whose
string conversion has the ISO shape: the call raises a `TypeError` where the claim says
`without error`. -/
theorem formatDateDisplay_null_not_unchanged :
    (formatDateDisplay .null = .ok (.str []) ∧ formatDateDisplay .null ≠ .ok .null) ∧
    (JSValue.object "2024-01-31".toList).toStr = "2024-01-31".toList ∧
    formatDateDisplay (.object "2024-01-31".toList)
      = .error ⟨.str "dateStr.split is not a function".toList⟩ := by
  decide

/-- C2, amended. For every value `v`, `formatDateDisplay(v)` is the empty string when `v` is
falsy (null, undefined, false, a zero, not-a-number, the empty string); the string `DD-MM-YYYY`
built from the three hyphen-separated parts of `v` in reverse order when `v` is a string of the
shape `YYYY-MM-DD`; `v` itself when `v` is a string of the shape `DD-MM-YYYY`; and `v` itself,
without error, for every other truthy value, except an object (an array or a plain object)
whose string conversion has the shape `YYYY-MM-DD`: on it the call raises a `TypeError`. -/
theorem formatDateDisplay_cases (v : JSValue) :
    (v.truthy = false → formatDateDisplay v = .ok (.str [])) ∧
    (∀ s, v = .str s → isoPattern s = true →
      ∃ y m d : JSString, s = y ++ '-' :: (m ++ '-' :: d) ∧
        y.length = 4 ∧ m.length = 2 ∧ d.length = 2 ∧
        formatDateDisplay v = .ok (.str (d ++ '-' :: (m ++ '-' :: y)))) ∧
    (∀ s, v = .str s → dmyPattern s = true → formatDateDisplay v = .ok v) ∧
    (v.truthy = true → (∀ s, v = .str s → isoPattern s = false ∧ dmyPattern s = false) →
      (∀ t, v = .object t → isoPattern t = false) → formatDateDisplay v = .ok v) ∧
    (∀ t, v = .object t → isoPattern t = true →
      formatDateDisplay v = .error (notAFunction "dateStr.split")) := by
  refine ⟨?_, ?_, ?_, ?_, ?_⟩
  · intro h
    simp [formatDateDisplay, h]
  · rintro s rfl hs
    obtain ⟨a, b, c, d, e, f, g, k, rfl, -⟩ := isoPattern_shape hs
    exact ⟨[a, b, c, d], [e, f], [g, k], rfl, rfl, rfl, rfl, formatDateDisplay_iso hs⟩
  · rintro s rfl hs
    exact formatDateDisplay_dmy hs
  · intro ht hn ho
    cases v with
    | undefined => simp [JSValue.truthy] at ht
    | null => simp [JSValue.truthy] at ht
    | bool b =>
      cases b
      · simp [JSValue.truthy] at ht
      · decide
    | num x =>
      obtain ⟨h1, h2⟩ := number_toStr_no_date x
      simp [formatDateDisplay, ht, JSValue.toStr, h1, h2]
    | str s =>
      obtain ⟨h1, h2⟩ := hn s rfl
      simp [formatDateDisplay, ht, JSValue.toStr, h1, h2]
    | object t =>
      have h1 := ho t rfl
      simp [formatDateDisplay, JSValue.truthy, JSValue.toStr, h1]
  · rintro t rfl ht
    simp [formatDateDisplay, JSValue.truthy, JSValue.toStr, ht]

/-- The cases of `formatDateDisplay` at `undefined`, `2024-01-31`, `31-01-2024`, `soon`, the
array `["soon"]` and the array `["2024-01-31"]`. -/
theorem formatDateDisplay_cases_witness :
    formatDateDisplay .undefined = .ok (.str []) ∧
    (∃ y m d : JSString, "2024-01-31".toList = y ++ '-' :: (m ++ '-' :: d) ∧
        y.length = 4 ∧ m.length = 2 ∧ d.length = 2 ∧
        formatDateDisplay (.str "2024-01-31".toList) = .ok (.str (d ++ '-' :: (m ++ '-' :: y)))) ∧
    formatDateDisplay (.str "31-01-2024".toList) = .ok (.str "31-01-2024".toList) ∧
    formatDateDisplay (.str "soon".toList) = .ok (.str "soon".toList) ∧
    formatDateDisplay (.object "soon".toList) = .ok (.object "soon".toList) ∧
    formatDateDisplay (.object "2024-01-31".toList) = .error (notAFunction "dateStr.split") :=
  ⟨(formatDateDisplay_cases .undefined).1 (by decide),
   (formatDateDisplay_cases (.str "2024-01-31".toList)).2.1 _ rfl (by decide),
   (formatDateDisplay_cases (.str "31-01-2024".toList)).2.2.1 _ rfl (by decide),
   (formatDateDisplay_cases (.str "soon".toList)).2.2.2.1 (by decide)
     (fun s h => by cases h; decide) (fun t h => by cases h),
   (formatDateDisplay_cases (.object "soon".toList)).2.2.2.1 (by decide)
     (fun s h => by cases h) (fun t h => by cases h; decide),
   (formatDateDisplay_cases (.object "2024-01-31".toList)).2.2.2.2 _ rfl (by decide)⟩

/-- C3, as stated, fails at arrays whose string conversion is a date. The array
`["2024-01-31"]` has the ISO shape and is returned as it is: an array, not a string. The array
`["31-01-2024"]` has the day-first shape: the call raises a `TypeError` and returns nothing. -/
theorem dateForInput_array_not_string :
    (JSValue.object "2024-01-31".toList).toStr = "2024-01-31".toList ∧
    dateForInput (.object "2024-01-31".toList) = .ok (.object "2024-01-31".toList) ∧
    (∀ r : JSString, dateForInput (.object "2024-01-31".toList) ≠ .ok (.str r)) ∧
    (JSValue.object "31-01-2024".toList).toStr = "31-01-2024".toList ∧
    dateForInput (.object "31-01-2024".toList)
      = .error ⟨.str "value.split is not a function".toList⟩ := by
  refine ⟨by decide, by decide, ?_, by decide, by decide⟩
  intro r h
  have h2 : dateForInput (.object "2024-01-31".toList) = .ok (.object "2024-01-31".toList) := by
    decide
  rw [h2] at h
  cases h

/-- C3, amended. For every value `v`, `dateForInput(v)` is `v` itself when `v` is a string of
the shape `YYYY-MM-DD`, the string `YYYY-MM-DD` built from the parts of `v` in reverse order
when `v` is a string of the shape `DD-MM-YYYY`, and the empty string for every other input
whose string conversion has neither shape; so for all these inputs the result is the empty
string or a string of the shape `YYYY-MM-DD`. An object (an array or a plain object) whose
string conversion has the shape `YYYY-MM-DD` is returned as it is, and one whose string
conversion has the shape `DD-MM-YYYY` makes the call raise a `TypeError`. -/
theorem dateForInput_cases (v : JSValue) :
    (∀ s, v = .str s → isoPattern s = true → dateForInput v = .ok v) ∧
    (∀ s, v = .str s → dmyPattern s = true →
      ∃ d m y : JSString, s = d ++ '-' :: (m ++ '-' :: y) ∧
        d.length = 2 ∧ m.length = 2 ∧ y.length = 4 ∧
        dateForInput v = .ok (.str (y ++ '-' :: (m ++ '-' :: d)))) ∧
    ((∀ s, v = .str s → isoPattern s = false ∧ dmyPattern s = false) →
      (∀ t, v = .object t → isoPattern t = false ∧ dmyPattern t = false) →
      dateForInput v = .ok (.str [])) ∧
    ((∀ t, v = .object t → isoPattern t = false ∧ dmyPattern t = false) →
      ∃ r : JSString, dateForInput v = .ok (.str r) ∧ (r = [] ∨ isoPattern r = true)) ∧
    (∀ t, v = .object t → isoPattern t = true → dateForInput v = .ok v) ∧
    (∀ t, v = .object t → dmyPattern t = true →
      dateForInput v = .error (notAFunction "value.split")) := by
  have hA : ∀ s, v = .str s → isoPattern s = true → dateForInput v = .ok v := by
    rintro s rfl hs
    exact dateForInput_iso hs
  have hB : ∀ s, v = .str s → dmyPattern s = true →
      ∃ d m y : JSString, s = d ++ '-' :: (m ++ '-' :: y) ∧
        d.length = 2 ∧ m.length = 2 ∧ y.length = 4 ∧
        dateForInput v = .ok (.str (y ++ '-' :: (m ++ '-' :: d))) := by
    rintro s rfl hs
    obtain ⟨a, b, c, d, e, f, g, k, rfl, -⟩ := dmyPattern_shape hs
    exact ⟨[a, b], [c, d], [e, f, g, k], rfl, rfl, rfl, rfl, dateForInput_dmy hs⟩
  have hC : (∀ s, v = .str s → isoPattern s = false ∧ dmyPattern s = false) →
      (∀ t, v = .object t → isoPattern t = false ∧ dmyPattern t = false) →
      dateForInput v = .ok (.str []) := by
    intro hn ho
    cases v with
    | undefined => decide
    | null => decide
    | bool b => cases b <;> decide
    | num x =>
      obtain ⟨h1, h2⟩ := number_toStr_no_date x
      simp [dateForInput, JSValue.toStr, h1, h2]
    | str s =>
      obtain ⟨h1, h2⟩ := hn s rfl
      simp [dateForInput, JSValue.toStr, h1, h2]
    | object t =>
      obtain ⟨h1, h2⟩ := ho t rfl
      simp [dateForInput, JSValue.toStr, h1, h2]
  refine ⟨hA, hB, hC, ?_, ?_, ?_⟩
  · intro ho
    by_cases h1 : ∃ s, v = .str s ∧ isoPattern s = true
    · obtain ⟨s, rfl, hs⟩ := h1
      exact ⟨s, hA s rfl hs, Or.inr hs⟩
    by_cases h2 : ∃ s, v = .str s ∧ dmyPattern s = true
    · obtain ⟨s, rfl, hs⟩ := h2
      obtain ⟨a, b, c, d, e, f, g, k, rfl, ha, hb, hc, hd, he, hf, hg, hk⟩ := dmyPattern_shape hs
      refine ⟨_, dateForInput_dmy hs, Or.inr ?_⟩
      simp [isoPattern, ha, hb, hc, hd, he, hf, hg, hk]
    · refine ⟨[], hC ?_ ho, Or.inl rfl⟩
      intro s hv
      constructor
      · cases h : isoPattern s
        · rfl
        · exact absurd ⟨s, hv, h⟩ h1
      · cases h : dmyPattern s
        · rfl
        · exact absurd ⟨s, hv, h⟩ h2
  · rintro t rfl ht
    simp [dateForInput, JSValue.truthy, JSValue.toStr, ht]
  · rintro t rfl ht
    simp [dateForInput, JSValue.truthy, JSValue.toStr, ht, dmyPattern_not_iso ht]

/-- The cases of `dateForInput` at `2024-01-31`, `31-01-2024`, `soon`, and at the arrays
`["soon"]`, `["2024-01-31"]` and `["31-01-2024"]`. -/
theorem dateForInput_cases_witness :
    dateForInput (.str "2024-01-31".toList) = .ok (.str "2024-01-31".toList) ∧
    (∃ d m y : JSString, "31-01-2024".toList = d ++ '-' :: (m ++ '-' :: y) ∧
        d.length = 2 ∧ m.length = 2 ∧ y.length = 4 ∧
        dateForInput (.str "31-01-2024".toList) = .ok (.str (y ++ '-' :: (m ++ '-' :: d)))) ∧
    dateForInput (.str "soon".toList) = .ok (.str []) ∧
    dateForInput (.object "soon".toList) = .ok (.str []) ∧
    dateForInput (.object "2024-01-31".toList) = .ok (.object "2024-01-31".toList) ∧
    dateForInput (.object "31-01-2024".toList) = .error (notAFunction "value.split") :=
  ⟨(dateForInput_cases (.str "2024-01-31".toList)).1 _ rfl (by decide),
   (dateForInput_cases (.str "31-01-2024".toList)).2.1 _ rfl (by decide),
   (dateForInput_cases (.str "soon".toList)).2.2.1 (fun s h => by cases h; decide)
     (fun t h => by cases h),
   (dateForInput_cases (.object "soon".toList)).2.2.1 (fun s h => by cases h)
     (fun t h => by cases h; decide),
   (dateForInput_cases (.object "2024-01-31".toList)).2.2.2.2.1 _ rfl (by decide),
   (dateForInput_cases (.object "31-01-2024".toList)).2.2.2.2.2 _ rfl (by decide)⟩

/-- A string whose first character after trimming cannot start a numeric literal (no digit,
sign, point or `I`) converts to not-a-number. -/
theorem ofString_nan_of_head (s : JSString) (c : Char) (rest : JSString)
    (ht : trim s = c :: rest) (hd : isDigit c = false) (h1 : c ≠ '+') (h2 : c ≠ '-')
    (h3 : c ≠ '.') (h4 : c ≠ 'I') : (JSNumber.ofString s).isNaN = true := by
  have h0 : c ≠ '0' := by
    intro h; rw [h] at hd; exact absurd hd (by decide)
  have hdv : JSNumber.digitValue 10 c = none := by
    unfold isDigit at hd
    simp only [Bool.and_eq_false_iff, decide_eq_false_iff_not] at hd
    unfold JSNumber.digitValue
    simp only
    have hlow : ¬ ('0'.toNat ≤ c.toNat ∧ c.toNat ≤ '9'.toNat) := by
      rintro ⟨ha, hb⟩
      rcases hd with hd | hd
      · exact hd ha
      · exact hd hb
    rw [if_neg hlow]
    split_ifs with ha hb
    · simp only [Option.filter, Option.some_bind]
      have : ¬ (c.toNat - 'a'.toNat + 10 < 10) := by omega
      simp [this]
    · have : ¬ (c.toNat - 'A'.toNat + 10 < 10) := by omega
      simp [Option.filter, this]
    · rfl
  have hsign : JSNumber.scanSign (c :: rest) = (false, c :: rest) := by
    unfold JSNumber.scanSign
    split
    · rename_i heq; simp only [List.cons.injEq] at heq; exact absurd heq.1 h2
    · rename_i heq; simp only [List.cons.injEq] at heq; exact absurd heq.1 h1
    · rfl
  have hscan : JSNumber.scanDecimal (c :: rest) = none := by
    have hp : "Infinity".toList.isPrefixOf (c :: rest) = false := by
      show List.isPrefixOf ('I' :: "nfinity".toList) (c :: rest) = false
      simp only [List.isPrefixOf, Bool.and_eq_false_iff, beq_eq_false_iff_ne, ne_eq]
      exact Or.inl (fun h => h4 h.symm)
    have hr : JSNumber.readDigits 10 (c :: rest) 0 0 = (0, 0, c :: rest) := by
      simp only [JSNumber.readDigits, hdv]
    unfold JSNumber.scanDecimal
    simp only [hp, Bool.false_eq_true, if_false, hr]
    split
    · rename_i heq; simp only [List.cons.injEq] at heq; exact absurd heq.1 h3
    · simp
  unfold JSNumber.ofString
  simp only [ht]
  split
  · rename_i heq; exact absurd heq (by simp)
  all_goals first
    | (rename_i heq; simp only [List.cons.injEq] at heq; exact absurd heq.1 h0)
    | (simp only [hsign, hscan]; rfl)

/-- C4. `formatCurrencyINR` returns the empty string for null, undefined and the empty string,
and returns every other input whose numeric conversion is not-a-number itself, unchanged: in
particular every string whose first character after trimming cannot start a number, such as
`abc`; the helper is total on these inputs. -/
theorem formatCurrencyINR_non_numeric (fmt : JSNumber → JSString) :
    formatCurrencyINR fmt .null = .str [] ∧
    formatCurrencyINR fmt .undefined = .str [] ∧
    formatCurrencyINR fmt (.str []) = .str [] ∧
    (∀ v : JSValue, v ≠ .null → v ≠ .undefined → v ≠ .str [] → v.toNumber.isNaN = true →
      formatCurrencyINR fmt v = v) ∧
    (∀ (s : JSString) (c : Char) (rest : JSString), trim s = c :: rest → isDigit c = false →
      c ≠ '+' → c ≠ '-' → c ≠ '.' → c ≠ 'I' → formatCurrencyINR fmt (.str s) = .str s) ∧
    formatCurrencyINR fmt (.str "abc".toList) = .str "abc".toList := by
  have hgen : ∀ v : JSValue, v ≠ .null → v ≠ .undefined → v ≠ .str [] →
      v.toNumber.isNaN = true → formatCurrencyINR fmt v = v := by
    intro v h1 h2 h3 h4
    simp [formatCurrencyINR, h1, h2, h3, h4]
  have hhead : ∀ (s : JSString) (c : Char) (rest : JSString), trim s = c :: rest →
      isDigit c = false → c ≠ '+' → c ≠ '-' → c ≠ '.' → c ≠ 'I' →
      formatCurrencyINR fmt (.str s) = .str s := by
    intro s c rest ht hd h1 h2 h3 h4
    refine hgen _ (by simp) (by simp) ?_ (ofString_nan_of_head s c rest ht hd h1 h2 h3 h4)
    intro h
    cases h
    have hnil : trim ([] : JSString) = [] := by decide
    rw [hnil] at ht
    exact absurd ht (by simp)
  exact ⟨by simp [formatCurrencyINR], by simp [formatCurrencyINR], by simp [formatCurrencyINR],
    hgen, hhead, hhead _ 'a' "bc".toList (by decide) (by decide) (by decide) (by decide)
      (by decide) (by decide)⟩

/-- The non-numeric strings `12 rupees` and ` N/A` come back unchanged. -/
theorem formatCurrencyINR_non_numeric_witness :
    formatCurrencyINR JSNumber.toStr (.str "12 rupees".toList) = .str "12 rupees".toList ∧
    formatCurrencyINR JSNumber.toStr (.str " N/A".toList) = .str " N/A".toList :=
  ⟨(formatCurrencyINR_non_numeric JSNumber.toStr).2.2.2.1 _ (by decide) (by decide) (by decide)
      (by decide),
   (formatCurrencyINR_non_numeric JSNumber.toStr).2.2.2.2.1 _ 'N' "/A".toList (by decide)
      (by decide) (by decide) (by decide) (by decide) (by decide)⟩

/-- C5. In the titles list, a title whose `authors` field is an array of `n` author objects
with display names `name_1 .. name_n` has the summary `name_1, name_2 +(n-2) more` when
`n ≥ 3`, and all `n` names joined by `, ` with no suffix when `n ≤ 2`; the item shows the
summary whenever it is not empty. -/
theorem authorsText_summary (fmt : JSNumber → JSString) (title : Title)
    (items : List TitleAuthor) (h : title.authors = .array items) :
    (3 ≤ items.length →
      ∃ name1 name2 : JSString, ∃ rest : List TitleAuthor,
        items.map (fun a => displayName a.au_fname a.au_name)
          = name1 :: name2 :: rest.map (fun a => displayName a.au_fname a.au_name) ∧
        authorsText title = name1 ++ ", ".toList ++ name2 ++ " +".toList ++
          natToString (items.length - 2) ++ " more".toList) ∧
    (items.length ≤ 2 →
      authorsText title = join ", ".toList (items.map (fun a => displayName a.au_fname a.au_name))) ∧
    (titleRow fmt title).authors =
      (if (authorsText title).isEmpty then none else some (authorsText title)) := by
  refine ⟨?_, ?_, ?_⟩
  · intro h3
    match items, h, h3 with
    | a :: b :: rest, h, h3 =>
      refine ⟨_, _, rest, rfl, ?_⟩
      have hlen : rest.length + 1 + 1 > 2 := h3
      simp only [authorsText, h, List.map_cons, List.length_cons, List.length_map, hlen, if_true,
        List.take_succ_cons, List.take_zero, join, List.append_assoc]
  · intro h2
    have hlen : ¬ items.length > 2 := by omega
    simp only [authorsText, h, List.length_map, hlen, if_false]
  · simp only [titleRow]
    cases (authorsText title).isEmpty <;> rfl

/-- The summary of four authors and of two authors. -/
theorem authorsText_summary_witness :
    authorsText { titleWithRoyalty .undefined with
        authors := .array [sampleTitleAuthor "Bob" "Ray", sampleTitleAuthor "" "Smith",
          sampleTitleAuthor "Ann" "Lee", sampleTitleAuthor "Cy" "Dow"] }
      = "Bob Ray, Smith +2 more".toList ∧
    authorsText { titleWithRoyalty .undefined with
        authors := .array [sampleTitleAuthor "Bob" "Ray", sampleTitleAuthor "" "Smith"] }
      = "Bob Ray, Smith".toList := by
  constructor
  · obtain ⟨n1, n2, rest, hn, ht⟩ := (authorsText_summary JSNumber.toStr
      { titleWithRoyalty .undefined with
        authors := .array [sampleTitleAuthor "Bob" "Ray", sampleTitleAuthor "" "Smith",
          sampleTitleAuthor "Ann" "Lee", sampleTitleAuthor "Cy" "Dow"] } _ rfl).1 (by decide)
    rw [ht]
    simp only [List.map_cons, List.cons.injEq] at hn
    obtain ⟨h1, h2, -⟩ := hn
    rw [← h1, ← h2]
    decide
  · rw [(authorsText_summary JSNumber.toStr
      { titleWithRoyalty .undefined with
        authors := .array [sampleTitleAuthor "Bob" "Ray", sampleTitleAuthor "" "Smith"] } _ rfl).2.1
        (by decide)]
    decide

theorem digitsAux_length (fuel : Nat) : ∀ (n : Nat) (acc : List Char),
    acc.length ≤ (digitsAux fuel n acc).length := by
  induction fuel with
  | zero => intro n acc; simp [digitsAux]
  | succ fuel ih =>
    intro n acc
    unfold digitsAux
    by_cases hz : n / 10 = 0
    · simp [hz]
    · simp only [hz, if_false]
      exact Nat.le_trans (by simp) (ih _ _)

theorem natToString_length_pos (n : Nat) : 1 ≤ (natToString n).length := by
  unfold natToString digitsAux
  by_cases hz : n / 10 = 0
  · simp [hz]
  · simp only [hz, if_false]
    exact Nat.le_trans (by simp) (digitsAux_length _ _ _)

/-- A list of two or more elements splits into a non-empty front and its last element. -/
theorem split_last {α : Type} (ds : List α) (h : 2 ≤ ds.length) :
    ∃ d, ds.drop (ds.length - 1) = [d] ∧ ds.take (ds.length - 1) ≠ [] ∧ d ∈ ds := by
  have hl : (ds.drop (ds.length - 1)).length = 1 := by
    rw [List.length_drop]; omega
  match hd : ds.drop (ds.length - 1), hl with
  | [d], _ =>
    refine ⟨d, rfl, ?_, ?_⟩
    · intro hn
      have := congrArg List.length hn
      rw [List.length_take] at this
      simp at this
      omega
    · exact List.mem_of_mem_drop (hd ▸ List.mem_singleton_self d)

/-- With one fraction digit, `toFixed` prints a finite value below `10^21` as an optional
sign, one or more digits, a point and one digit. -/
theorem toFixed_one_shape (s : Bool) (m : Nat) (e : Int)
    (hb : m * JSNumber.pow2 e < 10 ^ 21 * JSNumber.pow2 (-e)) :
    ∃ (ip : JSString) (d : Char),
      (JSNumber.fin s m e).toFixed 1 = (if s = true ∧ m ≠ 0 then ['-'] else []) ++ ip ++ ['.', d] ∧
      ip ≠ [] ∧ (∀ c ∈ ip, isDigit c = true) ∧ isDigit d = true := by
  have hb' : ¬ (m * JSNumber.pow2 e ≥ 10 ^ 21 * JSNumber.pow2 (-e)) := by omega
  simp only [JSNumber.toFixed, hb', if_false]
  generalize hn : (2 * (m * JSNumber.pow2 e) * 10 ^ 1 + JSNumber.pow2 (-e)) / (2 * JSNumber.pow2 (-e)) = n
  generalize hds : List.replicate (1 + 1 - (natToString n).length) '0' ++ natToString n = ds
  have hdig : ∀ c ∈ ds, isDigit c = true := by
    intro c hc
    rw [← hds] at hc
    rcases List.mem_append.mp hc with hc | hc
    · rw [List.eq_of_mem_replicate hc]; decide
    · exact natToString_digits n c hc
  have hlen : 2 ≤ ds.length := by
    rw [← hds, List.length_append, List.length_replicate]
    have := natToString_length_pos n
    omega
  obtain ⟨d, hdrop, htake, hmem⟩ := split_last ds hlen
  refine ⟨ds.take (ds.length - 1), d, ?_, htake, ?_, hdig d hmem⟩
  · simp [hdrop]
  · intro c hc
    exact hdig c (List.mem_of_mem_take hc)

theorem unsignedOneDecimal_of_shape (ip : JSString) (d : Char) (hne : ip ≠ [])
    (hip : ∀ c ∈ ip, isDigit c = true) (hd : isDigit d = true) :
    unsignedOneDecimal (ip ++ ['.', d]) = true := by
  have hall : ip.reverse.all isDigit = true := by
    rw [List.all_eq_true]
    intro c hc
    exact hip c (List.mem_reverse.mp hc)
  have hemp : ip.reverse.isEmpty = false := by
    cases ip with
    | nil => exact absurd rfl hne
    | cons c cs => simp
  simp [unsignedOneDecimal, hd, hall, hemp]

theorem oneDecimalPlace_of_shape (sign : Bool) (ip : JSString) (d : Char) (hne : ip ≠ [])
    (hip : ∀ c ∈ ip, isDigit c = true) (hd : isDigit d = true) :
    oneDecimalPlace ((if sign = true then ['-'] else []) ++ ip ++ ['.', d]) = true := by
  cases sign with
  | true =>
    simp only [if_true, List.singleton_append, List.cons_append, oneDecimalPlace]
    exact unsignedOneDecimal_of_shape ip d hne hip hd
  | false =>
    simp only [Bool.false_eq_true, if_false, List.nil_append]
    cases ip with
    | nil => exact absurd rfl hne
    | cons c cs =>
      have hc : c ≠ '-' := isDigit_ne_hyphen (hip c (List.mem_cons_self c cs))
      have h := unsignedOneDecimal_of_shape (c :: cs) d hne hip hd
      unfold oneDecimalPlace
      split
      · rename_i heq
        simp only [List.cons_append, List.cons.injEq] at heq
        exact absurd heq.1 hc
      · exact h

set_option maxRecDepth 4000 in
/-- C6, as stated, fails at the percentage `5x`: it is not numeric, so the specification
counts it as zero and displays `0.0`, but the report displays `5.0`. It fails as well at the
percentages `1e21` and `-1e21`, numeric, for which the report displays `1e+21` and `-1e+21`,
with no decimal place. -/
theorem averageRoyaltyText_reads_leading_number :
    (JSValue.str "5x".toList).toNumber.isNaN = true ∧
    claimedAverageText [titleWithRoyalty (.str "5x".toList)] = "0.0".toList ∧
    averageRoyaltyText [titleWithRoyalty (.str "5x".toList)] = "5.0".toList ∧
    averageRoyaltyText [titleWithRoyalty (.num (JSNumber.ofNat (10 ^ 21)))] = "1e+21".toList ∧
    oneDecimalPlace "1e+21".toList = false ∧
    averageRoyaltyText [titleWithRoyalty (.str "-1e21".toList)] = "-1e+21".toList ∧
    oneDecimalPlace "-1e+21".toList = false := by
  decide

/-- C6, amended. For a non-empty list of titles the displayed average is the sum, from left
to right in number arithmetic, of what `parseFloat` reads at the head of each percentage (zero
when it reads nothing, as for a missing or null percentage or the text `abc`, and five for the
text `5x`), divided by the number of titles and printed by `toFixed(1)`, which gives exactly
one decimal place for a finite quotient whose absolute value is below `10^21` (the bound of
the last part is on the magnitude `m * 2^e` of the quotient, whatever its sign); the
percentages `[10, "20", null]` give `10.0`; the empty list gives the literal `0`. -/
theorem averageRoyaltyText_spec :
    averageRoyaltyText [] = "0".toList ∧
    averageRoyaltyText [titleWithRoyalty (.num (JSNumber.ofNat 10)),
      titleWithRoyalty (.str "20".toList), titleWithRoyalty .null] = "10.0".toList ∧
    (∀ data : List Title, data ≠ [] →
      averageRoyaltyText data =
        ((sumLeft (data.map (fun t => royaltyValue t.royaltyper))).div
          (JSNumber.ofNat data.length)).toFixed 1) ∧
    (royaltyValue .undefined = zero ∧ royaltyValue .null = zero ∧
      royaltyValue (.str "abc".toList) = zero ∧
      royaltyValue (.str "5x".toList) = JSNumber.ofNat 5) ∧
    (∀ text : JSString, JSNumber.scanDecimal (JSNumber.scanSign (trimStart text)).2 = none →
      royaltyValue (.str text) = zero) ∧
    (∀ (data : List Title) (s : Bool) (m : Nat) (e : Int), data ≠ [] →
      (sumLeft (data.map (fun t => royaltyValue t.royaltyper))).div (JSNumber.ofNat data.length)
        = JSNumber.fin s m e →
      m * JSNumber.pow2 e < 10 ^ 21 * JSNumber.pow2 (-e) →
      oneDecimalPlace (averageRoyaltyText data) = true) := by
  have hgen : ∀ data : List Title, data ≠ [] →
      averageRoyaltyText data =
        ((sumLeft (data.map (fun t => royaltyValue t.royaltyper))).div
          (JSNumber.ofNat data.length)).toFixed 1 := by
    intro data hne
    have hpos : data.length > 0 := List.length_pos.mpr hne
    simp only [averageRoyaltyText, hpos, if_true, sumLeft, List.foldl_map, royaltyValue]
  refine ⟨by decide, by decide, hgen, by decide, ?_, ?_⟩
  · intro text h
    simp only [royaltyValue, parseFloat, JSValue.toStr, JSNumber.parseFloatStr, h]
    decide
  · intro data s m e hne hq hb
    rw [hgen data hne, hq]
    obtain ⟨ip, d, heq, hne', hip, hd⟩ := toFixed_one_shape s m e hb
    rw [heq]
    by_cases hsm : s = true ∧ m ≠ 0
    · rw [if_pos hsm]
      exact oneDecimalPlace_of_shape true ip d hne' hip hd
    · rw [if_neg hsm]
      exact oneDecimalPlace_of_shape false ip d hne' hip hd

/-- The amended average at the percentages `[3, "N/A"]`: the text `N/A` counts as zero and the
display `1.5` has one decimal place. -/
theorem averageRoyaltyText_spec_witness :
    averageRoyaltyText [titleWithRoyalty (.num (JSNumber.ofNat 3)),
        titleWithRoyalty (.str "N/A".toList)]
      = ((sumLeft [royaltyValue (.num (JSNumber.ofNat 3)), royaltyValue (.str "N/A".toList)]).div
          (JSNumber.ofNat 2)).toFixed 1 ∧
    royaltyValue (.str "N/A".toList) = zero ∧
    oneDecimalPlace (averageRoyaltyText [titleWithRoyalty (.num (JSNumber.ofNat 3)),
      titleWithRoyalty (.str "N/A".toList)]) = true :=
  ⟨averageRoyaltyText_spec.2.2.1 _ (by decide),
   averageRoyaltyText_spec.2.2.2.2.1 _ (by decide),
   averageRoyaltyText_spec.2.2.2.2.2 [titleWithRoyalty (.num (JSNumber.ofNat 3)),
      titleWithRoyalty (.str "N/A".toList)] false 6755399441055744 (-52) (by decide) (by decide)
      (by decide)⟩

theorem truthy_eq (x : JSNumber) : x.truthy = (!x.isNaN && !x.isZero) := by
  cases x <;> simp [JSNumber.truthy, JSNumber.isNaN, JSNumber.isZero]

theorem pow2_eq (k : Int) : JSNumber.pow2 k = 2 ^ k.toNat := by
  unfold JSNumber.pow2
  rw [Nat.shiftLeft_eq, Nat.one_mul]

theorem pow2_of_neg {k : Int} (h : k < 0) : JSNumber.pow2 k = 1 := by
  rw [pow2_eq, Int.toNat_eq_zero.mpr (le_of_lt h), pow_zero]

theorem divRoundEven_one (x : Nat) : JSNumber.divRoundEven x 1 = x := by
  simp [JSNumber.divRoundEven, Nat.mod_one]

theorem isInteger_fin (s : Bool) (m : Nat) (e : Int) :
    (JSNumber.fin s m e).isInteger = if e ≥ 0 then true else m % JSNumber.pow2 (-e) == 0 := rfl

theorem isInteger_of_nonneg (s : Bool) (m : Nat) {e : Int} (h : 0 ≤ e) :
    (JSNumber.fin s m e).isInteger = true := by
  rw [isInteger_fin, if_pos h]

/-- Rounding a natural number to a number gives an infinity or an integer. -/
theorem roundRat_one_integer (neg : Bool) (n : Nat) :
    JSNumber.roundRat neg n 1 = .inf neg ∨ (JSNumber.roundRat neg n 1).isInteger = true := by
  unfold JSNumber.roundRat
  by_cases hn : n = 0 ∨ 1 = 0
  · rw [if_pos hn]
    right
    rw [isInteger_fin]
    rfl
  · rw [if_neg hn]
    have hn0 : n ≠ 0 := fun h => hn (Or.inl h)
    simp only
    generalize max (JSNumber.floorLog2 n 1) (-1022) - 52 = q
    by_cases hq : 0 ≤ q
    · by_cases hm : JSNumber.divRoundEven (n * JSNumber.pow2 (-q)) (1 * JSNumber.pow2 q)
          = JSNumber.pow2 53
      · simp only [hm, if_true]
        by_cases hover : q + 1 > 971
        · left; rw [if_pos hover]
        · right; rw [if_neg hover]
          exact isInteger_of_nonneg _ _ (by omega)
      · simp only [hm, if_false]
        by_cases hover : q > 971
        · left; rw [if_pos hover]
        · right; rw [if_neg hover]
          exact isInteger_of_nonneg _ _ hq
    · right
      have hq' : q < 0 := by omega
      have hp : JSNumber.pow2 q = 1 := pow2_of_neg hq'
      rw [hp, Nat.mul_one, divRoundEven_one]
      by_cases hm : n * JSNumber.pow2 (-q) = JSNumber.pow2 53
      · simp only [hm, if_true]
        have hover : ¬ q + 1 > 971 := by omega
        rw [if_neg hover, isInteger_fin]
        by_cases hq1 : q + 1 ≥ 0
        · rw [if_pos hq1]
        · rw [if_neg hq1]
          rw [pow2_eq, pow2_eq] at hm
          have hle : 2 ^ (-q).toNat ≤ 2 ^ (53 : Int).toNat := by
            rw [← hm]
            exact Nat.le_mul_of_pos_left _ (Nat.pos_of_ne_zero hn0)
          have hexp : (-q).toNat ≤ (53 : Int).toNat :=
            (Nat.pow_le_pow_iff_right (by norm_num)).mp hle
          have h53 : (53 : Int).toNat = 53 := rfl
          have h52 : (52 : Int).toNat = 52 := rfl
          have hexp2 : (-(q + 1)).toNat ≤ 52 := by omega
          rw [pow2_eq, pow2_eq, h52]
          have hdvd : 2 ^ (-(q + 1)).toNat ∣ 2 ^ 52 := Nat.pow_dvd_pow 2 hexp2
          rw [Nat.mod_eq_zero_of_dvd hdvd]
          rfl
      · simp only [hm, if_false]
        have hover : ¬ q > 971 := by omega
        have hq1 : ¬ q ≥ 0 := by omega
        rw [if_neg hover, isInteger_fin, if_neg hq1, Nat.mul_mod_left]
        rfl

theorem parseInt_integer (text : JSString) :
    (parseInt (.str text)).isNaN = true ∨ (parseInt (.str text)).isFinite = false ∨
      (parseInt (.str text)).isInteger = true := by
  have key : ∀ (neg : Bool) (vc : Nat × Nat × JSString),
      (if vc.2.1 = 0 then JSNumber.nan else JSNumber.roundRat neg vc.1 1).isNaN = true ∨
      (if vc.2.1 = 0 then JSNumber.nan else JSNumber.roundRat neg vc.1 1).isFinite = false ∨
      (if vc.2.1 = 0 then JSNumber.nan else JSNumber.roundRat neg vc.1 1).isInteger = true := by
    intro neg vc
    by_cases hc : vc.2.1 = 0
    · left; rw [if_pos hc]; rfl
    · right
      rw [if_neg hc]
      rcases roundRat_one_integer neg vc.1 with h | h
      · left; rw [h]; rfl
      · right; exact h
  exact key _ _

theorem royaltyOf_cases (text : JSString) :
    (royaltyOf text).isNaN = false ∧ (royaltyOf text).isZero = false ∧
    ((royaltyOf text).isFinite = true → (royaltyOf text).isInteger = true) ∧
    ((parseInt (.str text)).isZero = true → royaltyOf text = JSNumber.ofNat 100) ∧
    ((parseInt (.str text)).isNaN = true → royaltyOf text = JSNumber.ofNat 100) := by
  unfold royaltyOf numOr
  have ht := truthy_eq (parseInt (.str text))
  by_cases h : (parseInt (.str text)).truthy = true
  · rw [if_pos h]
    rw [h] at ht
    have hnan : (parseInt (.str text)).isNaN = false := by
      cases hx : (parseInt (.str text)).isNaN
      · rfl
      · rw [hx] at ht; simp at ht
    have hzero : (parseInt (.str text)).isZero = false := by
      cases hx : (parseInt (.str text)).isZero
      · rfl
      · rw [hx] at ht; simp at ht
    refine ⟨hnan, hzero, ?_, ?_, ?_⟩
    · intro hfin
      rcases parseInt_integer text with h1 | h1 | h1
      · rw [hnan] at h1; exact absurd h1 (by simp)
      · rw [hfin] at h1; exact absurd h1 (by simp)
      · exact h1
    · intro hz; rw [hzero] at hz; exact absurd hz (by simp)
    · intro hz; rw [hnan] at hz; exact absurd hz (by simp)
  · rw [if_neg h]
    exact ⟨by decide, by decide, fun _ => by decide, fun _ => rfl, fun _ => rfl⟩

theorem mapM_ok_mem {α β : Type} (f : α → Except JSError β) :
    ∀ (xs : List α) (ys : List β), xs.mapM f = .ok ys →
      ∀ y ∈ ys, ∃ x ∈ xs, f x = .ok y := by
  intro xs
  induction xs with
  | nil =>
    intro ys h y hy
    rw [List.mapM_nil] at h
    cases h
    cases hy
  | cons x xs ih =>
    intro ys h y hy
    rw [List.mapM_cons] at h
    cases hx : f x with
    | error e =>
      rw [hx] at h
      cases h
    | ok b =>
      rw [hx] at h
      cases hxs : xs.mapM f with
      | error e =>
        rw [hxs] at h
        cases h
      | ok bs =>
        rw [hxs] at h
        cases h
        rcases List.mem_cons.mp hy with hy | hy
        · exact ⟨x, List.mem_cons_self _ _, by rw [hx, hy]⟩
        · obtain ⟨x2, hx2, hf⟩ := ih bs hxs y hy
          exact ⟨x2, List.mem_cons_of_mem _ hx2, hf⟩

theorem collectSelected_links (rows : List RoyaltyRow) (sel : List AuthorLink)
    (h : collectSelected rows = .ok sel) :
    ∀ l ∈ sel, ∃ r ∈ rows, l.royaltyper = royaltyOf r.royalty := by
  intro l hl
  obtain ⟨cb, _, hf⟩ := mapM_ok_mem _ _ _ h l hl
  cases hfind : rows.find? (fun input => input.author == cb.author) with
  | none =>
    rw [hfind] at hf
    cases hf
  | some r =>
    rw [hfind] at hf
    cases hf
    exact ⟨r, List.mem_of_find?_eq_some hfind, rfl⟩

theorem stringifyNumber_hundred :
    stringifyNumber (JSNumber.ofNat 100) = .num (JSNumber.ofNat 100) := by
  decide

/-- What the JSON text carries for `parseInt(text) || 100`: 100 when the text does not parse
or parses to a zero, `null` when it parses to an infinity, the parsed number otherwise. -/
theorem stringifyNumber_royaltyOf (text : JSString) :
    stringifyNumber (royaltyOf text)
      = (if (parseInt (.str text)).isNaN = true ∨ (parseInt (.str text)).isZero = true then
          .num (JSNumber.ofNat 100)
        else if (parseInt (.str text)).isFinite = true then .num (parseInt (.str text))
        else .null) := by
  unfold royaltyOf numOr
  generalize parseInt (.str text) = x
  cases x with
  | nan =>
    simp only [JSNumber.truthy, JSNumber.isNaN, Bool.false_eq_true, if_false, true_or, if_true]
    exact stringifyNumber_hundred
  | inf s =>
    simp [JSNumber.truthy, JSNumber.isNaN, JSNumber.isZero, JSNumber.isFinite, stringifyNumber]
  | fin s m e =>
    by_cases hm : m = 0
    · subst hm
      simp only [JSNumber.truthy, JSNumber.isNaN, JSNumber.isZero, ne_eq, not_true_eq_false,
        decide_False, decide_True, Bool.false_eq_true, if_false, or_true, if_true]
      exact stringifyNumber_hundred
    · simp [JSNumber.truthy, JSNumber.isNaN, JSNumber.isZero, JSNumber.isFinite, stringifyNumber,
        hm]

theorem requests_append (l1 l2 : List Event) : requests (l1 ++ l2) = requests l1 ++ requests l2 := by
  induction l1 with
  | nil => rfl
  | cons ev rest ih => cases ev <;> simp [requests, ih]

theorem notifications_append (l1 l2 : List Event) :
    notifications (l1 ++ l2) = notifications l1 ++ notifications l2 := by
  induction l1 with
  | nil => rfl
  | cons ev rest ih => cases ev <;> simp [notifications, ih]

theorem requests_append_toast (l : List Event) (m : JSValue) (k : JSString) :
    requests (l ++ [.toast m k]) = requests l := by
  rw [requests_append]; simp [requests]

theorem notifications_append_toast (l : List Event) (m : JSValue) (k : JSString) :
    notifications (l ++ [.toast m k]) = notifications l ++ [(m, k)] := by
  rw [notifications_append]; simp [notifications]

/-- C7, as stated, fails on the blank add-title form: the single notification of the
rejected submission is of the kind `error`, not `warning`. -/
theorem submitAddTitle_rejection_kind_is_error :
    trim blankPage.addTitleForm.titleAuthor = [] ∧
    submitAddTitle JSNumber.toStr blankPage (.failed ⟨.undefined⟩) (.failed ⟨.undefined⟩)
      = { blankPage with
          log := [.toast (.str "Please select an author".toList) "error".toList] } ∧
    notifications (submitAddTitle JSNumber.toStr blankPage (.failed ⟨.undefined⟩)
        (.failed ⟨.undefined⟩)).log
      = [(.str "Please select an author".toList, "error".toList)] ∧
    "error".toList ≠ "warning".toList := by
  decide

/-- C7, amended. For every state of the add-title form in which the trimmed value of the
author selector is empty, submitting the form issues no request and produces exactly one
notification, of the kind `error`; nothing else of the page changes. -/
theorem submitAddTitle_without_author (fmt : JSNumber → JSString) (pg : Page)
    (post : FetchResult Unit) (reload : FetchResult (List Title))
    (h : trim pg.addTitleForm.titleAuthor = []) :
    submitAddTitle fmt pg post reload
      = { pg with log := pg.log ++ [.toast (.str "Please select an author".toList) "error".toList] } ∧
    requests (submitAddTitle fmt pg post reload).log = requests pg.log ∧
    notifications (submitAddTitle fmt pg post reload).log
      = notifications pg.log ++ [(.str "Please select an author".toList, "error".toList)] := by
  have hstep : submitAddTitle fmt pg post reload
      = { pg with log := pg.log ++ [.toast (.str "Please select an author".toList) "error".toList] } := by
    simp [submitAddTitle, h, showToast, Page.emit]
  refine ⟨hstep, ?_, ?_⟩
  · rw [hstep]
    exact requests_append_toast _ _ _
  · rw [hstep]
    exact notifications_append_toast _ _ _

/-- The rejected submission of a form whose author selector holds blanks only. -/
theorem submitAddTitle_without_author_witness :
    requests (submitAddTitle JSNumber.toStr
        { blankPage with addTitleForm := { blankPage.addTitleForm with titleAuthor := "  ".toList } }
        (.failed ⟨.undefined⟩) (.failed ⟨.undefined⟩)).log = [] ∧
    notifications (submitAddTitle JSNumber.toStr
        { blankPage with addTitleForm := { blankPage.addTitleForm with titleAuthor := "  ".toList } }
        (.failed ⟨.undefined⟩) (.failed ⟨.undefined⟩)).log
      = [(.str "Please select an author".toList, "error".toList)] :=
  ⟨(submitAddTitle_without_author JSNumber.toStr
      { blankPage with addTitleForm := { blankPage.addTitleForm with titleAuthor := "  ".toList } }
      (.failed ⟨.undefined⟩) (.failed ⟨.undefined⟩) (by decide)).2.1,
   (submitAddTitle_without_author JSNumber.toStr
      { blankPage with addTitleForm := { blankPage.addTitleForm with titleAuthor := "  ".toList } }
      (.failed ⟨.undefined⟩) (.failed ⟨.undefined⟩) (by decide)).2.2⟩

theorem collectSelected_none_checked (rows : List RoyaltyRow)
    (h : ∀ r ∈ rows, r.checked = false) : collectSelected rows = .ok [] := by
  have hf : rows.filter (fun cb => cb.checked) = [] := by
    rw [List.filter_eq_nil_iff]
    intro r hr
    simp [h r hr]
  simp only [collectSelected, hf, List.mapM_nil]
  rfl

/-- C8, as stated, fails on a page with a selected title and two unchecked author rows: the
single notification of the rejected submission is of the kind `error`, not `warning`. -/
theorem submitEditTitle_rejection_kind_is_error :
    uncheckedEditPage.currentTitleId.truthy = true ∧
    uncheckedEditPage.editTitleForm.editTitleAuthors.all (fun r => !r.checked) = true ∧
    submitEditTitle JSNumber.toStr uncheckedEditPage (.failed ⟨.undefined⟩) (.failed ⟨.undefined⟩)
        (.failed ⟨.undefined⟩)
      = .ok { uncheckedEditPage with
          log := [.toast (.str "Please select at least one author".toList) "error".toList] } ∧
    "error".toList ≠ "warning".toList := by
  decide

/-- C8, amended. For every state of the edit-title form with a selected title in which no
author checkbox is checked, submitting the form issues no request and produces exactly one
notification, of the kind `error`; nothing else of the page changes. -/
theorem submitEditTitle_without_author (fmt : JSNumber → JSString) (pg : Page)
    (put : FetchResult Unit) (reload : FetchResult (List Title)) (detail : FetchResult Title)
    (hsel : pg.currentTitleId.truthy = true)
    (hnone : ∀ r ∈ pg.editTitleForm.editTitleAuthors, r.checked = false) :
    ∃ pg' : Page, submitEditTitle fmt pg put reload detail = .ok pg' ∧
      pg' = { pg with
        log := pg.log ++ [.toast (.str "Please select at least one author".toList) "error".toList] } ∧
      requests pg'.log = requests pg.log ∧
      notifications pg'.log
        = notifications pg.log ++ [(.str "Please select at least one author".toList, "error".toList)] := by
  refine ⟨_, ?_, rfl, requests_append_toast _ _ _, notifications_append_toast _ _ _⟩
  simp [submitEditTitle, hsel, collectSelected_none_checked _ hnone, showToast, Page.emit]

/-- The rejected submission of an edit form whose two author rows are unchecked. -/
theorem submitEditTitle_without_author_witness :
    ∃ pg' : Page,
      submitEditTitle JSNumber.toStr uncheckedEditPage (.failed ⟨.undefined⟩)
        (.failed ⟨.undefined⟩) (.failed ⟨.undefined⟩) = .ok pg' ∧
      requests pg'.log = [] ∧
      notifications pg'.log
        = [(.str "Please select at least one author".toList, "error".toList)] := by
  obtain ⟨pg', h1, -, h3, h4⟩ := submitEditTitle_without_author JSNumber.toStr uncheckedEditPage
    (.failed ⟨.undefined⟩) (.failed ⟨.undefined⟩) (.failed ⟨.undefined⟩) (by decide) (by decide)
  exact ⟨pg', h1, h3, h4⟩

theorem showError_log (pg : Page) (e : JSError) :
    (showError pg e).log = pg.log ++
      [.consoleError e, .toast (e.message.orElse (.str "An error occurred".toList)) "error".toList] := by
  simp [showError, showToast, Page.emit]

theorem loadTitles_log (fmt : JSNumber → JSString) (pg : Page) (res : FetchResult (List Title)) :
    ∃ rest, (loadTitles fmt pg res).log = pg.log ++ rest := by
  cases res with
  | failed e =>
    exact ⟨_, by simp only [loadTitles, showError_log, Page.emit, List.append_assoc]; rfl⟩
  | json data =>
    by_cases hs : data.success.truthy = true
    · exact ⟨_, by simp only [loadTitles, if_pos hs, Page.emit]; rfl⟩
    · exact ⟨_, by simp only [loadTitles, if_neg hs, showError_log, Page.emit, List.append_assoc]; rfl⟩

/-- C9, as stated, fails at the royalty text `0`: it parses to the integer zero, which is no
parse failure, yet the link of the request body carries 100. -/
theorem submitAddTitle_zero_royalty_sent_as_100 :
    parseInt (.str "0".toList) = zero ∧
    (parseInt (.str "0".toList)).isNaN = false ∧
    linksSent (submitAddTitle JSNumber.toStr
        { blankPage with addTitleForm := { blankPage.addTitleForm with
            titleAuthor := "A1".toList, titleRoyaltyPer := "0".toList } }
        (.failed ⟨.undefined⟩) (.failed ⟨.undefined⟩)).log
      = [[⟨"A1".toList, .num (JSNumber.ofNat 100), some 1⟩]] ∧
    JSNumber.ofNat 100 ≠ zero := by
  decide

set_option maxRecDepth 100000 in
/-- C9, amended. For every add-title submission with a non-empty selected author `a` and
royalty text `r`, the request is a `POST` to `/api/titles` whose body carries in its `authors`
field exactly one link with `au_id = a`, `au_ord = 1` and `royaltyper` equal to the integer
that `parseInt` reads from `r`, or 100 when `r` fails to parse as an integer or parses to
zero, or `null` when the digits of `r` exceed the range of a number (then `parseInt` gives an
infinity, which `JSON.stringify` writes as `null`, as for a one followed by 309 zeros and the
exponent `e-5`); a parsed non-zero finite percentage is sent as entered, whatever its value
(250 and -5 are sent as such). -/
theorem submitAddTitle_author_link (fmt : JSNumber → JSString) (pg : Page)
    (post : FetchResult Unit) (reload : FetchResult (List Title))
    (h : trim pg.addTitleForm.titleAuthor ≠ []) :
    (∃ td : TitleJSON,
      (∃ rest : List Event, (submitAddTitle fmt pg post reload).log
        = pg.log ++ .request "POST".toList "/api/titles".toList (.title td) :: rest) ∧
      td.authors = [⟨trim pg.addTitleForm.titleAuthor,
        stringifyNumber (royaltyOf pg.addTitleForm.titleRoyaltyPer), some 1⟩]) ∧
    stringifyNumber (royaltyOf pg.addTitleForm.titleRoyaltyPer)
      = (if (parseInt (.str pg.addTitleForm.titleRoyaltyPer)).isNaN = true ∨
            (parseInt (.str pg.addTitleForm.titleRoyaltyPer)).isZero = true then
          .num (JSNumber.ofNat 100)
        else if (parseInt (.str pg.addTitleForm.titleRoyaltyPer)).isFinite = true then
          .num (parseInt (.str pg.addTitleForm.titleRoyaltyPer))
        else .null) ∧
    ((parseInt (.str pg.addTitleForm.titleRoyaltyPer)).isFinite = true →
      (parseInt (.str pg.addTitleForm.titleRoyaltyPer)).isInteger = true) ∧
    stringifyNumber (royaltyOf "250".toList) = .num (JSNumber.ofNat 250) ∧
    stringifyNumber (royaltyOf "-5".toList) = .num (JSNumber.ofInt (-5)) ∧
    stringifyNumber (royaltyOf "abc".toList) = .num (JSNumber.ofNat 100) ∧
    stringifyNumber (royaltyOf []) = .num (JSNumber.ofNat 100) ∧
    stringifyNumber (royaltyOf longRoyaltyText) = .null := by
  refine ⟨?_, stringifyNumber_royaltyOf _, ?_, by decide, by decide, by decide, by decide,
    by decide⟩
  · have hne : (trim pg.addTitleForm.titleAuthor).isEmpty = false := by
      cases ht : trim pg.addTitleForm.titleAuthor with
      | nil => exact absurd ht h
      | cons c cs => rfl
    refine ⟨stringifyTitle (addTitleData pg.addTitleForm), ?_, rfl⟩
    cases post with
    | failed e =>
      exact ⟨_, by
        simp only [submitAddTitle, hne, Bool.false_eq_true, if_false, showError_log, Page.emit,
          List.append_assoc]
        rfl⟩
    | json data =>
      by_cases hs : data.success.truthy = true
      · obtain ⟨rest, hr⟩ := loadTitles_log fmt
          { showToast (pg.emit (.request "POST".toList (API_BASE ++ "/titles".toList)
              (.title (stringifyTitle (addTitleData pg.addTitleForm)))))
              (.str "Title added successfully!".toList) successKind with
            addTitleForm := resetAddTitleForm
              (showToast (pg.emit (.request "POST".toList (API_BASE ++ "/titles".toList)
                (.title (stringifyTitle (addTitleData pg.addTitleForm)))))
                (.str "Title added successfully!".toList) successKind) } reload
        exact ⟨_ :: rest, by
          simp only [submitAddTitle, hne, Bool.false_eq_true, if_false, if_pos hs]
          rw [hr]
          simp only [showToast, Page.emit, List.append_assoc]
          rfl⟩
      · exact ⟨_, by
          simp only [submitAddTitle, hne, Bool.false_eq_true, if_false, if_neg hs, showError_log,
            Page.emit, List.append_assoc]
          rfl⟩
  · intro hfin
    rcases parseInt_integer pg.addTitleForm.titleRoyaltyPer with h1 | h1 | h1
    · generalize parseInt (.str pg.addTitleForm.titleRoyaltyPer) = x at hfin h1
      cases x <;> simp [JSNumber.isFinite, JSNumber.isNaN] at hfin h1
    · rw [hfin] at h1
      exact absurd h1 (by simp)
    · exact h1

/-- The link sent for the author `A1` with the royalty text `250`. -/
theorem submitAddTitle_author_link_witness :
    ∃ td : TitleJSON,
      (∃ rest : List Event, (submitAddTitle JSNumber.toStr
        { blankPage with addTitleForm := { blankPage.addTitleForm with
            titleAuthor := "A1".toList, titleRoyaltyPer := "250".toList } }
        (.failed ⟨.undefined⟩) (.failed ⟨.undefined⟩)).log
        = .request "POST".toList "/api/titles".toList (.title td) :: rest) ∧
      td.authors = [⟨"A1".toList, .num (JSNumber.ofNat 250), some 1⟩] := by
  obtain ⟨⟨td, ⟨rest, h1⟩, h2⟩, -, -, h3, -⟩ := submitAddTitle_author_link JSNumber.toStr
    { blankPage with addTitleForm := { blankPage.addTitleForm with
        titleAuthor := "A1".toList, titleRoyaltyPer := "250".toList } }
    (.failed ⟨.undefined⟩) (.failed ⟨.undefined⟩) (by decide)
  refine ⟨td, ⟨rest, h1⟩, ?_⟩
  rw [h2]
  have ht : trim "A1".toList = "A1".toList := by decide
  exact congrArg₂ (fun a r => [AuthorLinkJSON.mk a r (some 1)]) ht h3

theorem selectAuthor_absent (pg : Page) (authorId : JSValue)
    (h : ∀ a ∈ pg.authors, strictEq a.au_id authorId = false) :
    selectAuthor pg authorId = { pg with currentAuthorId := authorId } := by
  have hf : pg.authors.find? (fun a => strictEq a.au_id authorId) = none := by
    rw [List.find?_eq_none]
    intro a ha
    simp [h a ha]
  simp only [selectAuthor, hf]

/-- C10 on the page in edit mode for the author `A1`: selecting the identifier `Z9`, which
matches no loaded author, leaves the form, the buttons and the highlighting as they were but
replaces the selection `currentAuthorId` by `Z9`, so the call is no no-op. The same happens
on a click on the item of an author whose identifier is the number 7: the item gives the
string `7`, which matches no author. -/
theorem selectAuthor_absent_changes_selection :
    (editingPage.currentAuthorId = .str "A1".toList ∧
      editingPage.authors.find? (fun a => strictEq a.au_id (.str "Z9".toList)) = none ∧
      selectAuthor editingPage (.str "Z9".toList)
        = { editingPage with currentAuthorId := .str "Z9".toList } ∧
      selectAuthor editingPage (.str "Z9".toList) ≠ editingPage) ∧
    (numericIdPage.authorsList
        = .rows [⟨"7".toList, "Bob Ray".toList, none, none, false, "7".toList, false⟩] ∧
      numericIdPage.currentAuthorId = .null ∧
      numericIdPage.authors.find? (fun a => strictEq a.au_id (.str "7".toList)) = none ∧
      selectAuthor numericIdPage (.str "7".toList)
        = { numericIdPage with currentAuthorId := .str "7".toList } ∧
      selectAuthor numericIdPage (.str "7".toList) ≠ numericIdPage) := by
  decide

theorem showError_emit_memory (pg : Page) (ev : Event) (e : JSError) :
    inMemory (showError (pg.emit ev) e) = inMemory pg := rfl

theorem showError_emit_request_notifications (pg : Page) (m u : JSString) (b : RequestBody)
    (e : JSError) :
    notifications (showError (pg.emit (.request m u b)) e).log
      = notifications pg.log ++ [(e.message.orElse (.str "An error occurred".toList), "error".toList)] := by
  rw [showError_log]
  simp only [Page.emit, notifications_append]
  simp [notifications]

theorem rejectionHandled_of_showError (pg r : Page) (e : JSError) (m u : JSString)
    (b : RequestBody) (h : r = showError (pg.emit (.request m u b)) e) :
    RejectionHandled pg r e := by
  subst h
  exact ⟨rfl, showError_emit_request_notifications pg m u b e⟩

/-- A rejected network call of every operation but `selectTitle` leaves the four globals as
they were and shows exactly one notification, of the kind `error`: the operation ends in
`showError` right after its request. -/
theorem rejection_keeps_memory (fmt : JSNumber → JSString) (pg : Page) (e : JSError)
    (ra : FetchResult (List Author)) (rt : FetchResult (List Title)) (rd : FetchResult Title) :
    RejectionHandled pg (loadAuthors pg (.failed e)) e ∧
    RejectionHandled pg (loadTitles fmt pg (.failed e)) e ∧
    RejectionHandled pg (submitAuthorForm fmt pg (.failed e) ra rt) e ∧
    (pg.currentAuthorId.truthy = true →
      RejectionHandled pg (clickUpdateAuthor fmt pg (.failed e) ra rt) e) ∧
    (pg.currentAuthorId.truthy = true →
      RejectionHandled pg (clickDeleteAuthor fmt pg true (.failed e) ra rt) e) ∧
    (trim pg.addTitleForm.titleAuthor ≠ [] →
      RejectionHandled pg (submitAddTitle fmt pg (.failed e) rt) e) ∧
    (pg.currentTitleId.truthy = true →
      ∀ sel, collectSelected pg.editTitleForm.editTitleAuthors = .ok sel → sel ≠ [] →
      ∃ r, submitEditTitle fmt pg (.failed e) rt rd = .ok r ∧ RejectionHandled pg r e) ∧
    (pg.currentTitleId.truthy = true →
      RejectionHandled pg (clickDeleteTitle fmt pg true (.failed e) rt) e) := by
  refine ⟨rejectionHandled_of_showError _ _ _ _ _ _ rfl,
    rejectionHandled_of_showError _ _ _ _ _ _ rfl,
    rejectionHandled_of_showError _ _ _ _ _ _ rfl, ?_, ?_, ?_, ?_, ?_⟩
  · intro h
    exact rejectionHandled_of_showError _ _ _ _ _ _ (by
      simp only [clickUpdateAuthor, h, Bool.not_true, Bool.false_eq_true, if_false]
      rfl)
  · intro h
    exact rejectionHandled_of_showError _ _ _ _ _ _ (by
      simp only [clickDeleteAuthor, h, Bool.not_true, Bool.false_eq_true, if_false]
      rfl)
  · intro h
    have hne : (trim pg.addTitleForm.titleAuthor).isEmpty = false := by
      cases ht : trim pg.addTitleForm.titleAuthor with
      | nil => exact absurd ht h
      | cons c cs => rfl
    exact rejectionHandled_of_showError _ _ _ _ _ _ (by
      simp only [submitAddTitle, hne, Bool.false_eq_true, if_false]
      rfl)
  · intro h sel hsel hne
    have hlen : ¬ sel.length = 0 := by
      intro h0
      exact hne (List.length_eq_zero.mp h0)
    exact ⟨_, by
      simp only [submitEditTitle, h, Bool.not_true, Bool.false_eq_true, if_false, hsel, hlen]
      rfl,
      rejectionHandled_of_showError _ _ _ _ _ _ rfl⟩
  · intro h
    exact rejectionHandled_of_showError _ _ _ _ _ _ (by
      simp only [clickDeleteTitle, h, Bool.not_true, Bool.false_eq_true, if_false]
      rfl)

/-- A rejected request of `selectTitle` is reported like any other, but the selection has
already been replaced by the requested identifier. -/
theorem selectTitle_rejected (pg : Page) (titleId : JSValue) (e : JSError) :
    selectTitle pg titleId (.failed e)
      = showError ({ pg with currentTitleId := titleId }.emit
          (.request "GET".toList (API_BASE ++ "/titles/".toList ++ titleId.toStr) .none)) e := rfl

/-- C11 at `selectTitle`: on the page that shows the title `T1`, the request for `T2`
rejects. One error notification is shown and the edit form still holds `T1`, but the global
`currentTitleId` is now `T2`: the in-memory state is not the same as before. -/
theorem selectTitle_rejection_changes_selection :
    shownTitlePage.currentTitleId = .str "T1".toList ∧
    shownTitlePage.editTitleForm.editTitleId = "T1".toList ∧
    (selectTitle shownTitlePage (.str "T2".toList)
        (.failed ⟨.str "Failed to fetch".toList⟩)).currentTitleId = .str "T2".toList ∧
    (selectTitle shownTitlePage (.str "T2".toList)
        (.failed ⟨.str "Failed to fetch".toList⟩)).editTitleForm = shownTitlePage.editTitleForm ∧
    notifications (selectTitle shownTitlePage (.str "T2".toList)
        (.failed ⟨.str "Failed to fetch".toList⟩)).log
      = notifications shownTitlePage.log ++ [(.str "Failed to fetch".toList, "error".toList)] ∧
    inMemory (selectTitle shownTitlePage (.str "T2".toList)
        (.failed ⟨.str "Failed to fetch".toList⟩)) ≠ inMemory shownTitlePage := by
  decide

theorem any_setLinked (acc : List (JSString × JSValue)) (key k : JSString) (v : JSValue)
    (hp : key ≠ "__proto__".toList) :
    (setLinked acc key v).any (fun kv => kv.1 == k)
      = (acc.any (fun kv => kv.1 == k) || key == k) := by
  unfold setLinked
  rw [if_neg hp]
  by_cases hex : acc.any (fun kv => kv.1 == key) = true
  · rw [if_pos hex]
    by_cases hk : key = k
    · subst hk
      rw [hex]
      simp only [Bool.true_or, List.any_map, List.any_eq_true, Function.comp]
      obtain ⟨x, hx, hxk⟩ := List.any_eq_true.mp hex
      exact ⟨x, hx, by simp [hxk]⟩
    · have hkf : (key == k) = false := by simpa using hk
      rw [hkf, Bool.or_false, List.any_map]
      congr 1
      funext kv
      simp only [Function.comp]
      by_cases hkv : kv.1 = key
      · simp [hkv, hk]
      · simp [hkv]
  · rw [if_neg hex, List.any_append]
    simp

theorem getLinked_nil (k : JSString) : getLinked [] k = inheritedMember k := rfl

theorem getLinked_cons (kv : JSString × JSValue) (rest : List (JSString × JSValue))
    (k : JSString) :
    getLinked (kv :: rest) k = if kv.1 = k then kv.2 else getLinked rest k := by
  unfold getLinked
  by_cases h : kv.1 = k
  · have hb : (kv.1 == k) = true := by simpa using h
    simp only [List.find?_cons, hb, if_pos h]
  · have hb : (kv.1 == k) = false := by simpa using h
    simp only [List.find?_cons, hb, if_neg h]

theorem getLinked_map_set (acc : List (JSString × JSValue)) (key k : JSString) (v : JSValue) :
    getLinked (acc.map (fun kv => if kv.1 == key then (key, v) else kv)) k
      = if key = k then (if acc.any (fun kv => kv.1 == key) = true then v else inheritedMember k)
        else getLinked acc k := by
  induction acc with
  | nil => by_cases hk : key = k <;> simp [getLinked_nil, hk]
  | cons kv rest ih =>
    rw [List.map_cons, getLinked_cons, getLinked_cons, ih, List.any_cons]
    by_cases hkv : kv.1 = key
    · have hb : (kv.1 == key) = true := by simpa using hkv
      by_cases hk : key = k
      · subst hk
        simp only [hb, if_true, Bool.true_or]
      · have hkk : ¬ kv.1 = k := by rw [hkv]; exact hk
        simp only [hb, if_true, hk, if_false, hkk]
    · have hb : (kv.1 == key) = false := by simpa using hkv
      by_cases hk : key = k
      · subst hk
        simp only [hb, Bool.false_eq_true, if_false, hkv, if_true, Bool.false_or]
      · simp only [hb, Bool.false_eq_true, if_false, hk]

theorem getLinked_append_singleton (acc : List (JSString × JSValue)) (key k : JSString)
    (v : JSValue) (hno : acc.any (fun kv => kv.1 == key) = false) :
    getLinked (acc ++ [(key, v)]) k = if key = k then v else getLinked acc k := by
  induction acc with
  | nil =>
    rw [List.nil_append, getLinked_cons, getLinked_nil]
  | cons kv rest ih =>
    rw [List.any_cons, Bool.or_eq_false_iff] at hno
    have hkv : ¬ kv.1 = key := by simpa using hno.1
    rw [List.cons_append, getLinked_cons, getLinked_cons, ih hno.2]
    by_cases hk : key = k
    · subst hk
      simp only [if_true, hkv, if_false]
    · simp only [hk, if_false]

theorem getLinked_setLinked (acc : List (JSString × JSValue)) (key k : JSString) (v : JSValue)
    (hp : key ≠ "__proto__".toList) :
    getLinked (setLinked acc key v) k = if key = k then v else getLinked acc k := by
  unfold setLinked
  rw [if_neg hp]
  by_cases hex : acc.any (fun kv => kv.1 == key) = true
  · rw [if_pos hex, getLinked_map_set, if_pos hex]
  · have hno : acc.any (fun kv => kv.1 == key) = false := by
      cases h : acc.any (fun kv => kv.1 == key)
      · rfl
      · exact absurd h hex
    rw [if_neg hex, getLinked_append_singleton _ _ _ _ hno]

theorem lastLink_append (items : List TitleAuthor) (a : TitleAuthor) (k : JSString) :
    lastLink (items ++ [a]) k = if a.au_id.toStr = k then some a else lastLink items k := by
  unfold lastLink
  rw [List.filter_append]
  by_cases h : a.au_id.toStr = k
  · have hb : (a.au_id.toStr == k) = true := by simpa using h
    simp [List.filter_cons, hb, h]
  · have hb : (a.au_id.toStr == k) = false := by simpa using h
    simp [List.filter_cons, hb, h]

/-- The object `linkedAuthors` after the loop, when no link is named `__proto__`: a name is
an own member exactly when a link carries it, and its value is the percentage of the last
such link, or 100 when falsy; any other name reads what is inherited. -/
theorem linkedAuthorsOf_spec (items : List TitleAuthor) (k : JSString)
    (hp : ∀ link ∈ items, link.au_id.toStr ≠ "__proto__".toList) :
    (linkedAuthorsOf items).any (fun kv => kv.1 == k) = (lastLink items k).isSome ∧
    getLinked (linkedAuthorsOf items) k
      = match lastLink items k with
        | some link => link.royaltyper.orElse (.num (JSNumber.ofNat 100))
        | none => inheritedMember k := by
  induction items using List.reverseRecOn with
  | nil => exact ⟨rfl, rfl⟩
  | append_singleton items a ih =>
    have hp1 : ∀ link ∈ items, link.au_id.toStr ≠ "__proto__".toList :=
      fun link hl => hp link (List.mem_append_left _ hl)
    have hp2 : a.au_id.toStr ≠ "__proto__".toList :=
      hp a (List.mem_append_right _ (List.mem_singleton_self a))
    have hfold : linkedAuthorsOf (items ++ [a])
        = setLinked (linkedAuthorsOf items) a.au_id.toStr
            (a.royaltyper.orElse (.num (JSNumber.ofNat 100))) := by
      simp [linkedAuthorsOf, List.foldl_append]
    rw [hfold, any_setLinked _ _ _ _ hp2, getLinked_setLinked _ _ _ _ hp2, lastLink_append,
      (ih hp1).1, (ih hp1).2]
    by_cases h : a.au_id.toStr = k
    · simp [h]
    · have hb : (a.au_id.toStr == k) = false := by simpa using h
      simp [h, hb]

theorem orElse_orElse (x d : JSValue) : (x.orElse d).orElse d = x.orElse d := by
  unfold JSValue.orElse
  by_cases hx : x.truthy = true
  · simp [hx]
  · simp [hx]

theorem inheritedMember_undefined {k : JSString} (h : k ∉ objectPrototypeNames) :
    inheritedMember k = .undefined := by
  have h1 : k ≠ "__proto__".toList := by
    intro hk; rw [hk] at h; exact h (by decide)
  have h2 : k ≠ "constructor".toList := by
    intro hk; rw [hk] at h; exact h (by decide)
  simp only [inheritedMember, h1, h2, h, if_false]

theorem lastLink_isSome (items : List TitleAuthor) (k : JSString) :
    (lastLink items k).isSome = items.any (fun link => link.au_id.toStr == k) := by
  induction items using List.reverseRecOn with
  | nil => rfl
  | append_singleton items a ih =>
    rw [lastLink_append, List.any_append]
    by_cases h : a.au_id.toStr = k
    · have hb : (a.au_id.toStr == k) = true := by simpa using h
      simp [h]
    · have hb : (a.au_id.toStr == k) = false := by simpa using h
      simp [h, hb, ih]

/-- The method `hasOwnProperty` can be called when no link is named after a member of
`Object.prototype`. -/
theorem hasOwnLinked_ok (items : List TitleAuthor) (k : JSString)
    (hp : ∀ link ∈ items, link.au_id.toStr ∉ objectPrototypeNames) :
    hasOwnLinked (linkedAuthorsOf items) k = .ok ((lastLink items k).isSome) := by
  have hproto : ∀ link ∈ items, link.au_id.toStr ≠ "__proto__".toList := by
    intro link hl hk
    have := hp link hl
    rw [hk] at this
    exact this (by decide)
  have hown : (linkedAuthorsOf items).any (fun kv => kv.1 == "hasOwnProperty".toList) = false := by
    rw [(linkedAuthorsOf_spec items _ hproto).1, lastLink_isSome]
    cases hany : items.any (fun link => link.au_id.toStr == "hasOwnProperty".toList)
    · rfl
    · obtain ⟨link, hl, hk⟩ := List.any_eq_true.mp hany
      have hk2 : link.au_id.toStr = "hasOwnProperty".toList := by simpa using hk
      have := hp link hl
      rw [hk2] at this
      exact absurd (by decide) this
  unfold hasOwnLinked
  rw [hown, (linkedAuthorsOf_spec items k hproto).1]
  rfl

theorem sanitizeNumber_hundred : sanitizeNumber "100".toList = "100".toList := by
  decide

theorem royaltyRow_eq_spec (items : List TitleAuthor) (author : Author)
    (hp : ∀ link ∈ items, link.au_id.toStr ∉ objectPrototypeNames)
    (ha : author.au_id.toStr ∉ objectPrototypeNames) :
    royaltyRow (linkedAuthorsOf items) author = .ok (matrixRowSpec items author) := by
  have hproto : ∀ link ∈ items, link.au_id.toStr ≠ "__proto__".toList := by
    intro link hl hk
    have := hp link hl
    rw [hk] at this
    exact this (by decide)
  have h2 := (linkedAuthorsOf_spec items author.au_id.toStr hproto).2
  unfold royaltyRow matrixRowSpec
  rw [hasOwnLinked_ok items _ hp]
  simp only [h2]
  cases hl : lastLink items author.au_id.toStr with
  | none =>
    simp only [Option.isSome_none, Bool.not_false, inheritedMember_undefined ha]
    have h100 : (JSValue.undefined.orElse (.num (JSNumber.ofNat 100))).toStr = "100".toList := by
      decide
    rw [h100, sanitizeNumber_hundred]
  | some link =>
    simp only [Option.isSome_some, Bool.not_true, orElse_orElse]

theorem mapM_ok_of_forall {α β : Type} (f : α → Except JSError β) (g : α → β) :
    ∀ xs : List α, (∀ x ∈ xs, f x = .ok (g x)) → xs.mapM f = .ok (xs.map g) := by
  intro xs
  induction xs with
  | nil => intro _; rfl
  | cons x xs ih =>
    intro h
    rw [List.mapM_cons, h x (List.mem_cons_self _ _),
      ih (fun y hy => h y (List.mem_cons_of_mem _ hy))]
    rfl

theorem selectTitle_rows (pg : Page) (titleId : JSValue) (data : ApiResponse Title)
    (items : List TitleAuthor) (hs : data.success.truthy = true)
    (hd : ∃ date, dateForInput data.data.pubdate = .ok date)
    (ha : data.data.authors = .array items)
    (hp : ∀ link ∈ items, link.au_id.toStr ∉ objectPrototypeNames)
    (hq : ∀ author ∈ pg.authors, author.au_id.toStr ∉ objectPrototypeNames) :
    (selectTitle pg titleId (.json data)).editTitleForm.editTitleAuthors
      = pg.authors.map (matrixRowSpec items) := by
  obtain ⟨r, hr⟩ := hd
  have hrows : pg.authors.mapM (royaltyRow (linkedAuthorsOf items))
      = .ok (pg.authors.map (matrixRowSpec items)) :=
    mapM_ok_of_forall _ _ _ (fun a hmem => royaltyRow_eq_spec items a hp (hq a hmem))
  simp only [selectTitle, hs, if_true, hr, ha, Page.emit, hrows]

/-- C12, as stated, fails in three ways. A link that carries the percentage zero: the row of
its author is checked and enabled, but shows 100, not the percentage of the link. An author
who is not linked and whose identifier is `constructor`: the row is unchecked and disabled,
but its royalty input is empty, not 100, because the object `linkedAuthors` inherits a member
of that name. A link that carries the percentage `5x`: the number input drops that text and
is empty. -/
theorem selectTitle_zero_percentage_shows_100 :
    ((selectTitle
        { blankPage with authors := [sampleAuthor "A1" "Bob" "Ray", sampleAuthor "A2" "Ann" "Lee"] }
        (.str "T1".toList)
        (.json (okResponse (sampleTitle "T1" "First" [sampleLink "A1" (.num zero)])))
      ).editTitleForm.editTitleAuthors
      = [⟨"A1".toList, true, "Bob Ray".toList, "100".toList, false⟩,
         ⟨"A2".toList, false, "Ann Lee".toList, "100".toList, true⟩] ∧
      (sampleLink "A1" (.num zero)).royaltyper ≠ .undefined ∧
      claimedRoyaltyText (sampleLink "A1" (.num zero)) = "0".toList) ∧
    ((selectTitle
        { blankPage with authors := [sampleAuthor "constructor" "Bob" "Ray"] }
        (.str "T1".toList)
        (.json (okResponse (sampleTitle "T1" "First" [])))
      ).editTitleForm.editTitleAuthors
      = [⟨"constructor".toList, false, "Bob Ray".toList, [], true⟩]) ∧
    ((selectTitle
        { blankPage with authors := [sampleAuthor "A1" "Bob" "Ray"] }
        (.str "T1".toList)
        (.json (okResponse (sampleTitle "T1" "First" [sampleLink "A1" (.str "5x".toList)])))
      ).editTitleForm.editTitleAuthors
      = [⟨"A1".toList, true, "Bob Ray".toList, [], false⟩] ∧
      claimedRoyaltyText (sampleLink "A1" (.str "5x".toList)) = "5x".toList) := by
  decide

/-- C12, amended. When `selectTitle` succeeds for a title with author links `L` (the answer
carries a truthy `success`, the publication date converts and `authors` is an array), and no
identifier of a loaded author or of a link is the name of a member of `Object.prototype` and
the interpolated texts hold no markup character, the author matrix has exactly one row per
author of the loaded authors collection, in collection order; a row is checked and enabled
exactly when the identifier of its author occurs in `L`, and then its royalty input is
pre-filled with the percentage that the last such link carries, or with 100 if that percentage
is absent or falsy (null, zero, empty), and is empty when that text is no finite number that
a number input accepts; every other row is unchecked, disabled and shows 100. -/
theorem selectTitle_matrix (pg : Page) (titleId : JSValue) (data : ApiResponse Title)
    (items : List TitleAuthor) (hs : data.success.truthy = true)
    (hd : ∃ date, dateForInput data.data.pubdate = .ok date)
    (ha : data.data.authors = .array items)
    (hin : MatrixInputs pg.authors items) :
    (selectTitle pg titleId (.json data)).editTitleForm.editTitleAuthors
      = pg.authors.map (matrixRowSpec items) ∧
    (selectTitle pg titleId (.json data)).editTitleForm.editTitleAuthors.length
      = pg.authors.length ∧
    (∀ author : Author,
      (matrixRowSpec items author).checked
        = items.any (fun link => link.au_id.toStr == author.au_id.toStr) ∧
      (matrixRowSpec items author).disabled = !(matrixRowSpec items author).checked ∧
      ((matrixRowSpec items author).checked = false →
        (matrixRowSpec items author).royalty = "100".toList) ∧
      ((matrixRowSpec items author).checked = true →
        ∃ link ∈ items, link.au_id.toStr = author.au_id.toStr ∧
          lastLink items author.au_id.toStr = some link ∧
          (matrixRowSpec items author).royalty
            = sanitizeNumber (link.royaltyper.orElse (.num (JSNumber.ofNat 100))).toStr)) ∧
    (∀ text : JSString,
      (validFloat text = true → (JSNumber.ofString text).isFinite = true →
        sanitizeNumber text = text) ∧
      (validFloat text = false → sanitizeNumber text = []) ∧
      ((JSNumber.ofString text).isFinite = false → sanitizeNumber text = [])) := by
  have hrows := selectTitle_rows pg titleId data items hs hd ha
    (fun link hl => (hin.2 link hl).1) (fun author hmem => (hin.1 author hmem).1)
  refine ⟨hrows, ?_, ?_, ?_⟩
  · rw [hrows, List.length_map]
  · intro author
    have hsome := lastLink_isSome items author.au_id.toStr
    unfold matrixRowSpec
    cases hl : lastLink items author.au_id.toStr with
    | none =>
      rw [hl] at hsome
      refine ⟨?_, rfl, fun _ => rfl, fun h => absurd h (by simp)⟩
      simpa using hsome
    | some link =>
      rw [hl] at hsome
      refine ⟨?_, rfl, fun h => absurd h (by simp), fun _ => ?_⟩
      · simpa using hsome
      · have hmem : link ∈ items.filter (fun a => a.au_id.toStr == author.au_id.toStr) := by
          unfold lastLink at hl
          exact List.mem_of_getLast?_eq_some hl
        rw [List.mem_filter] at hmem
        exact ⟨link, hmem.1, by simpa using hmem.2, rfl, rfl⟩
  · intro text
    refine ⟨fun h1 h2 => ?_, fun h1 => ?_, fun h2 => ?_⟩
    · simp only [sanitizeNumber, h1, h2, and_self, if_true]
    · simp only [sanitizeNumber, h1, Bool.false_eq_true, false_and, if_false]
    · simp only [sanitizeNumber, h2, Bool.false_eq_true, and_false, if_false]

/-- The matrix of the title `T1`, linked to `A1` at 50 percent, over the authors `A1`, `A2`. -/
theorem selectTitle_matrix_witness :
    shownTitlePage.editTitleForm.editTitleAuthors
      = [sampleAuthor "A1" "Bob" "Ray", sampleAuthor "A2" "Ann" "Lee"].map
          (matrixRowSpec [sampleLink "A1" (.num (JSNumber.ofNat 50))]) ∧
    shownTitlePage.editTitleForm.editTitleAuthors
      = [⟨"A1".toList, true, "Bob Ray".toList, "50".toList, false⟩,
         ⟨"A2".toList, false, "Ann Lee".toList, "100".toList, true⟩] :=
  ⟨(selectTitle_matrix
      { blankPage with authors := [sampleAuthor "A1" "Bob" "Ray", sampleAuthor "A2" "Ann" "Lee"] }
      (.str "T1".toList)
      (okResponse (sampleTitle "T1" "First" [sampleLink "A1" (.num (JSNumber.ofNat 50))]))
      [sampleLink "A1" (.num (JSNumber.ofNat 50))] (by decide) ⟨.str [], by decide⟩ rfl
      (by unfold MatrixInputs; decide)).1,
   by decide⟩

theorem requests_showError (pg : Page) (e : JSError) :
    requests (showError pg e).log = requests pg.log := by
  rw [showError_log, requests_append]
  simp [requests]

theorem requests_emit_request (pg : Page) (m u : JSString) (b : RequestBody) :
    requests (pg.emit (.request m u b)).log = requests pg.log ++ [(m, u, b)] := by
  simp only [Page.emit, requests_append]
  simp [requests]

theorem loadAuthors_frame (pg : Page) (res : FetchResult (List Author)) :
    requests (loadAuthors pg res).log = requests pg.log ++ [getAuthors] ∧
    (loadAuthors pg res).currentAuthorId = pg.currentAuthorId ∧
    (loadAuthors pg res).authorForm = pg.authorForm ∧
    (loadAuthors pg res).authorButtons = pg.authorButtons := by
  have hreq := requests_emit_request pg "GET".toList (API_BASE ++ "/authors".toList) .none
  cases res with
  | failed e =>
    refine ⟨?_, rfl, rfl, rfl⟩
    simp only [loadAuthors, requests_showError, hreq]
    rfl
  | json data =>
    by_cases hs : data.success.truthy = true
    · refine ⟨?_, ?_, ?_, ?_⟩ <;> simp only [loadAuthors, if_pos hs, populateAuthorSelects]
      · exact hreq
      all_goals rfl
    · refine ⟨?_, ?_, ?_, ?_⟩ <;> simp only [loadAuthors, if_neg hs]
      · rw [requests_showError, hreq]; rfl
      all_goals rfl

theorem loadTitles_frame (fmt : JSNumber → JSString) (pg : Page)
    (res : FetchResult (List Title)) :
    requests (loadTitles fmt pg res).log = requests pg.log ++ [getTitles] ∧
    (loadTitles fmt pg res).currentAuthorId = pg.currentAuthorId ∧
    (loadTitles fmt pg res).authorForm = pg.authorForm ∧
    (loadTitles fmt pg res).authorButtons = pg.authorButtons := by
  have hreq := requests_emit_request pg "GET".toList (API_BASE ++ "/titles".toList) .none
  cases res with
  | failed e =>
    refine ⟨?_, rfl, rfl, rfl⟩
    simp only [loadTitles, requests_showError, hreq]
    rfl
  | json data =>
    by_cases hs : data.success.truthy = true
    · refine ⟨?_, ?_, ?_, ?_⟩ <;> simp only [loadTitles, if_pos hs]
      · exact hreq
      all_goals rfl
    · refine ⟨?_, ?_, ?_, ?_⟩ <;> simp only [loadTitles, if_neg hs]
      · rw [requests_showError, hreq]; rfl
      all_goals rfl

theorem afterAuthorSuccess_reloaded (fmt : JSNumber → JSString) (pg : Page) (m u : JSString)
    (b : RequestBody) (message : JSValue) (ra : FetchResult (List Author))
    (rt : FetchResult (List Title)) :
    ReloadedAfter pg (afterAuthorSuccess fmt (pg.emit (.request m u b)) message ra rt)
      (m, u, b) := by
  obtain ⟨t1, t2, t3, t4⟩ := loadTitles_frame fmt
    (loadAuthors (resetAuthorForm (showToast (pg.emit (.request m u b)) message successKind)) ra) rt
  obtain ⟨a1, a2, a3, a4⟩ := loadAuthors_frame
    (resetAuthorForm (showToast (pg.emit (.request m u b)) message successKind)) ra
  refine ⟨?_, ?_, ?_, ?_⟩
  · show requests (loadTitles fmt (loadAuthors (resetAuthorForm
      (showToast (pg.emit (.request m u b)) message successKind)) ra) rt).log = _
    rw [t1, a1]
    have h0 : requests (resetAuthorForm
        (showToast (pg.emit (.request m u b)) message successKind)).log
        = requests pg.log ++ [(m, u, b)] := by
      show requests ((pg.log ++ [Event.request m u b]) ++ [Event.toast message successKind]) = _
      rw [requests_append_toast, requests_append]
      simp [requests]
    rw [h0]
    simp
  · exact t2.trans a2
  · exact t3.trans a3
  · exact t4.trans a4

theorem keptAfterFailure_of_showError (pg : Page) (m u : JSString) (b : RequestBody)
    (error : JSValue) :
    KeptAfterFailure pg (showError (pg.emit (.request m u b)) (newError error)) (m, u, b)
      error :=
  ⟨by rw [requests_showError, requests_emit_request], rfl, rfl, rfl,
    showError_emit_request_notifications pg m u b (newError error)⟩

/-- C13. After every author mutation answered with a truthy `success` (create, update of
the selected author, confirmed delete of the selected author), the handler notifies, resets
the author form and the selection, and then reloads both collections: the requests it issues
are the mutation, the fetch of the authors and the fetch of the titles, in this order. After
an application-level failure no reload is issued and the form and the selection are as they
were. -/
theorem author_mutation_reloads (fmt : JSNumber → JSString) (pg : Page)
    (data : ApiResponse Unit) (ra : FetchResult (List Author)) (rt : FetchResult (List Title)) :
    (data.success.truthy = true →
      (submitAuthorForm fmt pg (.json data) ra rt
          = loadTitles fmt (loadAuthors (resetAuthorForm (showToast
              (pg.emit (.request "POST".toList "/api/authors".toList
                (.author (authorDataOf pg.authorForm))))
              (.str "Author added successfully!".toList) successKind)) ra) rt ∧
        ReloadedAfter pg (submitAuthorForm fmt pg (.json data) ra rt)
          ("POST".toList, "/api/authors".toList, .author (authorDataOf pg.authorForm))) ∧
      (pg.currentAuthorId.truthy = true →
        clickUpdateAuthor fmt pg (.json data) ra rt
          = loadTitles fmt (loadAuthors (resetAuthorForm (showToast
              (pg.emit (.request "PUT".toList
                ("/api/authors/".toList ++ pg.currentAuthorId.toStr)
                (.author (authorDataOf pg.authorForm))))
              (.str "Author updated successfully!".toList) successKind)) ra) rt ∧
        ReloadedAfter pg (clickUpdateAuthor fmt pg (.json data) ra rt)
          ("PUT".toList, "/api/authors/".toList ++ pg.currentAuthorId.toStr,
            .author (authorDataOf pg.authorForm))) ∧
      (pg.currentAuthorId.truthy = true →
        clickDeleteAuthor fmt pg true (.json data) ra rt
          = loadTitles fmt (loadAuthors (resetAuthorForm (showToast
              (pg.emit (.request "DELETE".toList
                ("/api/authors/".toList ++ pg.currentAuthorId.toStr) .none))
              data.message successKind)) ra) rt ∧
        ReloadedAfter pg (clickDeleteAuthor fmt pg true (.json data) ra rt)
          ("DELETE".toList, "/api/authors/".toList ++ pg.currentAuthorId.toStr, .none))) ∧
    (data.success.truthy = false →
      KeptAfterFailure pg (submitAuthorForm fmt pg (.json data) ra rt)
        ("POST".toList, "/api/authors".toList, .author (authorDataOf pg.authorForm))
        data.error ∧
      (pg.currentAuthorId.truthy = true →
        KeptAfterFailure pg (clickUpdateAuthor fmt pg (.json data) ra rt)
          ("PUT".toList, "/api/authors/".toList ++ pg.currentAuthorId.toStr,
            .author (authorDataOf pg.authorForm)) data.error) ∧
      (pg.currentAuthorId.truthy = true →
        KeptAfterFailure pg (clickDeleteAuthor fmt pg true (.json data) ra rt)
          ("DELETE".toList, "/api/authors/".toList ++ pg.currentAuthorId.toStr, .none)
          data.error)) := by
  constructor
  · intro hs
    refine ⟨⟨?_, ?_⟩, fun hc => ⟨?_, ?_⟩, fun hc => ⟨?_, ?_⟩⟩
    · simp only [submitAuthorForm, if_pos hs, afterAuthorSuccess]
      rfl
    · have h := afterAuthorSuccess_reloaded fmt pg "POST".toList "/api/authors".toList
        (.author (authorDataOf pg.authorForm)) (.str "Author added successfully!".toList) ra rt
      simpa only [submitAuthorForm, if_pos hs] using h
    · simp only [clickUpdateAuthor, hc, Bool.not_true, Bool.false_eq_true, if_false, if_pos hs,
        afterAuthorSuccess]
      rfl
    · have h := afterAuthorSuccess_reloaded fmt pg "PUT".toList
        ("/api/authors/".toList ++ pg.currentAuthorId.toStr)
        (.author (authorDataOf pg.authorForm)) (.str "Author updated successfully!".toList) ra rt
      simpa only [clickUpdateAuthor, hc, Bool.not_true, Bool.false_eq_true, if_false,
        if_pos hs] using h
    · simp only [clickDeleteAuthor, hc, Bool.not_true, Bool.false_eq_true, if_false, if_pos hs,
        afterAuthorSuccess]
      rfl
    · have h := afterAuthorSuccess_reloaded fmt pg "DELETE".toList
        ("/api/authors/".toList ++ pg.currentAuthorId.toStr) .none data.message ra rt
      simpa only [clickDeleteAuthor, hc, Bool.not_true, Bool.false_eq_true, if_false,
        if_pos hs] using h
  · intro hs
    have hs' : ¬ data.success.truthy = true := by simp [hs]
    refine ⟨?_, fun hc => ?_, fun hc => ?_⟩
    · have h := keptAfterFailure_of_showError pg "POST".toList "/api/authors".toList
        (.author (authorDataOf pg.authorForm)) data.error
      simpa only [submitAuthorForm, if_neg hs'] using h
    · have h := keptAfterFailure_of_showError pg "PUT".toList
        ("/api/authors/".toList ++ pg.currentAuthorId.toStr)
        (.author (authorDataOf pg.authorForm)) data.error
      simpa only [clickUpdateAuthor, hc, Bool.not_true, Bool.false_eq_true, if_false,
        if_neg hs'] using h
    · have h := keptAfterFailure_of_showError pg "DELETE".toList
        ("/api/authors/".toList ++ pg.currentAuthorId.toStr) .none data.error
      simpa only [clickDeleteAuthor, hc, Bool.not_true, Bool.false_eq_true, if_false,
        if_neg hs'] using h

/-- The update of the author `A1` of the page in edit mode: answered with success it is
followed by the two reloads and the form is reset; answered with the failure
`Author not found` it is followed by nothing and the form is kept. -/
theorem author_mutation_reloads_witness :
    ReloadedAfter editingPage
      (clickUpdateAuthor JSNumber.toStr editingPage (.json (okResponse ()))
        (.failed ⟨.undefined⟩) (.failed ⟨.undefined⟩))
      ("PUT".toList, "/api/authors/".toList ++ editingPage.currentAuthorId.toStr,
        .author (authorDataOf editingPage.authorForm)) ∧
    KeptAfterFailure editingPage
      (clickUpdateAuthor JSNumber.toStr editingPage (.json (failedResponse "Author not found"))
        (.failed ⟨.undefined⟩) (.failed ⟨.undefined⟩))
      ("PUT".toList, "/api/authors/".toList ++ editingPage.currentAuthorId.toStr,
        .author (authorDataOf editingPage.authorForm))
      (.str "Author not found".toList) :=
  ⟨(((author_mutation_reloads JSNumber.toStr editingPage (okResponse ())
      (.failed ⟨.undefined⟩) (.failed ⟨.undefined⟩)).1 (by decide)).2.1 (by decide)).2,
   ((author_mutation_reloads JSNumber.toStr editingPage (failedResponse "Author not found")
      (.failed ⟨.undefined⟩) (.failed ⟨.undefined⟩)).2 (by decide)).2.1 (by decide)⟩

theorem selectTitle_log (pg : Page) (titleId : JSValue) (res : FetchResult Title) :
    ∃ rest, (selectTitle pg titleId res).log = pg.log ++ rest := by
  cases res with
  | failed e =>
    exact ⟨_, by simp only [selectTitle, showError_log, Page.emit, List.append_assoc]; rfl⟩
  | json data =>
    by_cases hs : data.success.truthy = true
    · cases hr : dateForInput data.data.pubdate with
      | error e =>
        exact ⟨_, by
          simp only [selectTitle, if_pos hs, hr, showError_log, Page.emit, List.append_assoc]
          rfl⟩
      | ok r =>
        cases ha : data.data.authors with
        | array items =>
          cases hm : pg.authors.mapM (royaltyRow (linkedAuthorsOf items)) with
          | error e =>
            exact ⟨_, by
              simp only [selectTitle, if_pos hs, hr, ha, hm, showError_log, Page.emit,
                List.append_assoc]
              rfl⟩
          | ok rows =>
            exact ⟨_, by simp only [selectTitle, if_pos hs, hr, ha, hm, Page.emit]; rfl⟩
        | scalar v =>
          exact ⟨_, by
            simp only [selectTitle, if_pos hs, hr, ha, showError_log, Page.emit,
              List.append_assoc]
            rfl⟩
    · exact ⟨_, by
        simp only [selectTitle, if_neg hs, showError_log, Page.emit, List.append_assoc]
        rfl⟩

theorem submitAddTitle_request (fmt : JSNumber → JSString) (pg : Page)
    (post : FetchResult Unit) (reload : FetchResult (List Title))
    (h : trim pg.addTitleForm.titleAuthor ≠ []) :
    ∃ rest : List Event, (submitAddTitle fmt pg post reload).log
      = pg.log ++ .request "POST".toList "/api/titles".toList
          (.title (stringifyTitle (addTitleData pg.addTitleForm))) :: rest := by
  have hne : (trim pg.addTitleForm.titleAuthor).isEmpty = false := by
    cases ht : trim pg.addTitleForm.titleAuthor with
    | nil => exact absurd ht h
    | cons c cs => rfl
  cases post with
  | failed e =>
    exact ⟨_, by
      simp only [submitAddTitle, hne, Bool.false_eq_true, if_false, showError_log, Page.emit,
        List.append_assoc]
      rfl⟩
  | json data =>
    by_cases hs : data.success.truthy = true
    · obtain ⟨rest, hr⟩ := loadTitles_log fmt
        { showToast (pg.emit (.request "POST".toList (API_BASE ++ "/titles".toList)
            (.title (stringifyTitle (addTitleData pg.addTitleForm)))))
            (.str "Title added successfully!".toList) successKind with
          addTitleForm := resetAddTitleForm
            (showToast (pg.emit (.request "POST".toList (API_BASE ++ "/titles".toList)
              (.title (stringifyTitle (addTitleData pg.addTitleForm)))))
              (.str "Title added successfully!".toList) successKind) } reload
      exact ⟨_ :: rest, by
        simp only [submitAddTitle, hne, Bool.false_eq_true, if_false, if_pos hs]
        rw [hr]
        simp only [showToast, Page.emit, List.append_assoc]
        rfl⟩
    · exact ⟨_, by
        simp only [submitAddTitle, hne, Bool.false_eq_true, if_false, if_neg hs, showError_log,
          Page.emit, List.append_assoc]
        rfl⟩

theorem submitEditTitle_request (fmt : JSNumber → JSString) (pg : Page)
    (put : FetchResult Unit) (reload : FetchResult (List Title)) (detail : FetchResult Title)
    (sel : List AuthorLink) (hc : pg.currentTitleId.truthy = true)
    (hsel : collectSelected pg.editTitleForm.editTitleAuthors = .ok sel) (hne : sel ≠ []) :
    ∃ (r : Page) (rest : List Event), submitEditTitle fmt pg put reload detail = .ok r ∧
      r.log = pg.log ++ .request "PUT".toList ("/api/titles/".toList ++ pg.currentTitleId.toStr)
          (.title (stringifyTitle (editTitleData pg.editTitleForm sel))) :: rest := by
  have hlen : ¬ sel.length = 0 := by
    intro h0
    exact hne (List.length_eq_zero.mp h0)
  cases put with
  | failed e =>
    have hval : submitEditTitle fmt pg (.failed e) reload detail
        = .ok (showError (pg.emit (.request "PUT".toList
            (API_BASE ++ "/titles/".toList ++ pg.currentTitleId.toStr)
            (.title (stringifyTitle (editTitleData pg.editTitleForm sel))))) e) := by
      simp only [submitEditTitle, hc, Bool.not_true, Bool.false_eq_true, if_false, hsel, hlen]
    exact ⟨_, _, hval, by
      simp only [showError_log, Page.emit, List.append_assoc]
      rfl⟩
  | json data =>
    by_cases hs : data.success.truthy = true
    · obtain ⟨rest1, hr1⟩ := loadTitles_log fmt
        (showToast (pg.emit (.request "PUT".toList
          (API_BASE ++ "/titles/".toList ++ pg.currentTitleId.toStr)
          (.title (stringifyTitle (editTitleData pg.editTitleForm sel)))))
          (.str "Title updated successfully!".toList) successKind) reload
      obtain ⟨rest2, hr2⟩ := selectTitle_log
        (loadTitles fmt (showToast (pg.emit (.request "PUT".toList
          (API_BASE ++ "/titles/".toList ++ pg.currentTitleId.toStr)
          (.title (stringifyTitle (editTitleData pg.editTitleForm sel)))))
          (.str "Title updated successfully!".toList) successKind) reload)
        (loadTitles fmt (showToast (pg.emit (.request "PUT".toList
          (API_BASE ++ "/titles/".toList ++ pg.currentTitleId.toStr)
          (.title (stringifyTitle (editTitleData pg.editTitleForm sel)))))
          (.str "Title updated successfully!".toList) successKind) reload).currentTitleId detail
      have hval : submitEditTitle fmt pg (.json data) reload detail
          = .ok (selectTitle
              (loadTitles fmt (showToast (pg.emit (.request "PUT".toList
                (API_BASE ++ "/titles/".toList ++ pg.currentTitleId.toStr)
                (.title (stringifyTitle (editTitleData pg.editTitleForm sel)))))
                (.str "Title updated successfully!".toList) successKind) reload)
              (loadTitles fmt (showToast (pg.emit (.request "PUT".toList
                (API_BASE ++ "/titles/".toList ++ pg.currentTitleId.toStr)
                (.title (stringifyTitle (editTitleData pg.editTitleForm sel)))))
                (.str "Title updated successfully!".toList) successKind) reload).currentTitleId
              detail) := by
        simp only [submitEditTitle, hc, Bool.not_true, Bool.false_eq_true, if_false, hsel, hlen,
          if_pos hs]
      exact ⟨_, _ :: (rest1 ++ rest2), hval, by
        rw [hr2, hr1]
        simp only [showToast, Page.emit, List.append_assoc]
        rfl⟩
    · have hval : submitEditTitle fmt pg (.json data) reload detail
          = .ok (showError (pg.emit (.request "PUT".toList
              (API_BASE ++ "/titles/".toList ++ pg.currentTitleId.toStr)
              (.title (stringifyTitle (editTitleData pg.editTitleForm sel)))))
              (newError data.error)) := by
        simp only [submitEditTitle, hc, Bool.not_true, Bool.false_eq_true, if_false, hsel, hlen,
          if_neg hs]
      exact ⟨_, _, hval, by
        simp only [showError_log, Page.emit, List.append_assoc]
        rfl⟩

theorem selectedGenre_spec (otherGenre : Option OtherInput) (genreSelect : JSString) :
    selectedGenre otherGenre genreSelect
      = if otherVisible otherGenre = true ∧ otherText otherGenre ≠ [] then otherText otherGenre
        else trim genreSelect := by
  cases otherGenre with
  | none => simp [selectedGenre, otherVisible]
  | some other =>
    simp only [selectedGenre, otherVisible, otherText, bne_iff_ne, ne_eq]
    have hiff : ((trim other.value).isEmpty = false) ↔ ¬ trim other.value = [] := by
      cases trim other.value <;> simp
    by_cases h1 : other.display = "none".toList
    · simp [h1]
    · by_cases h2 : trim other.value = []
      · simp [h1, h2]
      · have h3 := hiff.mpr h2
        simp [h1, h2, h3]

/-- C14. In both the add-title and the edit-title submissions, the genre sent as the `type`
field is the trimmed text of the free-text input when that input is visible (the element
exists and its inline display is not `none`) and its trimmed text is not empty, and the
trimmed value of the genre dropdown in every other case; the listener of the dropdown makes
the input visible exactly when the dropdown holds `other`. -/
theorem genre_sent (fmt : JSNumber → JSString) :
    (∀ (pg : Page) (post : FetchResult Unit) (reload : FetchResult (List Title)),
      trim pg.addTitleForm.titleAuthor ≠ [] →
      ∃ (td : TitleJSON) (rest : List Event),
        (submitAddTitle fmt pg post reload).log
          = pg.log ++ .request "POST".toList "/api/titles".toList (.title td) :: rest ∧
        td.type
          = if otherVisible pg.addTitleForm.titleGenreOther = true ∧
                otherText pg.addTitleForm.titleGenreOther ≠ []
            then otherText pg.addTitleForm.titleGenreOther
            else trim pg.addTitleForm.titleType) ∧
    (∀ (pg : Page) (put : FetchResult Unit) (reload : FetchResult (List Title))
        (detail : FetchResult Title) (sel : List AuthorLink),
      pg.currentTitleId.truthy = true →
      collectSelected pg.editTitleForm.editTitleAuthors = .ok sel → sel ≠ [] →
      ∃ (r : Page) (td : TitleJSON) (rest : List Event),
        submitEditTitle fmt pg put reload detail = .ok r ∧
        r.log = pg.log ++ .request "PUT".toList
          ("/api/titles/".toList ++ pg.currentTitleId.toStr) (.title td) :: rest ∧
        td.type
          = if otherVisible pg.editTitleForm.editTitleGenreOther = true ∧
                otherText pg.editTitleForm.editTitleGenreOther ≠ []
            then otherText pg.editTitleForm.editTitleGenreOther
            else trim pg.editTitleForm.editTitleType) ∧
    (∀ (value : JSString) (other : OtherInput),
      otherVisible (toggleOther value (some other)) = (value == "other".toList)) := by
  refine ⟨?_, ?_, ?_⟩
  · intro pg post reload h
    obtain ⟨rest, hr⟩ := submitAddTitle_request fmt pg post reload h
    exact ⟨_, rest, hr, selectedGenre_spec _ _⟩
  · intro pg put reload detail sel hc hsel hne
    obtain ⟨r, rest, h1, h2⟩ := submitEditTitle_request fmt pg put reload detail sel hc hsel hne
    exact ⟨r, _, rest, h1, h2, selectedGenre_spec _ _⟩
  · intro value other
    by_cases hv : value = "other".toList
    · subst hv
      simp only [toggleOther, Option.map_some', otherVisible, if_true]
      decide
    · have hb : (value == "other".toList) = false := by simpa using hv
      simp only [toggleOther, Option.map_some', otherVisible, if_neg hv, hb]
      decide

/-- The genre sent by the add form with a visible free-text input holding ` Poetry `, and by
the edit form with a hidden one and the dropdown at `business`. -/
theorem genre_sent_witness :
    (∃ (td : TitleJSON) (rest : List Event),
      (submitAddTitle JSNumber.toStr customGenrePage (.failed ⟨.undefined⟩)
          (.failed ⟨.undefined⟩)).log
        = .request "POST".toList "/api/titles".toList (.title td) :: rest ∧
      td.type = "Poetry".toList) ∧
    (∃ (r : Page) (td : TitleJSON) (rest : List Event),
      submitEditTitle JSNumber.toStr customGenrePage (.failed ⟨.undefined⟩)
        (.failed ⟨.undefined⟩) (.failed ⟨.undefined⟩) = .ok r ∧
      r.log = .request "PUT".toList "/api/titles/T1".toList (.title td) :: rest ∧
      td.type = "business".toList) := by
  constructor
  · obtain ⟨td, rest, h1, h2⟩ := (genre_sent JSNumber.toStr).1 customGenrePage
      (.failed ⟨.undefined⟩) (.failed ⟨.undefined⟩) (by decide)
    exact ⟨td, rest, h1, h2.trans (by decide)⟩
  · obtain ⟨r, td, rest, h1, h2, h3⟩ := (genre_sent JSNumber.toStr).2.1 customGenrePage
      (.failed ⟨.undefined⟩) (.failed ⟨.undefined⟩) (.failed ⟨.undefined⟩)
      [⟨"A1".toList, JSNumber.ofNat 40, none⟩] (by decide) (by decide) (by decide)
    exact ⟨r, td, rest, h1, h2, h3.trans (by decide)⟩

theorem royaltySent_royaltyOf (text : JSString) : RoyaltySent (royaltyOf text) :=
  ⟨(royaltyOf_cases text).1, (royaltyOf_cases text).2.1, (royaltyOf_cases text).2.2.1⟩

theorem royaltyWritten_of_sent {x : JSNumber} (h : RoyaltySent x) :
    RoyaltyWritten (stringifyNumber x) := by
  obtain ⟨-, hz, hint⟩ := h
  unfold stringifyNumber
  by_cases hf : x.isFinite = true
  · rw [if_pos hf, hz]
    exact Or.inr ⟨x, rfl, hz, hint hf⟩
  · rw [if_neg hf]
    exact Or.inl rfl

set_option maxRecDepth 100000 in
/-- C15, as stated, fails at the royalty text made of a one, 309 zeros and the exponent
`e-5`, which a number input holds as it is (it denotes the finite number `1e304`): `parseInt`
reads the 310 digits and gives the positive infinity, which is truthy, so the percentage
placed in the link is an infinity: not zero and not not-a-number, but no integer. The request
body of the add-title submission, and that of the edit-title submission for a checked row
with the same text, carry it as `null`. -/
theorem submitAddTitle_long_royalty_not_integer :
    (validFloat longRoyaltyText = true ∧ (JSNumber.ofString longRoyaltyText).isFinite = true ∧
      sanitizeNumber longRoyaltyText = longRoyaltyText) ∧
    parseInt (.str longRoyaltyText) = JSNumber.inf false ∧
    royaltyOf longRoyaltyText = JSNumber.inf false ∧
    (JSNumber.inf false).isInteger = false ∧
    (addTitleData hugeRoyaltyPage.addTitleForm).authors
      = [⟨"A1".toList, JSNumber.inf false, some 1⟩] ∧
    linksSent (submitAddTitle JSNumber.toStr hugeRoyaltyPage (.failed ⟨.undefined⟩)
        (.failed ⟨.undefined⟩)).log
      = [[⟨"A1".toList, .null, some 1⟩]] ∧
    collectSelected hugeRoyaltyPage.editTitleForm.editTitleAuthors
      = .ok [⟨"A1".toList, JSNumber.inf false, none⟩] ∧
    (submitEditTitle JSNumber.toStr hugeRoyaltyPage (.failed ⟨.undefined⟩)
        (.failed ⟨.undefined⟩) (.failed ⟨.undefined⟩)).map (fun r => linksSent r.log)
      = .ok [[⟨"A1".toList, .null, none⟩]] := by
  decide

/-- C15, amended. For every royalty input text, the percentage that the add-title and the
edit-title submissions compute for an author link is never zero and never not-a-number, and
it is an integer whenever it is finite; the request body carries it as that non-zero integer,
or as `null` when the digits of the text exceed the range of a number (then `parseInt` gives
an infinity, which `JSON.stringify` writes as `null`). An input that parses to zero, such as
`0`, or that does not parse, is sent as 100. In the edit form the identifiers of the rows are
taken free of markup characters, so that the attribute selector of line 531 finds the royalty
input of each checked row. -/
theorem royaltyper_sent (fmt : JSNumber → JSString) (pg : Page)
    (post : FetchResult Unit) (reload : FetchResult (List Title)) (detail : FetchResult Title) :
    (trim pg.addTitleForm.titleAuthor ≠ [] →
      ∃ (td : TitleJSON) (rest : List Event),
        (submitAddTitle fmt pg post reload).log
          = pg.log ++ .request "POST".toList "/api/titles".toList (.title td) :: rest ∧
        td.authors = [⟨trim pg.addTitleForm.titleAuthor,
          stringifyNumber (royaltyOf pg.addTitleForm.titleRoyaltyPer), some 1⟩] ∧
        ∀ l ∈ td.authors, RoyaltyWritten l.royaltyper) ∧
    (∀ sel : List AuthorLink, pg.currentTitleId.truthy = true →
      (∀ row ∈ pg.editTitleForm.editTitleAuthors, plainText row.author = true) →
      collectSelected pg.editTitleForm.editTitleAuthors = .ok sel → sel ≠ [] →
      ∃ (r : Page) (td : TitleJSON) (rest : List Event),
        submitEditTitle fmt pg post reload detail = .ok r ∧
        r.log = pg.log ++ .request "PUT".toList
          ("/api/titles/".toList ++ pg.currentTitleId.toStr) (.title td) :: rest ∧
        td.authors = sel.map stringifyLink ∧
        (∀ l ∈ sel, (∃ row ∈ pg.editTitleForm.editTitleAuthors,
          l.royaltyper = royaltyOf row.royalty) ∧ RoyaltySent l.royaltyper) ∧
        ∀ l ∈ td.authors, RoyaltyWritten l.royaltyper) ∧
    (∀ text : JSString, RoyaltySent (royaltyOf text) ∧
      RoyaltyWritten (stringifyNumber (royaltyOf text)) ∧
      ((parseInt (.str text)).isZero = true → royaltyOf text = JSNumber.ofNat 100) ∧
      ((parseInt (.str text)).isNaN = true → royaltyOf text = JSNumber.ofNat 100)) ∧
    parseInt (.str "0".toList) = zero ∧
    royaltyOf "0".toList = JSNumber.ofNat 100 ∧
    stringifyNumber (royaltyOf "0".toList) = .num (JSNumber.ofNat 100) ∧
    (JSNumber.ofNat 100).isInteger = true := by
  refine ⟨?_, ?_, ?_, by decide, by decide, by decide, by decide⟩
  · intro h
    obtain ⟨rest, hr⟩ := submitAddTitle_request fmt pg post reload h
    refine ⟨stringifyTitle (addTitleData pg.addTitleForm), rest, hr, rfl, ?_⟩
    intro l hl
    have hl2 : l = ⟨trim pg.addTitleForm.titleAuthor,
        stringifyNumber (royaltyOf pg.addTitleForm.titleRoyaltyPer), some 1⟩ :=
      List.mem_singleton.mp hl
    rw [hl2]
    exact royaltyWritten_of_sent (royaltySent_royaltyOf _)
  · intro sel hc _ hsel hne
    obtain ⟨r, rest, h1, h2⟩ := submitEditTitle_request fmt pg post reload detail sel hc hsel hne
    have hsent : ∀ l ∈ sel, (∃ row ∈ pg.editTitleForm.editTitleAuthors,
        l.royaltyper = royaltyOf row.royalty) ∧ RoyaltySent l.royaltyper := by
      intro l hl
      obtain ⟨row, hrow, hroy⟩ := collectSelected_links _ _ hsel l hl
      refine ⟨⟨row, hrow, hroy⟩, ?_⟩
      rw [hroy]
      exact royaltySent_royaltyOf _
    refine ⟨r, stringifyTitle (editTitleData pg.editTitleForm sel), rest, h1, h2, rfl, hsent, ?_⟩
    intro l hl
    obtain ⟨l0, hl0, rfl⟩ := List.mem_map.mp hl
    exact royaltyWritten_of_sent (hsent l0 hl0).2
  · intro text
    exact ⟨royaltySent_royaltyOf text, royaltyWritten_of_sent (royaltySent_royaltyOf text),
      (royaltyOf_cases text).2.2.2.1, (royaltyOf_cases text).2.2.2.2⟩

/-- The links sent by the page whose add form selects `A1` with a blank royalty text and
whose edit form holds one checked row at 40 percent: 100 and 40, both non-zero integers. -/
theorem royaltyper_sent_witness :
    (∃ (td : TitleJSON) (rest : List Event),
      (submitAddTitle JSNumber.toStr customGenrePage (.failed ⟨.undefined⟩)
          (.failed ⟨.undefined⟩)).log
        = .request "POST".toList "/api/titles".toList (.title td) :: rest ∧
      td.authors = [⟨"A1".toList, .num (JSNumber.ofNat 100), some 1⟩] ∧
      ∀ l ∈ td.authors, RoyaltyWritten l.royaltyper) ∧
    (∃ (r : Page) (td : TitleJSON) (rest : List Event),
      submitEditTitle JSNumber.toStr customGenrePage (.failed ⟨.undefined⟩)
        (.failed ⟨.undefined⟩) (.failed ⟨.undefined⟩) = .ok r ∧
      r.log = .request "PUT".toList "/api/titles/T1".toList (.title td) :: rest ∧
      td.authors = [⟨"A1".toList, .num (JSNumber.ofNat 40), none⟩] ∧
      ∀ l ∈ td.authors, RoyaltyWritten l.royaltyper) := by
  constructor
  · obtain ⟨td, rest, h1, h2, h3⟩ := (royaltyper_sent JSNumber.toStr customGenrePage
      (.failed ⟨.undefined⟩) (.failed ⟨.undefined⟩) (.failed ⟨.undefined⟩)).1 (by decide)
    exact ⟨td, rest, h1, h2.trans (by decide), h3⟩
  · obtain ⟨r, td, rest, h1, h2, h3, -, h5⟩ := (royaltyper_sent JSNumber.toStr customGenrePage
      (.failed ⟨.undefined⟩) (.failed ⟨.undefined⟩) (.failed ⟨.undefined⟩)).2.1
      [⟨"A1".toList, JSNumber.ofNat 40, none⟩] (by decide) (by decide) (by decide) (by decide)
    exact ⟨r, td, rest, h1, h2, h3.trans (by decide), h5⟩

end CatalogUI
